import Mathlib

/-!
# govultr: the Managed Database handler (database.go)

A shallow embedding of the request and response types of database.go, of the
JSON encoding that their struct tags drive, and of the handler methods of
DatabaseServiceHandler, followed by the properties proved about them.
-/

namespace Govultr

/-! ## Go types and values -/

/-- A field of a Go struct declaration: its name, type, tag key and omitempty flag. -/
structure FieldDecl (τ : Type) where
  name : String
  type : τ
  key : String
  omitempty : Bool

/-- The Go types that occur in database.go; named is the recursive occurrence of a
declared struct type inside its own declaration (Database in ReadReplicas). -/
inductive GoType where
  | string
  | int
  | bool
  | float32
  | ptr (elem : GoType)
  | slice (elem : GoType)
  | struct (name : String) (fields : List (FieldDecl GoType))
  | named (name : String)

/-- A field of a struct value; it carries the tag of its declaration, as a
reflect.Value carries its type. -/
structure FieldVal (υ : Type) where
  name : String
  key : String
  omitempty : Bool
  val : υ

/-- Go values. A float32 is kept as its IEEE-754 bit pattern; nil is the nil pointer
or the nil slice. -/
inductive GoVal where
  | str (s : String)
  | int (n : Int)
  | bool (b : Bool)
  | float (bits : Nat)
  | nil
  | ptr (v : GoVal)
  | slice (xs : List GoVal)
  | struct (name : String) (fields : List (FieldVal GoVal))

/-- JSON documents as trees. An object keeps its members in order; float is a
number written from a float32, kept as its bit pattern. -/
inductive JSON where
  | null
  | bool (b : Bool)
  | num (n : Int)
  | float (bits : Nat)
  | str (s : String)
  | arr (xs : List JSON)
  | obj (members : List (String × JSON))

mutual
/-- The zero value of a Go type. -/
def zeroValue : GoType → GoVal
  | .string => .str ""
  | .int => .int 0
  | .bool => .bool false
  | .float32 => .float 0
  | .ptr _ => .nil
  | .slice _ => .nil
  | .struct name fields => .struct name (zeroFields fields)
  | .named _ => .nil
/-- The zero values of the fields of a struct declaration. -/
def zeroFields : List (FieldDecl GoType) → List (FieldVal GoVal)
  | [] => []
  | f :: fs => ⟨f.name, f.key, f.omitempty, zeroValue f.type⟩ :: zeroFields fs
end

/-- The fields of a struct value (through a pointer). -/
def GoVal.fields : GoVal → List (FieldVal GoVal)
  | .struct _ fs => fs
  | .ptr (.struct _ fs) => fs
  | _ => []

/-- Lookup of a field value by field name. -/
def lookupField (name : String) : List (FieldVal GoVal) → GoVal
  | [] => .nil
  | f :: fs => if f.name = name then f.val else lookupField name fs

/-- Selector expression v.name. -/
def GoVal.field (v : GoVal) (name : String) : GoVal :=
  lookupField name v.fields

/-- Assignment of x to the field called name. -/
def assignField (name : String) (x : GoVal) : List (FieldVal GoVal) → List (FieldVal GoVal)
  | [] => []
  | f :: fs => if f.name = name then { f with val := x } :: fs else f :: assignField name x fs

/-- Assignment v.name = x. -/
def GoVal.setField (v : GoVal) (name : String) (x : GoVal) : GoVal :=
  match v with
  | .struct n fs => .struct n (assignField name x fs)
  | .ptr (.struct n fs) => .ptr (.struct n (assignField name x fs))
  | v => v

/-! ## encoding/json: Marshal -/

/-- Emptiness test of encoding/json for omitempty: false, 0, a nil pointer, and an
empty slice or string. -/
def isEmptyValue : GoVal → Bool
  | .str s => s.length == 0
  | .int n => n == 0
  | .bool b => !b
  | .float bits => bits % 2147483648 == 0
  | .nil => true
  | .ptr _ => false
  | .slice xs => xs.length == 0
  | .struct _ _ => false

/-- A float32 bit pattern that is neither a NaN nor an infinity: its exponent bits are
not all set. -/
def finite32 (bits : Nat) : Bool :=
  (bits / 8388608) % 256 != 255

mutual
/-- The JSON encoding of a Go value: json.Marshal. It fails on a float32 that is a NaN
or an infinity. -/
def marshal : GoVal → Option JSON
  | .str s => some (.str s)
  | .int n => some (.num n)
  | .bool b => some (.bool b)
  | .float bits => if finite32 bits then some (.float bits) else none
  | .nil => some .null
  | .ptr v => marshal v
  | .slice xs =>
    match marshalElems xs with
    | some js => some (.arr js)
    | none => none
  | .struct _ fields =>
    match marshalFields fields with
    | some ms => some (.obj ms)
    | none => none
/-- The encodings of the elements of a slice. -/
def marshalElems : List GoVal → Option (List JSON)
  | [] => some []
  | x :: xs =>
    match marshal x, marshalElems xs with
    | some j, some js => some (j :: js)
    | _, _ => none
/-- The members written for the fields of a struct, in declaration order; a field
tagged omitempty whose value is empty is skipped. -/
def marshalFields : List (FieldVal GoVal) → Option (List (String × JSON))
  | [] => some []
  | ⟨_, key, omitempty, val⟩ :: fs =>
    if omitempty && isEmptyValue val then marshalFields fs
    else
      match marshal val, marshalFields fs with
      | some j, some ms => some ((key, j) :: ms)
      | _, _ => none
end

/-- The value of the first member with the given key. -/
def lookupKey (key : String) : List (String × JSON) → Option JSON
  | [] => none
  | (k, j) :: ms => if k = key then some j else lookupKey key ms

/-- The members of a JSON object. -/
def JSON.members : JSON → List (String × JSON)
  | .obj ms => ms
  | _ => []

/-- The member of a JSON object under a key, if there is one. -/
def JSON.get (j : JSON) (key : String) : Option JSON :=
  lookupKey key j.members

/-- The keys of a JSON object. -/
def JSON.keys (j : JSON) : List String :=
  j.members.map Prod.fst

/-! ## Struct declarations -/

/-- Modelled from the spec: the type Links is declared outside database.go; the spec
gives the pagination links as an object with the cursors next and prev. -/
def Links : GoType := .struct "Links" [
  ⟨"Next", .string, "next", false⟩,
  ⟨"Prev", .string, "prev", false⟩]

/-- Modelled from the spec: the type Meta is declared outside database.go; the spec
gives it as a total count and the links object. -/
def Meta : GoType := .struct "Meta" [
  ⟨"Total", .int, "total", false⟩,
  ⟨"Links", Links, "links", false⟩]

/-- Go struct type DBPlanListOptions (database.go line 68). -/
def DBPlanListOptions : GoType := .struct "DBPlanListOptions" [
  ⟨"Engine", .string, "engine", true⟩,
  ⟨"Nodes", .int, "nodes", true⟩,
  ⟨"Region", .string, "region", true⟩]

/-- Go struct type SupportedEngines (database.go line 89). -/
def SupportedEngines : GoType := .struct "SupportedEngines" [
  ⟨"MySQL", .ptr .bool, "mysql", false⟩,
  ⟨"PG", .ptr .bool, "pg", false⟩,
  ⟨"Redis", .ptr .bool, "redis", false⟩]

/-- Go struct type MaxConnections (database.go line 96). -/
def MaxConnections : GoType := .struct "MaxConnections" [
  ⟨"MySQL", .int, "mysql", true⟩,
  ⟨"PG", .int, "pg", true⟩]

/-- Go struct type DatabasePlan (database.go line 75). -/
def DatabasePlan : GoType := .struct "DatabasePlan" [
  ⟨"ID", .string, "id", false⟩,
  ⟨"NumberOfNodes", .int, "number_of_nodes", false⟩,
  ⟨"Type", .string, "type", false⟩,
  ⟨"VCPUCount", .int, "vcpu_count", false⟩,
  ⟨"RAM", .int, "ram", false⟩,
  ⟨"Disk", .int, "disk", false⟩,
  ⟨"MonthlyCost", .int, "monthly_cost", false⟩,
  ⟨"SupportedEngines", SupportedEngines, "supported_engines", false⟩,
  ⟨"MaxConnections", .ptr MaxConnections, "max_connections", true⟩,
  ⟨"Locations", .slice .string, "locations", false⟩]

/-- Go struct type databasePlansBase (database.go line 101). -/
def databasePlansBase : GoType := .struct "databasePlansBase" [
  ⟨"DatabasePlans", .slice DatabasePlan, "plans", false⟩,
  ⟨"Meta", .ptr Meta, "meta", false⟩]

/-- Go struct type DBListOptions (database.go line 106). -/
def DBListOptions : GoType := .struct "DBListOptions" [
  ⟨"Label", .string, "label", true⟩,
  ⟨"Tag", .string, "tag", true⟩,
  ⟨"Region", .string, "region", true⟩]

/-- Go struct type PGExtension (database.go line 147). -/
def PGExtension : GoType := .struct "PGExtension" [
  ⟨"Name", .string, "name", false⟩,
  ⟨"Versions", .slice .string, "versions", true⟩]

/-- Go struct type Database (database.go line 113). -/
def Database : GoType := .struct "Database" [
  ⟨"ID", .string, "id", false⟩,
  ⟨"DateCreated", .string, "date_created", false⟩,
  ⟨"Plan", .string, "plan", false⟩,
  ⟨"PlanDisk", .int, "plan_disk", false⟩,
  ⟨"PlanRAM", .int, "plan_ram", false⟩,
  ⟨"PlanVCPUs", .int, "plan_vcpus", false⟩,
  ⟨"PlanReplicas", .int, "plan_replicas", false⟩,
  ⟨"Region", .string, "region", false⟩,
  ⟨"Status", .string, "status", false⟩,
  ⟨"Label", .string, "label", false⟩,
  ⟨"Tag", .string, "tag", false⟩,
  ⟨"DatabaseEngine", .string, "database_engine", false⟩,
  ⟨"DatabaseEngineVersion", .string, "database_engine_version", false⟩,
  ⟨"DBName", .string, "dbname", true⟩,
  ⟨"Host", .string, "host", false⟩,
  ⟨"User", .string, "user", false⟩,
  ⟨"Password", .string, "password", false⟩,
  ⟨"Port", .string, "port", false⟩,
  ⟨"MaintenanceDOW", .string, "maintenance_dow", false⟩,
  ⟨"MaintenanceTime", .string, "maintenance_time", false⟩,
  ⟨"LatestBackup", .string, "latest_backup", false⟩,
  ⟨"TrustedIPs", .slice .string, "trusted_ips", false⟩,
  ⟨"MySQLSQLModes", .slice .string, "mysql_sql_modes", true⟩,
  ⟨"MySQLRequirePrimaryKey", .ptr .bool, "mysql_require_primary_key", true⟩,
  ⟨"MySQLSlowQueryLog", .ptr .bool, "mysql_slow_query_log", true⟩,
  ⟨"MySQLLongQueryTime", .int, "mysql_long_query_time", true⟩,
  ⟨"PGAvailableExtensions", .slice PGExtension, "pg_available_extensions", true⟩,
  ⟨"RedisEvictionPolicy", .string, "redis_eviction_policy", true⟩,
  ⟨"ClusterTimeZone", .string, "cluster_time_zone", true⟩,
  ⟨"ReadReplicas", .slice (.named "Database"), "read_replicas", true⟩]

/-- Go struct type databasesBase (database.go line 152). -/
def databasesBase : GoType := .struct "databasesBase" [
  ⟨"Databases", .slice Database, "databases", false⟩,
  ⟨"Meta", .ptr Meta, "meta", false⟩]

/-- Go struct type databaseBase (database.go line 157). -/
def databaseBase : GoType := .struct "databaseBase" [
  ⟨"Database", .ptr Database, "database", false⟩]

/-- Go struct type DatabaseCreateReq (database.go line 162). -/
def DatabaseCreateReq : GoType := .struct "DatabaseCreateReq" [
  ⟨"DatabaseEngine", .string, "database_engine", true⟩,
  ⟨"DatabaseEngineVersion", .string, "database_engine_version", true⟩,
  ⟨"Region", .string, "region", true⟩,
  ⟨"Plan", .string, "plan", true⟩,
  ⟨"Label", .string, "label", true⟩,
  ⟨"Tag", .string, "tag", true⟩,
  ⟨"MaintenanceDOW", .string, "maintenance_dow", true⟩,
  ⟨"MaintenanceTime", .string, "maintenance_time", true⟩,
  ⟨"TrustedIPs", .slice .string, "trusted_ips", true⟩,
  ⟨"MySQLSQLModes", .slice .string, "mysql_sql_modes", true⟩,
  ⟨"MySQLRequirePrimaryKey", .ptr .bool, "mysql_require_primary_key", true⟩,
  ⟨"MySQLSlowQueryLog", .ptr .bool, "mysql_slow_query_log", true⟩,
  ⟨"MySQLLongQueryTime", .int, "mysql_long_query_time", true⟩,
  ⟨"RedisEvictionPolicy", .string, "redis_eviction_policy", true⟩]

/-- Go struct type DatabaseUpdateReq (database.go line 180). -/
def DatabaseUpdateReq : GoType := .struct "DatabaseUpdateReq" [
  ⟨"DatabaseEngine", .string, "database_engine", true⟩,
  ⟨"DatabaseEngineVersion", .string, "database_engine_version", true⟩,
  ⟨"Region", .string, "region", true⟩,
  ⟨"Plan", .string, "plan", true⟩,
  ⟨"Label", .string, "label", true⟩,
  ⟨"Tag", .string, "tag", true⟩,
  ⟨"MaintenanceDOW", .string, "maintenance_dow", true⟩,
  ⟨"MaintenanceTime", .string, "maintenance_time", true⟩,
  ⟨"ClusterTimeZone", .string, "cluster_time_zone", true⟩,
  ⟨"TrustedIPs", .slice .string, "trusted_ips", true⟩,
  ⟨"MySQLSQLModes", .slice .string, "mysql_sql_modes", true⟩,
  ⟨"MySQLRequirePrimaryKey", .ptr .bool, "mysql_require_primary_key", true⟩,
  ⟨"MySQLSlowQueryLog", .ptr .bool, "mysql_slow_query_log", true⟩,
  ⟨"MySQLLongQueryTime", .int, "mysql_long_query_time", true⟩,
  ⟨"RedisEvictionPolicy", .string, "redis_eviction_policy", true⟩]

/-- Go struct type DatabaseUser (database.go line 199). -/
def DatabaseUser : GoType := .struct "DatabaseUser" [
  ⟨"Username", .string, "username", false⟩,
  ⟨"Password", .string, "password", false⟩,
  ⟨"Encryption", .string, "encryption", true⟩]

/-- Go struct type databaseUserBase (database.go line 205). -/
def databaseUserBase : GoType := .struct "databaseUserBase" [
  ⟨"DatabaseUser", .ptr DatabaseUser, "user", false⟩]

/-- Go struct type databaseUsersBase (database.go line 209). -/
def databaseUsersBase : GoType := .struct "databaseUsersBase" [
  ⟨"DatabaseUsers", .slice DatabaseUser, "users", false⟩,
  ⟨"Meta", .ptr Meta, "meta", false⟩]

/-- Go struct type DatabaseUserCreateReq (database.go line 215). -/
def DatabaseUserCreateReq : GoType := .struct "DatabaseUserCreateReq" [
  ⟨"Username", .string, "username", false⟩,
  ⟨"Password", .string, "password", true⟩,
  ⟨"Encryption", .string, "encryption", true⟩]

/-- Go struct type DatabaseUserUpdateReq (database.go line 222). -/
def DatabaseUserUpdateReq : GoType := .struct "DatabaseUserUpdateReq" [
  ⟨"Password", .string, "password", true⟩]

/-- Go struct type DatabaseDB (database.go line 227). -/
def DatabaseDB : GoType := .struct "DatabaseDB" [
  ⟨"Name", .string, "name", false⟩]

/-- Go struct type databaseDBBase (database.go line 231). -/
def databaseDBBase : GoType := .struct "databaseDBBase" [
  ⟨"DatabaseDB", .ptr DatabaseDB, "db", false⟩]

/-- Go struct type databaseDBsBase (database.go line 235). -/
def databaseDBsBase : GoType := .struct "databaseDBsBase" [
  ⟨"DatabaseDBs", .slice DatabaseDB, "dbs", false⟩,
  ⟨"Meta", .ptr Meta, "meta", false⟩]

/-- Go struct type DatabaseDBCreateReq (database.go line 241). -/
def DatabaseDBCreateReq : GoType := .struct "DatabaseDBCreateReq" [
  ⟨"Name", .string, "name", false⟩]

/-- Go struct type databaseUpdatesBase (database.go line 245). -/
def databaseUpdatesBase : GoType := .struct "databaseUpdatesBase" [
  ⟨"AvailableUpdates", .slice .string, "available_updates", false⟩]

/-- Go struct type databaseMessage (database.go line 249). -/
def databaseMessage : GoType := .struct "databaseMessage" [
  ⟨"Message", .string, "message", false⟩]

/-- Go struct type DatabaseAlert (database.go line 254). -/
def DatabaseAlert : GoType := .struct "DatabaseAlert" [
  ⟨"Timestamp", .string, "timestamp", false⟩,
  ⟨"MessageType", .string, "message_type", false⟩,
  ⟨"Description", .string, "description", false⟩,
  ⟨"Recommendation", .string, "recommendation", true⟩,
  ⟨"MaintenanceScheduled", .string, "maintenance_scheduled", true⟩,
  ⟨"ResourceType", .string, "resource_type", true⟩,
  ⟨"TableCount", .int, "table_count", true⟩]

/-- Go struct type databaseAlertsBase (database.go line 264). -/
def databaseAlertsBase : GoType := .struct "databaseAlertsBase" [
  ⟨"DatabaseAlerts", .slice DatabaseAlert, "alerts", false⟩]

/-- Go struct type DatabaseListAlertsReq (database.go line 269). -/
def DatabaseListAlertsReq : GoType := .struct "DatabaseListAlertsReq" [
  ⟨"Period", .string, "period", false⟩]

/-- Go struct type DatabaseCredentials (database.go line 282). -/
def DatabaseCredentials : GoType := .struct "DatabaseCredentials" [
  ⟨"Host", .string, "host", false⟩,
  ⟨"Port", .int, "port", false⟩,
  ⟨"Username", .string, "username", false⟩,
  ⟨"Password", .string, "password", false⟩,
  ⟨"Database", .string, "database", true⟩,
  ⟨"IgnoredDatabases", .string, "ignored_databases", true⟩,
  ⟨"SSL", .ptr .bool, "ssl", false⟩]

/-- Go struct type DatabaseMigration (database.go line 274). -/
def DatabaseMigration : GoType := .struct "DatabaseMigration" [
  ⟨"Status", .string, "status", false⟩,
  ⟨"Method", .string, "method", true⟩,
  ⟨"Error", .string, "error", true⟩,
  ⟨"Credentials", DatabaseCredentials, "credentials", false⟩]

/-- Go struct type databaseMigrationBase (database.go line 292). -/
def databaseMigrationBase : GoType := .struct "databaseMigrationBase" [
  ⟨"Migration", .ptr DatabaseMigration, "migration", false⟩]

/-- Go struct type DatabaseMigrationStartReq (database.go line 297). -/
def DatabaseMigrationStartReq : GoType := .struct "DatabaseMigrationStartReq" [
  ⟨"Host", .string, "host", false⟩,
  ⟨"Port", .int, "port", false⟩,
  ⟨"Username", .string, "username", false⟩,
  ⟨"Password", .string, "password", false⟩,
  ⟨"Database", .string, "database", true⟩,
  ⟨"IgnoredDatabases", .string, "ignored_databases", true⟩,
  ⟨"SSL", .ptr .bool, "ssl", false⟩]

/-- Go struct type DatabaseAddReplicaReq (database.go line 308). -/
def DatabaseAddReplicaReq : GoType := .struct "DatabaseAddReplicaReq" [
  ⟨"Region", .string, "region", true⟩,
  ⟨"Label", .string, "label", true⟩]

/-- Go struct type DatabaseBackup (database.go line 320). -/
def DatabaseBackup : GoType := .struct "DatabaseBackup" [
  ⟨"Date", .string, "date", false⟩,
  ⟨"Time", .string, "time", false⟩]

/-- Go struct type DatabaseBackups (database.go line 314). -/
def DatabaseBackups : GoType := .struct "DatabaseBackups" [
  ⟨"LatestBackup", DatabaseBackup, "latest_backup", true⟩,
  ⟨"OldestBackup", DatabaseBackup, "oldest_backup", true⟩]

/-- Go struct type DatabaseBackupRestoreReq (database.go line 326). -/
def DatabaseBackupRestoreReq : GoType := .struct "DatabaseBackupRestoreReq" [
  ⟨"Label", .string, "label", true⟩,
  ⟨"Type", .string, "type", true⟩,
  ⟨"Date", .string, "date", true⟩,
  ⟨"Time", .string, "time", true⟩]

/-- Go struct type DatabaseForkReq (database.go line 334). -/
def DatabaseForkReq : GoType := .struct "DatabaseForkReq" [
  ⟨"Label", .string, "label", true⟩,
  ⟨"Region", .string, "region", true⟩,
  ⟨"Plan", .string, "plan", true⟩,
  ⟨"Type", .string, "type", true⟩,
  ⟨"Date", .string, "date", true⟩,
  ⟨"Time", .string, "time", true⟩]

/-- Go struct type DatabaseConnectionPool (database.go line 344). -/
def DatabaseConnectionPool : GoType := .struct "DatabaseConnectionPool" [
  ⟨"Name", .string, "name", false⟩,
  ⟨"Database", .string, "database", false⟩,
  ⟨"Username", .string, "username", false⟩,
  ⟨"Mode", .string, "mode", false⟩,
  ⟨"Size", .int, "size", false⟩]

/-- Go struct type DatabaseConnections (database.go line 353). -/
def DatabaseConnections : GoType := .struct "DatabaseConnections" [
  ⟨"Used", .int, "used", false⟩,
  ⟨"Available", .int, "available", false⟩,
  ⟨"Max", .int, "max", false⟩]

/-- Go struct type databaseConnectionPoolBase (database.go line 359). -/
def databaseConnectionPoolBase : GoType := .struct "databaseConnectionPoolBase" [
  ⟨"ConnectionPool", .ptr DatabaseConnectionPool, "connection_pool", false⟩]

/-- Go struct type databaseConnectionPoolsBase (database.go line 363). -/
def databaseConnectionPoolsBase : GoType := .struct "databaseConnectionPoolsBase" [
  ⟨"Connections", .ptr DatabaseConnections, "connections", false⟩,
  ⟨"ConnectionPools", .slice DatabaseConnectionPool, "connection_pools", false⟩,
  ⟨"Meta", .ptr Meta, "meta", false⟩]

/-- Go struct type DatabaseConnectionPoolCreateReq (database.go line 370). -/
def DatabaseConnectionPoolCreateReq : GoType := .struct "DatabaseConnectionPoolCreateReq" [
  ⟨"Name", .string, "name", true⟩,
  ⟨"Database", .string, "database", true⟩,
  ⟨"Username", .string, "username", true⟩,
  ⟨"Mode", .string, "mode", true⟩,
  ⟨"Size", .int, "size", true⟩]

/-- Go struct type DatabaseConnectionPoolUpdateReq (database.go line 379). -/
def DatabaseConnectionPoolUpdateReq : GoType := .struct "DatabaseConnectionPoolUpdateReq" [
  ⟨"Database", .string, "database", true⟩,
  ⟨"Username", .string, "username", true⟩,
  ⟨"Mode", .string, "mode", true⟩,
  ⟨"Size", .int, "size", true⟩]

/-- Go struct type DatabaseAdvancedOptions (database.go line 387). -/
def DatabaseAdvancedOptions : GoType := .struct "DatabaseAdvancedOptions" [
  ⟨"AutovacuumAnalyzeScaleFactor", .float32, "autovacuum_analyze_scale_factor", true⟩,
  ⟨"AutovacuumAnalyzeThreshold", .int, "autovacuum_analyze_threshold", true⟩,
  ⟨"AutovacuumFreezeMaxAge", .int, "autovacuum_freeze_max_age", true⟩,
  ⟨"AutovacuumMaxWorkers", .int, "autovacuum_max_workers", true⟩,
  ⟨"AutovacuumNaptime", .int, "autovacuum_naptime", true⟩,
  ⟨"AutovacuumVacuumCostDelay", .int, "autovacuum_vacuum_cost_delay", true⟩,
  ⟨"AutovacuumVacuumCostLimit", .int, "autovacuum_vacuum_cost_limit", true⟩,
  ⟨"AutovacuumVacuumScaleFactor", .float32, "autovacuum_vacuum_scale_factor", true⟩,
  ⟨"AutovacuumVacuumThreshold", .int, "autovacuum_vacuum_threshold", true⟩,
  ⟨"BGWRITERDelay", .int, "bgwriter_delay", true⟩,
  ⟨"BGWRITERFlushAFter", .int, "bgwriter_flush_after", true⟩,
  ⟨"BGWRITERLRUMaxPages", .int, "bgwriter_lru_maxpages", true⟩,
  ⟨"BGWRITERLRUMultiplier", .float32, "bgwriter_lru_multiplier", true⟩,
  ⟨"DeadlockTimeout", .int, "deadlock_timeout", true⟩,
  ⟨"DefaultToastCompression", .string, "default_toast_compression", true⟩,
  ⟨"IdleInTransactionSessionTimeout", .int, "idle_in_transaction_session_timeout", true⟩,
  ⟨"Jit", .ptr .bool, "jit", true⟩,
  ⟨"LogAutovacuumMinDuration", .int, "log_autovacuum_min_duration", true⟩,
  ⟨"LogErrorVerbosity", .string, "log_error_verbosity", true⟩,
  ⟨"LogLinePrefix", .string, "log_line_prefix", true⟩,
  ⟨"LogMinDurationStatement", .int, "log_min_duration_statement", true⟩,
  ⟨"MaxFilesPerProcess", .int, "max_files_per_process", true⟩,
  ⟨"MaxLocksPerTransaction", .int, "max_locks_per_transaction", true⟩,
  ⟨"MaxLogicalReplicationWorkers", .int, "max_logical_replication_workers", true⟩,
  ⟨"MaxParallelWorkers", .int, "max_parallel_workers", true⟩,
  ⟨"MaxParallelWorkersPerGather", .int, "max_parallel_workers_per_gather", true⟩,
  ⟨"MaxPredLocksPerTransaction", .int, "max_pred_locks_per_transaction", true⟩,
  ⟨"MaxPreparedTransactions", .int, "max_prepared_transactions", true⟩,
  ⟨"MaxReplicationSlots", .int, "max_replication_slots", true⟩,
  ⟨"MaxStackDepth", .int, "max_stack_depth", true⟩,
  ⟨"MaxStandbyArchiveDelay", .int, "max_standby_archive_delay", true⟩,
  ⟨"MaxStandbyStreamingDelay", .int, "max_standby_streaming_delay", true⟩,
  ⟨"MaxWalSenders", .int, "max_wal_senders", true⟩,
  ⟨"MaxWorkerProcesses", .int, "max_worker_processes", true⟩,
  ⟨"PGPartmanBGWInterval", .int, "pg_partman_bgw.interval", true⟩,
  ⟨"PGPartmanBGWRole", .string, "pg_partman_bgw.role", true⟩,
  ⟨"PGStateStatementsTrack", .string, "pg_stat_statements.track", true⟩,
  ⟨"TempFileLimit", .int, "temp_file_limit", true⟩,
  ⟨"TrackActivityQuerySize", .int, "track_activity_query_size", true⟩,
  ⟨"TrackCommitTimestamp", .string, "track_commit_timestamp", true⟩,
  ⟨"TrackFunctions", .string, "track_functions", true⟩,
  ⟨"TrackIOTiming", .string, "track_io_timing", true⟩,
  ⟨"WALSenderTImeout", .int, "wal_sender_timeout", true⟩,
  ⟨"WALWriterDelay", .int, "wal_writer_delay", true⟩]

/-- Go struct type AvailableOption (database.go line 435). -/
def AvailableOption : GoType := .struct "AvailableOption" [
  ⟨"Name", .string, "name", false⟩,
  ⟨"Type", .string, "type", false⟩,
  ⟨"Enumerals", .slice .string, "enumerals", true⟩,
  ⟨"MinValue", .ptr .int, "min_value", true⟩,
  ⟨"MaxValue", .ptr .int, "max_value", true⟩,
  ⟨"AltValues", .slice .int, "alt_values", true⟩,
  ⟨"Units", .string, "units", true⟩]

/-- Go struct type databaseAdvancedOptionsBase (database.go line 445). -/
def databaseAdvancedOptionsBase : GoType := .struct "databaseAdvancedOptionsBase" [
  ⟨"ConfiguredOptions", .ptr DatabaseAdvancedOptions, "configured_options", false⟩,
  ⟨"AvailableOptions", .slice AvailableOption, "available_options", false⟩]

/-- Go struct type DatabaseAvailableVersions (database.go line 451). -/
def DatabaseAvailableVersions : GoType := .struct "DatabaseAvailableVersions" [
  ⟨"AvailableVersions", .slice .string, "available_versions", false⟩]

/-- Go struct type DatabaseVersionUpgradeReq (database.go line 456). -/
def DatabaseVersionUpgradeReq : GoType := .struct "DatabaseVersionUpgradeReq" [
  ⟨"Version", .string, "version", true⟩]

/-- The field declarations of a struct type. -/
def GoType.fieldDecls : GoType → List (FieldDecl GoType)
  | .struct _ fields => fields
  | _ => []

/-- The struct type that a recursive occurrence refers to. -/
def resolve (t : GoType) : GoType :=
  match t with
  | .named "Database" => Database
  | t => t

mutual
/-- Typing of Go values: v is a value of type t. An int is a 64-bit integer and a
float32 a 32-bit pattern. -/
def hasType : GoVal → GoType → Bool
  | .str _, t => match t with | .string => true | _ => false
  | .int n, t => match t with
    | .int => decide (-9223372036854775808 ≤ n ∧ n ≤ 9223372036854775807)
    | _ => false
  | .bool _, t => match t with | .bool => true | _ => false
  | .float bits, t => match t with | .float32 => decide (bits < 4294967296) | _ => false
  | .nil, t => match t with | .ptr _ => true | .slice _ => true | _ => false
  | .ptr v, t => match t with | .ptr e => hasType v e | _ => false
  | .slice xs, t => match t with | .slice e => elemsHaveType xs e | _ => false
  | .struct n fs, t => match resolve t with
    | .struct m decls => n == m && fieldsHaveType fs decls
    | _ => false
/-- Typing of the elements of a slice. -/
def elemsHaveType : List GoVal → GoType → Bool
  | [], _ => true
  | x :: xs, e => hasType x e && elemsHaveType xs e
/-- Typing of the fields of a struct value against the declaration. -/
def fieldsHaveType : List (FieldVal GoVal) → List (FieldDecl GoType) → Bool
  | [], ds => ds.isEmpty
  | ⟨name, key, omitempty, val⟩ :: fs, ds => match ds with
    | [] => false
    | d :: ds => name == d.name && key == d.key && omitempty == d.omitempty
        && hasType val d.type && fieldsHaveType fs ds
end

/-! ## Request bodies -/

/-- The request body types of the database handler. -/
def requestBodyTypes : List GoType :=
  [DatabaseCreateReq, DatabaseUpdateReq, DatabaseUserCreateReq, DatabaseUserUpdateReq,
   DatabaseMigrationStartReq, DatabaseAddReplicaReq, DatabaseBackupRestoreReq, DatabaseForkReq,
   DatabaseConnectionPoolCreateReq, DatabaseConnectionPoolUpdateReq, DatabaseAdvancedOptions,
   DatabaseVersionUpgradeReq]

/-- The partial-update bodies: the body of Update and of UpdateAdvancedOptions. -/
def partialUpdateTypes : List GoType := [DatabaseUpdateReq, DatabaseAdvancedOptions]

/-- A field is optional when it has a pointer type or is tagged omitempty. -/
def FieldDecl.optional (d : FieldDecl GoType) : Bool :=
  d.omitempty || match d.type with
    | .ptr _ => true
    | _ => false

/-- The name, key and omitempty flag of the fields of a struct value. -/
def tagsOf (fs : List (FieldVal GoVal)) : List (String × String × Bool) :=
  fs.map fun f => (f.name, f.key, f.omitempty)

/-- The name, key and omitempty flag of the fields of a struct declaration. -/
def declTags (ds : List (FieldDecl GoType)) : List (String × String × Bool) :=
  ds.map fun d => (d.name, d.key, d.omitempty)

/-- A declaration is well formed when no two fields share a name or a key. -/
def GoType.wellFormed (t : GoType) : Prop :=
  (t.fieldDecls.map (·.name)).Nodup ∧ (t.fieldDecls.map (·.key)).Nodup

instance (t : GoType) : Decidable t.wellFormed := by
  unfold GoType.wellFormed; infer_instance

/-- A migration request in which SSL is left unset. -/
def migrationReqWithoutSSL : GoVal :=
  (((zeroValue DatabaseMigrationStartReq).setField "Host" (.str "db.example.com")).setField
    "Port" (.int 3306)).setField "Username" (.str "admin")

/-- The name of a struct type. -/
def GoType.structName : GoType → Option String
  | .struct n _ => some n
  | _ => none

/-- An update request in which nothing is provided. -/
def emptyUpdateReq : GoVal := zeroValue DatabaseUpdateReq

/-- An advanced-options body in which nothing is provided. -/
def emptyAdvancedOptions : GoVal := zeroValue DatabaseAdvancedOptions

/-- An update request that provides only a tag. -/
def tagOnlyUpdateReq : GoVal := emptyUpdateReq.setField "Tag" (.str "prod")

/-- An advanced-options body that provides only the worker count. -/
def workersOnlyAdvancedOptions : GoVal :=
  emptyAdvancedOptions.setField "MaxWorkerProcesses" (.int 8)

/-- The type pointer to bool. -/
def GoType.isBoolPtr : GoType → Bool
  | .ptr .bool => true
  | _ => false

/-- The boolean fields of the request bodies that are pointers tagged omitempty, as
pairs of struct name and field name. -/
def optionalBoolFields : List (String × String) :=
  requestBodyTypes.flatMap fun T =>
    (T.fieldDecls.filter fun d => d.omitempty && d.type.isBoolPtr).map fun d =>
      (T.structName.getD "", d.name)

/-! ## Errors, requests and the client -/

/-- Go error values: the error taxonomy of the dispatch layer, and other for an error
of a library. -/
inductive Error where
  | ConfigurationError (msg : String)
  | TransportError (msg : String)
  | RateLimitError (attempts : Nat) (status : Nat) (message : String)
  | APIError (httpStatus : Nat) (message : String) (providerCode : Option String)
  | DecodeError (msg : String)
  | CancellationError
  | other (msg : String)

/-- An interface value that is not nil: its dynamic type and its value. -/
structure Iface where
  type : GoType
  val : GoVal

/-- The type url.Values: the values of each key in the order they were added. -/
abbrev Values := List (String × List String)

/-- The fields of url.URL that the handlers use. -/
structure URL where
  Path : String
  RawQuery : String

/-- The fields of http.Request that the handlers and the dispatcher use. -/
structure Request where
  Method : String
  URL : URL
  Header : List (String × String)
  Body : Option JSON

/-- A call that a handler makes. -/
inductive Step where
  | NewRequest (method : String) (uri : String) (body : Option Iface)
  | Values (v : Iface)
  | DoWithContext (req : Request) (v : Option Iface)

/-- A call together with the error it returned. -/
structure Event where
  step : Step
  err : Option Error

/-- The calls of a handler invocation, in order. -/
abbrev Trace := List Event

/-- The methods of Client that the handlers call. Their code is not in database.go; a
handler is modelled for every behaviour of them. The state ω stands for everything the
client can read and change (the network included). DoWithContext returns, next to the
error, the value of v after the call. -/
structure Client (ω : Type) where
  NewRequest : String → String → Option Iface → ω → Except Error Request × ω
  DoWithContext : Request → Option Iface → ω → (GoVal × Option Error) × ω

/-- The handler type of database.go, with the function query.Values it calls. -/
structure DatabaseServiceHandler (ω : Type) where
  client : Client ω
  queryValues : Iface → Except Error Values

/-- The non-error results of a handler call, in order, and its error. -/
structure Ret where
  vals : List GoVal
  err : Option Error

/-- The state of a handler invocation: the client state and the calls made so far. -/
abbrev St (ω : Type) : Type := ω × Trace

/-- The error of a result. -/
def errOf {α : Type} : Except Error α → Option Error
  | .error e => some e
  | .ok _ => none

/-- A logged call of client.NewRequest. -/
def Client.newRequest {ω : Type} (c : Client ω) (method uri : String) (body : Option Iface)
    (s : St ω) : Except Error Request × St ω :=
  match c.NewRequest method uri body s.1 with
  | (r, w) => (r, (w, s.2 ++ [⟨.NewRequest method uri body, errOf r⟩]))

/-- A logged call of client.DoWithContext. -/
def Client.doWithContext {ω : Type} (c : Client ω) (req : Request) (v : Option Iface)
    (s : St ω) : (GoVal × Option Error) × St ω :=
  match c.DoWithContext req v s.1 with
  | (r, w) => (r, (w, s.2 ++ [⟨.DoWithContext req v, r.2⟩]))

/-- A logged call of query.Values. -/
def DatabaseServiceHandler.values {ω : Type} (i : DatabaseServiceHandler ω) (v : Iface)
    (s : St ω) : Except Error Values × St ω :=
  (i.queryValues v, (s.1, s.2 ++ [⟨.Values v, errOf (i.queryValues v)⟩]))

/-- The expression new(T): a pointer to a zero value of T. -/
def new (t : GoType) : GoVal := .ptr (zeroValue t)

/-- The verb-by-verb expansion of a format that holds only the verb %s. -/
def sprintfAux : List Char → List String → List Char
  | '%' :: 's' :: rest, a :: args => a.data ++ sprintfAux rest args
  | c :: rest, args => c :: sprintfAux rest args
  | [], _ => []

/-- The function fmt.Sprintf for formats whose verbs are all %s, with string operands. -/
def fmt.Sprintf (format : String) (args : List String) : String :=
  ⟨sprintfAux format.data args⟩

/-- The constant http.MethodGet. -/
def http.MethodGet : String := "GET"

/-- The constant http.MethodPost. -/
def http.MethodPost : String := "POST"

/-- The constant http.MethodPut. -/
def http.MethodPut : String := "PUT"

/-- The constant http.MethodDelete. -/
def http.MethodDelete : String := "DELETE"

/-- The constant databasePath (database.go line 11). -/
def databasePath : String := "/v2/databases"

/-! ## net/url: query escaping and Values.Encode -/

/-- The upper-case hexadecimal digit of a value below 16. -/
def hexDigit (n : Nat) : Char :=
  "0123456789ABCDEF".data.getD n '0'

/-- The escape %XX of a byte. -/
def escapeByte (b : UInt8) : List Char :=
  ['%', hexDigit (b.toNat / 16), hexDigit (b.toNat % 16)]

/-- The characters that url.QueryEscape leaves as they are. -/
def unreserved (c : Char) : Bool :=
  c.isAlphanum || c == '-' || c == '_' || c == '.' || c == '~'

/-- The escaping of one character by url.QueryEscape: a space becomes +, every other
escaped character the escapes of its UTF-8 bytes. -/
def escapeChar (c : Char) : List Char :=
  if unreserved c then [c]
  else if c == ' ' then ['+']
  else (String.utf8EncodeChar c).flatMap escapeByte

/-- The function url.QueryEscape. -/
def url.QueryEscape (s : String) : String :=
  ⟨s.data.flatMap escapeChar⟩

/-- Lexicographic order of strings, character by character: the byte order of Go. -/
def ltChars : List Char → List Char → Bool
  | _, [] => false
  | [], _ :: _ => true
  | a :: as, b :: bs => a.toNat < b.toNat || (a == b && ltChars as bs)

/-- Insertion of a key into a sorted list of keys. -/
def insertKey (k : String) : List String → List String
  | [] => [k]
  | x :: xs => if ltChars k.data x.data then k :: x :: xs else x :: insertKey k xs

/-- The keys of the values, sorted. -/
def sortedKeys (v : Values) : List String :=
  (v.map Prod.fst).foldr insertKey []

/-- The index expression v[key]: the values of a key, none when the key is absent. -/
def Values.index (v : Values) (key : String) : List String :=
  match v.find? (fun p => p.1 == key) with
  | some p => p.2
  | none => []

/-- The method Add of url.Values. -/
def Values.Add (v : Values) (key value : String) : Values :=
  if v.any (fun p => p.1 == key) then
    v.map (fun p => if p.1 == key then (p.1, p.2 ++ [value]) else p)
  else v ++ [(key, [value])]

/-- The pairs key=value of an encoded query, keys sorted, both sides escaped. -/
def encodePairs (v : Values) : List String :=
  (sortedKeys v).flatMap fun k =>
    (Values.index v k).map fun x => url.QueryEscape k ++ "=" ++ url.QueryEscape x

/-- The method Encode of url.Values. -/
def Values.Encode (v : Values) : String :=
  String.intercalate "&" (encodePairs v)

/-! ## The handlers of database.go -/

/-- ListPlans (database.go line 461). -/
def DatabaseServiceHandler.ListPlans {ω : Type} (i : DatabaseServiceHandler ω)
    (options : GoVal) (s : St ω) : Ret × St ω :=
  let uri := fmt.Sprintf "%s/plans" [databasePath]
  match i.client.newRequest http.MethodGet uri none s with
  | (.error err, s) => (⟨[.nil, .nil], some err⟩, s)
  | (.ok req, s) =>
    match i.values ⟨.ptr DBPlanListOptions, options⟩ s with
    | (.error err, s) => (⟨[.nil, .nil], some err⟩, s)
    | (.ok newValues, s) =>
      let req := { req with URL := { req.URL with RawQuery := Values.Encode newValues } }
      let databasePlans := new databasePlansBase
      match i.client.doWithContext req (some ⟨.ptr databasePlansBase, databasePlans⟩) s with
      | ((_, some err), s) => (⟨[.nil, .nil], some err⟩, s)
      | ((databasePlans, none), s) =>
        (⟨[databasePlans.field "DatabasePlans", databasePlans.field "Meta"], none⟩, s)

/-- List (database.go line 485). -/
def DatabaseServiceHandler.List {ω : Type} (i : DatabaseServiceHandler ω)
    (options : GoVal) (s : St ω) : Ret × St ω :=
  match i.client.newRequest http.MethodGet databasePath none s with
  | (.error err, s) => (⟨[.nil, .nil], some err⟩, s)
  | (.ok req, s) =>
    match i.values ⟨.ptr DBListOptions, options⟩ s with
    | (.error err, s) => (⟨[.nil, .nil], some err⟩, s)
    | (.ok newValues, s) =>
      let req := { req with URL := { req.URL with RawQuery := Values.Encode newValues } }
      let databases := new databasesBase
      match i.client.doWithContext req (some ⟨.ptr databasesBase, databases⟩) s with
      | ((_, some err), s) => (⟨[.nil, .nil], some err⟩, s)
      | ((databases, none), s) => (⟨[databases.field "Databases", databases.field "Meta"], none⟩, s)

/-- Create (database.go line 507). -/
def DatabaseServiceHandler.Create {ω : Type} (i : DatabaseServiceHandler ω)
    (databaseReq : GoVal) (s : St ω) : Ret × St ω :=
  match i.client.newRequest http.MethodPost databasePath
      (some ⟨.ptr DatabaseCreateReq, databaseReq⟩) s with
  | (.error err, s) => (⟨[.nil], some err⟩, s)
  | (.ok req, s) =>
    let database := new databaseBase
    match i.client.doWithContext req (some ⟨.ptr databaseBase, database⟩) s with
    | ((_, some err), s) => (⟨[.nil], some err⟩, s)
    | ((database, none), s) => (⟨[database.field "Database"], none⟩, s)

/-- Get (database.go line 522). -/
def DatabaseServiceHandler.Get {ω : Type} (i : DatabaseServiceHandler ω)
    (databaseID : String) (s : St ω) : Ret × St ω :=
  let uri := fmt.Sprintf "%s/%s" [databasePath, databaseID]
  match i.client.newRequest http.MethodGet uri none s with
  | (.error err, s) => (⟨[.nil], some err⟩, s)
  | (.ok req, s) =>
    let database := new databaseBase
    match i.client.doWithContext req (some ⟨.ptr databaseBase, database⟩) s with
    | ((_, some err), s) => (⟨[.nil], some err⟩, s)
    | ((database, none), s) => (⟨[database.field "Database"], none⟩, s)

/-- Update (database.go line 539). -/
def DatabaseServiceHandler.Update {ω : Type} (i : DatabaseServiceHandler ω)
    (databaseID : String) (databaseReq : GoVal) (s : St ω) : Ret × St ω :=
  let uri := fmt.Sprintf "%s/%s" [databasePath, databaseID]
  match i.client.newRequest http.MethodPut uri (some ⟨.ptr DatabaseUpdateReq, databaseReq⟩) s with
  | (.error err, s) => (⟨[.nil], some err⟩, s)
  | (.ok req, s) =>
    let database := new databaseBase
    match i.client.doWithContext req (some ⟨.ptr databaseBase, database⟩) s with
    | ((_, some err), s) => (⟨[.nil], some err⟩, s)
    | ((database, none), s) => (⟨[database.field "Database"], none⟩, s)

/-- Delete (database.go line 556). -/
def DatabaseServiceHandler.Delete {ω : Type} (i : DatabaseServiceHandler ω)
    (databaseID : String) (s : St ω) : Ret × St ω :=
  let uri := fmt.Sprintf "%s/%s" [databasePath, databaseID]
  match i.client.newRequest http.MethodDelete uri none s with
  | (.error err, s) => (⟨[], some err⟩, s)
  | (.ok req, s) =>
    match i.client.doWithContext req none s with
    | ((_, err), s) => (⟨[], err⟩, s)

/-- ListUsers (database.go line 568). -/
def DatabaseServiceHandler.ListUsers {ω : Type} (i : DatabaseServiceHandler ω)
    (databaseID : String) (s : St ω) : Ret × St ω :=
  let uri := fmt.Sprintf "%s/%s/users" [databasePath, databaseID]
  match i.client.newRequest http.MethodGet uri none s with
  | (.error err, s) => (⟨[.nil, .nil], some err⟩, s)
  | (.ok req, s) =>
    let databaseUsers := new databaseUsersBase
    match i.client.doWithContext req (some ⟨.ptr databaseUsersBase, databaseUsers⟩) s with
    | ((_, some err), s) => (⟨[.nil, .nil], some err⟩, s)
    | ((databaseUsers, none), s) =>
      (⟨[databaseUsers.field "DatabaseUsers", databaseUsers.field "Meta"], none⟩, s)

/-- CreateUser (database.go line 585). -/
def DatabaseServiceHandler.CreateUser {ω : Type} (i : DatabaseServiceHandler ω)
    (databaseID : String) (databaseUserReq : GoVal) (s : St ω) : Ret × St ω :=
  let uri := fmt.Sprintf "%s/%s/users" [databasePath, databaseID]
  match i.client.newRequest http.MethodPost uri
      (some ⟨.ptr DatabaseUserCreateReq, databaseUserReq⟩) s with
  | (.error err, s) => (⟨[.nil], some err⟩, s)
  | (.ok req, s) =>
    let databaseUser := new databaseUserBase
    match i.client.doWithContext req (some ⟨.ptr databaseUserBase, databaseUser⟩) s with
    | ((_, some err), s) => (⟨[.nil], some err⟩, s)
    | ((databaseUser, none), s) => (⟨[databaseUser.field "DatabaseUser"], none⟩, s)

/-- GetUser (database.go line 602). -/
def DatabaseServiceHandler.GetUser {ω : Type} (i : DatabaseServiceHandler ω)
    (databaseID : String) (username : String) (s : St ω) : Ret × St ω :=
  let uri := fmt.Sprintf "%s/%s/users/%s" [databasePath, databaseID, username]
  match i.client.newRequest http.MethodGet uri none s with
  | (.error err, s) => (⟨[.nil], some err⟩, s)
  | (.ok req, s) =>
    let databaseUser := new databaseUserBase
    match i.client.doWithContext req (some ⟨.ptr databaseUserBase, databaseUser⟩) s with
    | ((_, some err), s) => (⟨[.nil], some err⟩, s)
    | ((databaseUser, none), s) => (⟨[databaseUser.field "DatabaseUser"], none⟩, s)

/-- UpdateUser (database.go line 619). -/
def DatabaseServiceHandler.UpdateUser {ω : Type} (i : DatabaseServiceHandler ω)
    (databaseID : String) (username : String) (databaseUserReq : GoVal) (s : St ω) : Ret × St ω :=
  let uri := fmt.Sprintf "%s/%s/users/%s" [databasePath, databaseID, username]
  match i.client.newRequest http.MethodPut uri
      (some ⟨.ptr DatabaseUserUpdateReq, databaseUserReq⟩) s with
  | (.error err, s) => (⟨[.nil], some err⟩, s)
  | (.ok req, s) =>
    let databaseUser := new databaseUserBase
    match i.client.doWithContext req (some ⟨.ptr databaseUserBase, databaseUser⟩) s with
    | ((_, some err), s) => (⟨[.nil], some err⟩, s)
    | ((databaseUser, none), s) => (⟨[databaseUser.field "DatabaseUser"], none⟩, s)

/-- DeleteUser (database.go line 636). -/
def DatabaseServiceHandler.DeleteUser {ω : Type} (i : DatabaseServiceHandler ω)
    (databaseID : String) (username : String) (s : St ω) : Ret × St ω :=
  let uri := fmt.Sprintf "%s/%s/users/%s" [databasePath, databaseID, username]
  match i.client.newRequest http.MethodDelete uri none s with
  | (.error err, s) => (⟨[], some err⟩, s)
  | (.ok req, s) =>
    match i.client.doWithContext req none s with
    | ((_, err), s) => (⟨[], err⟩, s)

/-- ListDBs (database.go line 648). -/
def DatabaseServiceHandler.ListDBs {ω : Type} (i : DatabaseServiceHandler ω)
    (databaseID : String) (s : St ω) : Ret × St ω :=
  let uri := fmt.Sprintf "%s/%s/dbs" [databasePath, databaseID]
  match i.client.newRequest http.MethodGet uri none s with
  | (.error err, s) => (⟨[.nil, .nil], some err⟩, s)
  | (.ok req, s) =>
    let databaseDBs := new databaseDBsBase
    match i.client.doWithContext req (some ⟨.ptr databaseDBsBase, databaseDBs⟩) s with
    | ((_, some err), s) => (⟨[.nil, .nil], some err⟩, s)
    | ((databaseDBs, none), s) =>
      (⟨[databaseDBs.field "DatabaseDBs", databaseDBs.field "Meta"], none⟩, s)

/-- CreateDB (database.go line 665). -/
def DatabaseServiceHandler.CreateDB {ω : Type} (i : DatabaseServiceHandler ω)
    (databaseID : String) (databaseDBReq : GoVal) (s : St ω) : Ret × St ω :=
  let uri := fmt.Sprintf "%s/%s/dbs" [databasePath, databaseID]
  match i.client.newRequest http.MethodPost uri
      (some ⟨.ptr DatabaseDBCreateReq, databaseDBReq⟩) s with
  | (.error err, s) => (⟨[.nil], some err⟩, s)
  | (.ok req, s) =>
    let databaseDB := new databaseDBBase
    match i.client.doWithContext req (some ⟨.ptr databaseDBBase, databaseDB⟩) s with
    | ((_, some err), s) => (⟨[.nil], some err⟩, s)
    | ((databaseDB, none), s) => (⟨[databaseDB.field "DatabaseDB"], none⟩, s)

/-- GetDB (database.go line 682). -/
def DatabaseServiceHandler.GetDB {ω : Type} (i : DatabaseServiceHandler ω)
    (databaseID : String) (dbname : String) (s : St ω) : Ret × St ω :=
  let uri := fmt.Sprintf "%s/%s/dbs/%s" [databasePath, databaseID, dbname]
  match i.client.newRequest http.MethodGet uri none s with
  | (.error err, s) => (⟨[.nil], some err⟩, s)
  | (.ok req, s) =>
    let databaseDB := new databaseDBBase
    match i.client.doWithContext req (some ⟨.ptr databaseDBBase, databaseDB⟩) s with
    | ((_, some err), s) => (⟨[.nil], some err⟩, s)
    | ((databaseDB, none), s) => (⟨[databaseDB.field "DatabaseDB"], none⟩, s)

/-- DeleteDB (database.go line 699). -/
def DatabaseServiceHandler.DeleteDB {ω : Type} (i : DatabaseServiceHandler ω)
    (databaseID : String) (dbname : String) (s : St ω) : Ret × St ω :=
  let uri := fmt.Sprintf "%s/%s/dbs/%s" [databasePath, databaseID, dbname]
  match i.client.newRequest http.MethodDelete uri none s with
  | (.error err, s) => (⟨[], some err⟩, s)
  | (.ok req, s) =>
    match i.client.doWithContext req none s with
    | ((_, err), s) => (⟨[], err⟩, s)

/-- ListMaintenanceUpdates (database.go line 711). -/
def DatabaseServiceHandler.ListMaintenanceUpdates {ω : Type} (i : DatabaseServiceHandler ω)
    (databaseID : String) (s : St ω) : Ret × St ω :=
  let uri := fmt.Sprintf "%s/%s/maintenance" [databasePath, databaseID]
  match i.client.newRequest http.MethodGet uri none s with
  | (.error err, s) => (⟨[.nil], some err⟩, s)
  | (.ok req, s) =>
    let databaseUpdates := new databaseUpdatesBase
    match i.client.doWithContext req (some ⟨.ptr databaseUpdatesBase, databaseUpdates⟩) s with
    | ((_, some err), s) => (⟨[.nil], some err⟩, s)
    | ((databaseUpdates, none), s) => (⟨[databaseUpdates.field "AvailableUpdates"], none⟩, s)

/-- StartMaintenance (database.go line 728). -/
def DatabaseServiceHandler.StartMaintenance {ω : Type} (i : DatabaseServiceHandler ω)
    (databaseID : String) (s : St ω) : Ret × St ω :=
  let uri := fmt.Sprintf "%s/%s/maintenance" [databasePath, databaseID]
  match i.client.newRequest http.MethodPost uri none s with
  | (.error err, s) => (⟨[.str ""], some err⟩, s)
  | (.ok req, s) =>
    let databaseUpdates := new databaseMessage
    match i.client.doWithContext req (some ⟨.ptr databaseMessage, databaseUpdates⟩) s with
    | ((_, some err), s) => (⟨[.str ""], some err⟩, s)
    | ((databaseUpdates, none), s) => (⟨[databaseUpdates.field "Message"], none⟩, s)

/-- ListServiceAlerts (database.go line 745). -/
def DatabaseServiceHandler.ListServiceAlerts {ω : Type} (i : DatabaseServiceHandler ω)
    (databaseID : String) (databaseAlertsReq : GoVal) (s : St ω) : Ret × St ω :=
  let uri := fmt.Sprintf "%s/%s/alerts" [databasePath, databaseID]
  match i.client.newRequest http.MethodPost uri
      (some ⟨.ptr DatabaseListAlertsReq, databaseAlertsReq⟩) s with
  | (.error err, s) => (⟨[.nil], some err⟩, s)
  | (.ok req, s) =>
    let databaseAlerts := new databaseAlertsBase
    match i.client.doWithContext req (some ⟨.ptr databaseAlertsBase, databaseAlerts⟩) s with
    | ((_, some err), s) => (⟨[.nil], some err⟩, s)
    | ((databaseAlerts, none), s) => (⟨[databaseAlerts.field "DatabaseAlerts"], none⟩, s)

/-- GetMigrationStatus (database.go line 762). -/
def DatabaseServiceHandler.GetMigrationStatus {ω : Type} (i : DatabaseServiceHandler ω)
    (databaseID : String) (s : St ω) : Ret × St ω :=
  let uri := fmt.Sprintf "%s/%s/migration" [databasePath, databaseID]
  match i.client.newRequest http.MethodGet uri none s with
  | (.error err, s) => (⟨[.nil], some err⟩, s)
  | (.ok req, s) =>
    let databaseMigration := new databaseMigrationBase
    match i.client.doWithContext req (some ⟨.ptr databaseMigrationBase, databaseMigration⟩) s with
    | ((_, some err), s) => (⟨[.nil], some err⟩, s)
    | ((databaseMigration, none), s) => (⟨[databaseMigration.field "Migration"], none⟩, s)

/-- StartMigration (database.go line 779). -/
def DatabaseServiceHandler.StartMigration {ω : Type} (i : DatabaseServiceHandler ω)
    (databaseID : String) (databaseMigrationReq : GoVal) (s : St ω) : Ret × St ω :=
  let uri := fmt.Sprintf "%s/%s/migration" [databasePath, databaseID]
  match i.client.newRequest http.MethodPost uri
      (some ⟨.ptr DatabaseMigrationStartReq, databaseMigrationReq⟩) s with
  | (.error err, s) => (⟨[.nil], some err⟩, s)
  | (.ok req, s) =>
    let databaseMigration := new databaseMigrationBase
    match i.client.doWithContext req (some ⟨.ptr databaseMigrationBase, databaseMigration⟩) s with
    | ((_, some err), s) => (⟨[.nil], some err⟩, s)
    | ((databaseMigration, none), s) => (⟨[databaseMigration.field "Migration"], none⟩, s)

/-- DetachMigration (database.go line 796). -/
def DatabaseServiceHandler.DetachMigration {ω : Type} (i : DatabaseServiceHandler ω)
    (databaseID : String) (s : St ω) : Ret × St ω :=
  let uri := fmt.Sprintf "%s/%s/migration" [databasePath, databaseID]
  match i.client.newRequest http.MethodDelete uri none s with
  | (.error err, s) => (⟨[], some err⟩, s)
  | (.ok req, s) =>
    match i.client.doWithContext req none s with
    | ((_, err), s) => (⟨[], err⟩, s)

/-- AddReadOnlyReplica (database.go line 808). -/
def DatabaseServiceHandler.AddReadOnlyReplica {ω : Type} (i : DatabaseServiceHandler ω)
    (databaseID : String) (databaseReplicaReq : GoVal) (s : St ω) : Ret × St ω :=
  let uri := fmt.Sprintf "%s/%s/read-replica" [databasePath, databaseID]
  match i.client.newRequest http.MethodPost uri
      (some ⟨.ptr DatabaseAddReplicaReq, databaseReplicaReq⟩) s with
  | (.error err, s) => (⟨[.nil], some err⟩, s)
  | (.ok req, s) =>
    let database := new databaseBase
    match i.client.doWithContext req (some ⟨.ptr databaseBase, database⟩) s with
    | ((_, some err), s) => (⟨[.nil], some err⟩, s)
    | ((database, none), s) => (⟨[database.field "Database"], none⟩, s)

/-- GetBackupInformation (database.go line 825). -/
def DatabaseServiceHandler.GetBackupInformation {ω : Type} (i : DatabaseServiceHandler ω)
    (databaseID : String) (s : St ω) : Ret × St ω :=
  let uri := fmt.Sprintf "%s/%s/backups" [databasePath, databaseID]
  match i.client.newRequest http.MethodGet uri none s with
  | (.error err, s) => (⟨[.nil], some err⟩, s)
  | (.ok req, s) =>
    let databaseBackups := new DatabaseBackups
    match i.client.doWithContext req (some ⟨.ptr DatabaseBackups, databaseBackups⟩) s with
    | ((_, some err), s) => (⟨[.nil], some err⟩, s)
    | ((databaseBackups, none), s) => (⟨[databaseBackups], none⟩, s)

/-- RestoreFromBackup (database.go line 842). -/
def DatabaseServiceHandler.RestoreFromBackup {ω : Type} (i : DatabaseServiceHandler ω)
    (databaseID : String) (databaseRestoreReq : GoVal) (s : St ω) : Ret × St ω :=
  let uri := fmt.Sprintf "%s/%s/restore" [databasePath, databaseID]
  match i.client.newRequest http.MethodPost uri
      (some ⟨.ptr DatabaseBackupRestoreReq, databaseRestoreReq⟩) s with
  | (.error err, s) => (⟨[.nil], some err⟩, s)
  | (.ok req, s) =>
    let database := new databaseBase
    match i.client.doWithContext req (some ⟨.ptr databaseBase, database⟩) s with
    | ((_, some err), s) => (⟨[.nil], some err⟩, s)
    | ((database, none), s) => (⟨[database.field "Database"], none⟩, s)

/-- Fork (database.go line 859). -/
def DatabaseServiceHandler.Fork {ω : Type} (i : DatabaseServiceHandler ω)
    (databaseID : String) (databaseForkReq : GoVal) (s : St ω) : Ret × St ω :=
  let uri := fmt.Sprintf "%s/%s/fork" [databasePath, databaseID]
  match i.client.newRequest http.MethodPost uri
      (some ⟨.ptr DatabaseForkReq, databaseForkReq⟩) s with
  | (.error err, s) => (⟨[.nil], some err⟩, s)
  | (.ok req, s) =>
    let database := new databaseBase
    match i.client.doWithContext req (some ⟨.ptr databaseBase, database⟩) s with
    | ((_, some err), s) => (⟨[.nil], some err⟩, s)
    | ((database, none), s) => (⟨[database.field "Database"], none⟩, s)

/-- ListConnectionPools (database.go line 876). -/
def DatabaseServiceHandler.ListConnectionPools {ω : Type} (i : DatabaseServiceHandler ω)
    (databaseID : String) (s : St ω) : Ret × St ω :=
  let uri := fmt.Sprintf "%s/%s/connection-pools" [databasePath, databaseID]
  match i.client.newRequest http.MethodGet uri none s with
  | (.error err, s) => (⟨[.nil, .nil, .nil], some err⟩, s)
  | (.ok req, s) =>
    let databaseConnectionPools := new databaseConnectionPoolsBase
    match i.client.doWithContext req
        (some ⟨.ptr databaseConnectionPoolsBase, databaseConnectionPools⟩) s with
    | ((_, some err), s) => (⟨[.nil, .nil, .nil], some err⟩, s)
    | ((databaseConnectionPools, none), s) =>
      (⟨[databaseConnectionPools.field "Connections",
          databaseConnectionPools.field "ConnectionPools",
          databaseConnectionPools.field "Meta"], none⟩, s)

/-- CreateConnectionPool (database.go line 893). -/
def DatabaseServiceHandler.CreateConnectionPool {ω : Type} (i : DatabaseServiceHandler ω)
    (databaseID : String) (databaseConnectionPoolReq : GoVal) (s : St ω) : Ret × St ω :=
  let uri := fmt.Sprintf "%s/%s/connection-pools" [databasePath, databaseID]
  match i.client.newRequest http.MethodPost uri
      (some ⟨.ptr DatabaseConnectionPoolCreateReq, databaseConnectionPoolReq⟩) s with
  | (.error err, s) => (⟨[.nil], some err⟩, s)
  | (.ok req, s) =>
    let databaseConnectionPool := new databaseConnectionPoolBase
    match i.client.doWithContext req
        (some ⟨.ptr databaseConnectionPoolBase, databaseConnectionPool⟩) s with
    | ((_, some err), s) => (⟨[.nil], some err⟩, s)
    | ((databaseConnectionPool, none), s) =>
      (⟨[databaseConnectionPool.field "ConnectionPool"], none⟩, s)

/-- GetConnectionPool (database.go line 910). -/
def DatabaseServiceHandler.GetConnectionPool {ω : Type} (i : DatabaseServiceHandler ω)
    (databaseID : String) (poolName : String) (s : St ω) : Ret × St ω :=
  let uri := fmt.Sprintf "%s/%s/connection-pools/%s" [databasePath, databaseID, poolName]
  match i.client.newRequest http.MethodGet uri none s with
  | (.error err, s) => (⟨[.nil], some err⟩, s)
  | (.ok req, s) =>
    let databaseConnectionPool := new databaseConnectionPoolBase
    match i.client.doWithContext req
        (some ⟨.ptr databaseConnectionPoolBase, databaseConnectionPool⟩) s with
    | ((_, some err), s) => (⟨[.nil], some err⟩, s)
    | ((databaseConnectionPool, none), s) =>
      (⟨[databaseConnectionPool.field "ConnectionPool"], none⟩, s)

/-- UpdateConnectionPool (database.go line 927). -/
def DatabaseServiceHandler.UpdateConnectionPool {ω : Type} (i : DatabaseServiceHandler ω)
    (databaseID : String) (poolName : String) (databaseConnectionPoolReq : GoVal) (s : St ω) : Ret × St ω :=
  let uri := fmt.Sprintf "%s/%s/connection-pools/%s" [databasePath, databaseID, poolName]
  match i.client.newRequest http.MethodPut uri
      (some ⟨.ptr DatabaseConnectionPoolUpdateReq, databaseConnectionPoolReq⟩) s with
  | (.error err, s) => (⟨[.nil], some err⟩, s)
  | (.ok req, s) =>
    let databaseConnectionPool := new databaseConnectionPoolBase
    match i.client.doWithContext req
        (some ⟨.ptr databaseConnectionPoolBase, databaseConnectionPool⟩) s with
    | ((_, some err), s) => (⟨[.nil], some err⟩, s)
    | ((databaseConnectionPool, none), s) =>
      (⟨[databaseConnectionPool.field "ConnectionPool"], none⟩, s)

/-- DeleteConnectionPool (database.go line 944). -/
def DatabaseServiceHandler.DeleteConnectionPool {ω : Type} (i : DatabaseServiceHandler ω)
    (databaseID : String) (poolName : String) (s : St ω) : Ret × St ω :=
  let uri := fmt.Sprintf "%s/%s/connection-pools/%s" [databasePath, databaseID, poolName]
  match i.client.newRequest http.MethodDelete uri none s with
  | (.error err, s) => (⟨[], some err⟩, s)
  | (.ok req, s) =>
    match i.client.doWithContext req none s with
    | ((_, err), s) => (⟨[], err⟩, s)

/-- ListAdvancedOptions (database.go line 956). -/
def DatabaseServiceHandler.ListAdvancedOptions {ω : Type} (i : DatabaseServiceHandler ω)
    (databaseID : String) (s : St ω) : Ret × St ω :=
  let uri := fmt.Sprintf "%s/%s/advanced-options" [databasePath, databaseID]
  match i.client.newRequest http.MethodGet uri none s with
  | (.error err, s) => (⟨[.nil, .nil], some err⟩, s)
  | (.ok req, s) =>
    let databaseAdvancedOptions := new databaseAdvancedOptionsBase
    match i.client.doWithContext req
        (some ⟨.ptr databaseAdvancedOptionsBase, databaseAdvancedOptions⟩) s with
    | ((_, some err), s) => (⟨[.nil, .nil], some err⟩, s)
    | ((databaseAdvancedOptions, none), s) =>
      (⟨[databaseAdvancedOptions.field "ConfiguredOptions",
          databaseAdvancedOptions.field "AvailableOptions"], none⟩, s)

/-- UpdateAdvancedOptions (database.go line 973). -/
def DatabaseServiceHandler.UpdateAdvancedOptions {ω : Type} (i : DatabaseServiceHandler ω)
    (databaseID : String) (databaseAdvancedOptionsReq : GoVal) (s : St ω) : Ret × St ω :=
  let uri := fmt.Sprintf "%s/%s/advanced-options" [databasePath, databaseID]
  match i.client.newRequest http.MethodPut uri
      (some ⟨.ptr DatabaseAdvancedOptions, databaseAdvancedOptionsReq⟩) s with
  | (.error err, s) => (⟨[.nil, .nil], some err⟩, s)
  | (.ok req, s) =>
    let databaseAdvancedOptions := new databaseAdvancedOptionsBase
    match i.client.doWithContext req
        (some ⟨.ptr databaseAdvancedOptionsBase, databaseAdvancedOptions⟩) s with
    | ((_, some err), s) => (⟨[.nil, .nil], some err⟩, s)
    | ((databaseAdvancedOptions, none), s) =>
      (⟨[databaseAdvancedOptions.field "ConfiguredOptions",
          databaseAdvancedOptions.field "AvailableOptions"], none⟩, s)

/-- ListAvailableVersions (database.go line 990). -/
def DatabaseServiceHandler.ListAvailableVersions {ω : Type} (i : DatabaseServiceHandler ω)
    (databaseID : String) (s : St ω) : Ret × St ω :=
  let uri := fmt.Sprintf "%s/%s/version-upgrade" [databasePath, databaseID]
  match i.client.newRequest http.MethodGet uri none s with
  | (.error err, s) => (⟨[.nil], some err⟩, s)
  | (.ok req, s) =>
    let databaseVersions := new DatabaseAvailableVersions
    match i.client.doWithContext req
        (some ⟨.ptr DatabaseAvailableVersions, databaseVersions⟩) s with
    | ((_, some err), s) => (⟨[.nil], some err⟩, s)
    | ((databaseVersions, none), s) => (⟨[databaseVersions.field "AvailableVersions"], none⟩, s)

/-- StartVersionUpgrade (database.go line 1007). -/
def DatabaseServiceHandler.StartVersionUpgrade {ω : Type} (i : DatabaseServiceHandler ω)
    (databaseID : String) (databaseVersionUpgradeReq : GoVal) (s : St ω) : Ret × St ω :=
  let uri := fmt.Sprintf "%s/%s/version-upgrade" [databasePath, databaseID]
  match i.client.newRequest http.MethodPost uri
      (some ⟨.ptr DatabaseVersionUpgradeReq, databaseVersionUpgradeReq⟩) s with
  | (.error err, s) => (⟨[.str ""], some err⟩, s)
  | (.ok req, s) =>
    let databaseVersionUpgrade := new databaseMessage
    match i.client.doWithContext req (some ⟨.ptr databaseMessage, databaseVersionUpgrade⟩) s with
    | ((_, some err), s) => (⟨[.str ""], some err⟩, s)
    | ((databaseVersionUpgrade, none), s) => (⟨[databaseVersionUpgrade.field "Message"], none⟩, s)

/-- A call of a method of DatabaseService, with its arguments (database.go lines 15-61). A
pointer argument is nil or a pointer to a struct value. -/
inductive Operation where
  | ListPlans (options : GoVal)
  | List (options : GoVal)
  | Create (databaseReq : GoVal)
  | Get (databaseID : String)
  | Update (databaseID : String) (databaseReq : GoVal)
  | Delete (databaseID : String)
  | ListUsers (databaseID : String)
  | CreateUser (databaseID : String) (databaseUserReq : GoVal)
  | GetUser (databaseID : String) (username : String)
  | UpdateUser (databaseID : String) (username : String) (databaseUserReq : GoVal)
  | DeleteUser (databaseID : String) (username : String)
  | ListDBs (databaseID : String)
  | CreateDB (databaseID : String) (databaseDBReq : GoVal)
  | GetDB (databaseID : String) (dbname : String)
  | DeleteDB (databaseID : String) (dbname : String)
  | ListMaintenanceUpdates (databaseID : String)
  | StartMaintenance (databaseID : String)
  | ListServiceAlerts (databaseID : String) (databaseAlertsReq : GoVal)
  | GetMigrationStatus (databaseID : String)
  | StartMigration (databaseID : String) (databaseMigrationReq : GoVal)
  | DetachMigration (databaseID : String)
  | AddReadOnlyReplica (databaseID : String) (databaseReplicaReq : GoVal)
  | GetBackupInformation (databaseID : String)
  | RestoreFromBackup (databaseID : String) (databaseRestoreReq : GoVal)
  | Fork (databaseID : String) (databaseForkReq : GoVal)
  | ListConnectionPools (databaseID : String)
  | CreateConnectionPool (databaseID : String) (databaseConnectionPoolReq : GoVal)
  | GetConnectionPool (databaseID : String) (poolName : String)
  | UpdateConnectionPool (databaseID : String) (poolName : String)
      (databaseConnectionPoolReq : GoVal)
  | DeleteConnectionPool (databaseID : String) (poolName : String)
  | ListAdvancedOptions (databaseID : String)
  | UpdateAdvancedOptions (databaseID : String) (databaseAdvancedOptionsReq : GoVal)
  | ListAvailableVersions (databaseID : String)
  | StartVersionUpgrade (databaseID : String) (databaseVersionUpgradeReq : GoVal)

/-- The non-error result types of each method, from the declaration of DatabaseService
(database.go lines 15-61). -/
def resultTypes : Operation → List GoType
  | .ListPlans _ => [.slice DatabasePlan, .ptr Meta]
  | .List _ => [.slice Database, .ptr Meta]
  | .Create _ => [.ptr Database]
  | .Get _ => [.ptr Database]
  | .Update _ _ => [.ptr Database]
  | .Delete _ => []
  | .ListUsers _ => [.slice DatabaseUser, .ptr Meta]
  | .CreateUser _ _ => [.ptr DatabaseUser]
  | .GetUser _ _ => [.ptr DatabaseUser]
  | .UpdateUser _ _ _ => [.ptr DatabaseUser]
  | .DeleteUser _ _ => []
  | .ListDBs _ => [.slice DatabaseDB, .ptr Meta]
  | .CreateDB _ _ => [.ptr DatabaseDB]
  | .GetDB _ _ => [.ptr DatabaseDB]
  | .DeleteDB _ _ => []
  | .ListMaintenanceUpdates _ => [.slice .string]
  | .StartMaintenance _ => [.string]
  | .ListServiceAlerts _ _ => [.slice DatabaseAlert]
  | .GetMigrationStatus _ => [.ptr DatabaseMigration]
  | .StartMigration _ _ => [.ptr DatabaseMigration]
  | .DetachMigration _ => []
  | .AddReadOnlyReplica _ _ => [.ptr Database]
  | .GetBackupInformation _ => [.ptr DatabaseBackups]
  | .RestoreFromBackup _ _ => [.ptr Database]
  | .Fork _ _ => [.ptr Database]
  | .ListConnectionPools _ => [.ptr DatabaseConnections, .slice DatabaseConnectionPool, .ptr Meta]
  | .CreateConnectionPool _ _ => [.ptr DatabaseConnectionPool]
  | .GetConnectionPool _ _ => [.ptr DatabaseConnectionPool]
  | .UpdateConnectionPool _ _ _ => [.ptr DatabaseConnectionPool]
  | .DeleteConnectionPool _ _ => []
  | .ListAdvancedOptions _ => [.ptr DatabaseAdvancedOptions, .slice AvailableOption]
  | .UpdateAdvancedOptions _ _ => [.ptr DatabaseAdvancedOptions, .slice AvailableOption]
  | .ListAvailableVersions _ => [.slice .string]
  | .StartVersionUpgrade _ _ => [.string]

/-- The call of the handler method that implements an operation. -/
def DatabaseServiceHandler.exec {ω : Type} (i : DatabaseServiceHandler ω) :
    Operation → St ω → Ret × St ω
  | .ListPlans options => i.ListPlans options
  | .List options => i.List options
  | .Create databaseReq => i.Create databaseReq
  | .Get databaseID => i.Get databaseID
  | .Update databaseID databaseReq => i.Update databaseID databaseReq
  | .Delete databaseID => i.Delete databaseID
  | .ListUsers databaseID => i.ListUsers databaseID
  | .CreateUser databaseID databaseUserReq => i.CreateUser databaseID databaseUserReq
  | .GetUser databaseID username => i.GetUser databaseID username
  | .UpdateUser databaseID username databaseUserReq =>
    i.UpdateUser databaseID username databaseUserReq
  | .DeleteUser databaseID username => i.DeleteUser databaseID username
  | .ListDBs databaseID => i.ListDBs databaseID
  | .CreateDB databaseID databaseDBReq => i.CreateDB databaseID databaseDBReq
  | .GetDB databaseID dbname => i.GetDB databaseID dbname
  | .DeleteDB databaseID dbname => i.DeleteDB databaseID dbname
  | .ListMaintenanceUpdates databaseID => i.ListMaintenanceUpdates databaseID
  | .StartMaintenance databaseID => i.StartMaintenance databaseID
  | .ListServiceAlerts databaseID databaseAlertsReq =>
    i.ListServiceAlerts databaseID databaseAlertsReq
  | .GetMigrationStatus databaseID => i.GetMigrationStatus databaseID
  | .StartMigration databaseID databaseMigrationReq =>
    i.StartMigration databaseID databaseMigrationReq
  | .DetachMigration databaseID => i.DetachMigration databaseID
  | .AddReadOnlyReplica databaseID databaseReplicaReq =>
    i.AddReadOnlyReplica databaseID databaseReplicaReq
  | .GetBackupInformation databaseID => i.GetBackupInformation databaseID
  | .RestoreFromBackup databaseID databaseRestoreReq =>
    i.RestoreFromBackup databaseID databaseRestoreReq
  | .Fork databaseID databaseForkReq => i.Fork databaseID databaseForkReq
  | .ListConnectionPools databaseID => i.ListConnectionPools databaseID
  | .CreateConnectionPool databaseID databaseConnectionPoolReq =>
    i.CreateConnectionPool databaseID databaseConnectionPoolReq
  | .GetConnectionPool databaseID poolName => i.GetConnectionPool databaseID poolName
  | .UpdateConnectionPool databaseID poolName databaseConnectionPoolReq =>
    i.UpdateConnectionPool databaseID poolName databaseConnectionPoolReq
  | .DeleteConnectionPool databaseID poolName => i.DeleteConnectionPool databaseID poolName
  | .ListAdvancedOptions databaseID => i.ListAdvancedOptions databaseID
  | .UpdateAdvancedOptions databaseID databaseAdvancedOptionsReq =>
    i.UpdateAdvancedOptions databaseID databaseAdvancedOptionsReq
  | .ListAvailableVersions databaseID => i.ListAvailableVersions databaseID
  | .StartVersionUpgrade databaseID databaseVersionUpgradeReq =>
    i.StartVersionUpgrade databaseID databaseVersionUpgradeReq

/-- The schema that the handlers of database.go share: the method, the path and the body
handed to NewRequest, the options handed to query.Values (List and ListPlans only), the
type of the envelope handed to DoWithContext (none for a nil shape), the results
returned with an error, and the results read off the envelope after a successful
dispatch. -/
structure Plan where
  method : String
  uri : String
  body : Option Iface
  options : Option Iface
  shape : Option GoType
  zeros : List GoVal
  results : GoVal → List GoVal

/-- The schema of each operation, read off its handler. -/
def plan : Operation → Plan
  | .ListPlans options =>
    ⟨http.MethodGet, fmt.Sprintf "%s/plans" [databasePath],
      none, some ⟨.ptr DBPlanListOptions, options⟩,
      some databasePlansBase, [.nil, .nil], fun x => [x.field "DatabasePlans", x.field "Meta"]⟩
  | .List options =>
    ⟨http.MethodGet, databasePath,
      none, some ⟨.ptr DBListOptions, options⟩,
      some databasesBase, [.nil, .nil], fun x => [x.field "Databases", x.field "Meta"]⟩
  | .Create databaseReq =>
    ⟨http.MethodPost, databasePath,
      some ⟨.ptr DatabaseCreateReq, databaseReq⟩, none,
      some databaseBase, [.nil], fun x => [x.field "Database"]⟩
  | .Get databaseID =>
    ⟨http.MethodGet, fmt.Sprintf "%s/%s" [databasePath, databaseID],
      none, none,
      some databaseBase, [.nil], fun x => [x.field "Database"]⟩
  | .Update databaseID databaseReq =>
    ⟨http.MethodPut, fmt.Sprintf "%s/%s" [databasePath, databaseID],
      some ⟨.ptr DatabaseUpdateReq, databaseReq⟩, none,
      some databaseBase, [.nil], fun x => [x.field "Database"]⟩
  | .Delete databaseID =>
    ⟨http.MethodDelete, fmt.Sprintf "%s/%s" [databasePath, databaseID],
      none, none,
      none, [], fun _ => []⟩
  | .ListUsers databaseID =>
    ⟨http.MethodGet, fmt.Sprintf "%s/%s/users" [databasePath, databaseID],
      none, none,
      some databaseUsersBase, [.nil, .nil], fun x => [x.field "DatabaseUsers", x.field "Meta"]⟩
  | .CreateUser databaseID databaseUserReq =>
    ⟨http.MethodPost, fmt.Sprintf "%s/%s/users" [databasePath, databaseID],
      some ⟨.ptr DatabaseUserCreateReq, databaseUserReq⟩, none,
      some databaseUserBase, [.nil], fun x => [x.field "DatabaseUser"]⟩
  | .GetUser databaseID username =>
    ⟨http.MethodGet, fmt.Sprintf "%s/%s/users/%s" [databasePath, databaseID, username],
      none, none,
      some databaseUserBase, [.nil], fun x => [x.field "DatabaseUser"]⟩
  | .UpdateUser databaseID username databaseUserReq =>
    ⟨http.MethodPut, fmt.Sprintf "%s/%s/users/%s" [databasePath, databaseID, username],
      some ⟨.ptr DatabaseUserUpdateReq, databaseUserReq⟩, none,
      some databaseUserBase, [.nil], fun x => [x.field "DatabaseUser"]⟩
  | .DeleteUser databaseID username =>
    ⟨http.MethodDelete, fmt.Sprintf "%s/%s/users/%s" [databasePath, databaseID, username],
      none, none,
      none, [], fun _ => []⟩
  | .ListDBs databaseID =>
    ⟨http.MethodGet, fmt.Sprintf "%s/%s/dbs" [databasePath, databaseID],
      none, none,
      some databaseDBsBase, [.nil, .nil], fun x => [x.field "DatabaseDBs", x.field "Meta"]⟩
  | .CreateDB databaseID databaseDBReq =>
    ⟨http.MethodPost, fmt.Sprintf "%s/%s/dbs" [databasePath, databaseID],
      some ⟨.ptr DatabaseDBCreateReq, databaseDBReq⟩, none,
      some databaseDBBase, [.nil], fun x => [x.field "DatabaseDB"]⟩
  | .GetDB databaseID dbname =>
    ⟨http.MethodGet, fmt.Sprintf "%s/%s/dbs/%s" [databasePath, databaseID, dbname],
      none, none,
      some databaseDBBase, [.nil], fun x => [x.field "DatabaseDB"]⟩
  | .DeleteDB databaseID dbname =>
    ⟨http.MethodDelete, fmt.Sprintf "%s/%s/dbs/%s" [databasePath, databaseID, dbname],
      none, none,
      none, [], fun _ => []⟩
  | .ListMaintenanceUpdates databaseID =>
    ⟨http.MethodGet, fmt.Sprintf "%s/%s/maintenance" [databasePath, databaseID],
      none, none,
      some databaseUpdatesBase, [.nil], fun x => [x.field "AvailableUpdates"]⟩
  | .StartMaintenance databaseID =>
    ⟨http.MethodPost, fmt.Sprintf "%s/%s/maintenance" [databasePath, databaseID],
      none, none,
      some databaseMessage, [.str ""], fun x => [x.field "Message"]⟩
  | .ListServiceAlerts databaseID databaseAlertsReq =>
    ⟨http.MethodPost, fmt.Sprintf "%s/%s/alerts" [databasePath, databaseID],
      some ⟨.ptr DatabaseListAlertsReq, databaseAlertsReq⟩, none,
      some databaseAlertsBase, [.nil], fun x => [x.field "DatabaseAlerts"]⟩
  | .GetMigrationStatus databaseID =>
    ⟨http.MethodGet, fmt.Sprintf "%s/%s/migration" [databasePath, databaseID],
      none, none,
      some databaseMigrationBase, [.nil], fun x => [x.field "Migration"]⟩
  | .StartMigration databaseID databaseMigrationReq =>
    ⟨http.MethodPost, fmt.Sprintf "%s/%s/migration" [databasePath, databaseID],
      some ⟨.ptr DatabaseMigrationStartReq, databaseMigrationReq⟩, none,
      some databaseMigrationBase, [.nil], fun x => [x.field "Migration"]⟩
  | .DetachMigration databaseID =>
    ⟨http.MethodDelete, fmt.Sprintf "%s/%s/migration" [databasePath, databaseID],
      none, none,
      none, [], fun _ => []⟩
  | .AddReadOnlyReplica databaseID databaseReplicaReq =>
    ⟨http.MethodPost, fmt.Sprintf "%s/%s/read-replica" [databasePath, databaseID],
      some ⟨.ptr DatabaseAddReplicaReq, databaseReplicaReq⟩, none,
      some databaseBase, [.nil], fun x => [x.field "Database"]⟩
  | .GetBackupInformation databaseID =>
    ⟨http.MethodGet, fmt.Sprintf "%s/%s/backups" [databasePath, databaseID],
      none, none,
      some DatabaseBackups, [.nil], fun x => [x]⟩
  | .RestoreFromBackup databaseID databaseRestoreReq =>
    ⟨http.MethodPost, fmt.Sprintf "%s/%s/restore" [databasePath, databaseID],
      some ⟨.ptr DatabaseBackupRestoreReq, databaseRestoreReq⟩, none,
      some databaseBase, [.nil], fun x => [x.field "Database"]⟩
  | .Fork databaseID databaseForkReq =>
    ⟨http.MethodPost, fmt.Sprintf "%s/%s/fork" [databasePath, databaseID],
      some ⟨.ptr DatabaseForkReq, databaseForkReq⟩, none,
      some databaseBase, [.nil], fun x => [x.field "Database"]⟩
  | .ListConnectionPools databaseID =>
    ⟨http.MethodGet, fmt.Sprintf "%s/%s/connection-pools" [databasePath, databaseID],
      none, none,
      some databaseConnectionPoolsBase, [.nil, .nil, .nil],
      fun x => [x.field "Connections", x.field "ConnectionPools", x.field "Meta"]⟩
  | .CreateConnectionPool databaseID databaseConnectionPoolReq =>
    ⟨http.MethodPost, fmt.Sprintf "%s/%s/connection-pools" [databasePath, databaseID],
      some ⟨.ptr DatabaseConnectionPoolCreateReq, databaseConnectionPoolReq⟩, none,
      some databaseConnectionPoolBase, [.nil], fun x => [x.field "ConnectionPool"]⟩
  | .GetConnectionPool databaseID poolName =>
    ⟨http.MethodGet, fmt.Sprintf "%s/%s/connection-pools/%s" [databasePath, databaseID, poolName],
      none, none,
      some databaseConnectionPoolBase, [.nil], fun x => [x.field "ConnectionPool"]⟩
  | .UpdateConnectionPool databaseID poolName databaseConnectionPoolReq =>
    ⟨http.MethodPut, fmt.Sprintf "%s/%s/connection-pools/%s" [databasePath, databaseID, poolName],
      some ⟨.ptr DatabaseConnectionPoolUpdateReq, databaseConnectionPoolReq⟩, none,
      some databaseConnectionPoolBase, [.nil], fun x => [x.field "ConnectionPool"]⟩
  | .DeleteConnectionPool databaseID poolName =>
    ⟨http.MethodDelete, fmt.Sprintf "%s/%s/connection-pools/%s" [databasePath, databaseID, poolName],
      none, none,
      none, [], fun _ => []⟩
  | .ListAdvancedOptions databaseID =>
    ⟨http.MethodGet, fmt.Sprintf "%s/%s/advanced-options" [databasePath, databaseID],
      none, none,
      some databaseAdvancedOptionsBase, [.nil, .nil],
      fun x => [x.field "ConfiguredOptions", x.field "AvailableOptions"]⟩
  | .UpdateAdvancedOptions databaseID databaseAdvancedOptionsReq =>
    ⟨http.MethodPut, fmt.Sprintf "%s/%s/advanced-options" [databasePath, databaseID],
      some ⟨.ptr DatabaseAdvancedOptions, databaseAdvancedOptionsReq⟩, none,
      some databaseAdvancedOptionsBase, [.nil, .nil],
      fun x => [x.field "ConfiguredOptions", x.field "AvailableOptions"]⟩
  | .ListAvailableVersions databaseID =>
    ⟨http.MethodGet, fmt.Sprintf "%s/%s/version-upgrade" [databasePath, databaseID],
      none, none,
      some DatabaseAvailableVersions, [.nil], fun x => [x.field "AvailableVersions"]⟩
  | .StartVersionUpgrade databaseID databaseVersionUpgradeReq =>
    ⟨http.MethodPost, fmt.Sprintf "%s/%s/version-upgrade" [databasePath, databaseID],
      some ⟨.ptr DatabaseVersionUpgradeReq, databaseVersionUpgradeReq⟩, none,
      some databaseMessage, [.str ""], fun x => [x.field "Message"]⟩

/-- The handler that follows a schema: request construction, query encoding when the
schema has options, dispatch into a new envelope (or with a nil shape), and the
results. Every handler of database.go is an instance of it. -/
def DatabaseServiceHandler.run {ω : Type} (i : DatabaseServiceHandler ω) (p : Plan) (s : St ω) :
    Ret × St ω :=
  match i.client.newRequest p.method p.uri p.body s with
  | (.error err, s) => (⟨p.zeros, some err⟩, s)
  | (.ok req, s) =>
    match p.options with
    | some o =>
      match i.values o s with
      | (.error err, s) => (⟨p.zeros, some err⟩, s)
      | (.ok newValues, s) =>
        match p.shape with
        | none =>
          match i.client.doWithContext
            { req with URL := { req.URL with RawQuery := Values.Encode newValues } } none s with
          | ((_, err), s) => (⟨p.zeros, err⟩, s)
        | some T =>
          match i.client.doWithContext
            { req with URL := { req.URL with RawQuery := Values.Encode newValues } }
            (some ⟨.ptr T, new T⟩) s with
          | ((_, some err), s) => (⟨p.zeros, some err⟩, s)
          | ((x, none), s) => (⟨p.results x, none⟩, s)
    | none =>
      match p.shape with
      | none =>
        match i.client.doWithContext req none s with
        | ((_, err), s) => (⟨p.zeros, err⟩, s)
      | some T =>
        match i.client.doWithContext req (some ⟨.ptr T, new T⟩) s with
        | ((_, some err), s) => (⟨p.zeros, some err⟩, s)
        | ((x, none), s) => (⟨p.results x, none⟩, s)

/-! ## go-querystring: query.Values -/

/-- The function valueString of go-querystring, for strings, integers and booleans. -/
def valueString : GoVal → Option String
  | .str s => some s
  | .int n => some (toString n)
  | .bool b => some (if b then "true" else "false")
  | _ => none

/-- The loop of reflectValue over the fields of a struct: a field tagged omitempty
whose value is empty is skipped, every other field is added under the name of its tag.
Only the field kinds of the option types of database.go are modelled. -/
def reflectValue (values : Values) : List (FieldVal GoVal) → Except Error Values
  | [] => .ok values
  | f :: fs =>
    if f.omitempty && isEmptyValue f.val then reflectValue values fs
    else match valueString f.val with
      | some x => reflectValue (Values.Add values f.key x) fs
      | none => .error (.other "query: field kind outside the model")

/-- The function query.Values: a nil pointer gives no values, a struct (through a
pointer) the values of its fields, anything else is an error. -/
def query.Values (v : Iface) : Except Error Values :=
  match v.val with
  | .nil => .ok []
  | .ptr (.struct _ fs) => reflectValue [] fs
  | .struct _ fs => reflectValue [] fs
  | _ => .error (.other "query: Values() expects struct input")

/-- The database handler of a client, linked against query.Values. -/
def databaseHandler {ω : Type} (c : Client ω) : DatabaseServiceHandler ω :=
  ⟨c, query.Values⟩

/-- The keys under which the list endpoints accept filters. -/
def filterKeys : List String := ["label", "tag", "region"]

/-! ## The dispatch layer -/

/-- Modelled from the spec: the immutable configuration of the dispatcher (base URL,
credential, retry limits), which is declared outside database.go. The spec does not
name the key of the provider error code in an error body; it is a parameter here. -/
structure Config where
  baseURL : String
  credential : String
  retryBudget : Nat
  baseDelay : Nat
  maxDelay : Nat
  providerCodeKey : String

/-- A response body as the codec meets it: nothing at all, text that is not JSON, or
a JSON document. -/
inductive Body where
  | empty
  | malformed
  | json (j : JSON)

/-- An HTTP response: status code, status line, the retry-after hint and the body. -/
structure Response where
  status : Nat
  statusLine : String
  retryAfter : Option Nat
  body : Body

/-- The outcome of one transport round trip. -/
inductive RoundTrip where
  | response (r : Response)
  | failure (msg : String)
  | cancelled

/-- The network as the dispatcher meets it: server gives the outcome of the k-th round
trip of a request, interrupted tells whether the context is cancelled during the k-th
backoff wait; roundTrips counts the round trips made and waits records the waits. -/
structure Net where
  server : Request → Nat → RoundTrip
  interrupted : Nat → Bool
  roundTrips : Nat
  waits : List Nat

/-- Pointer depth and pointee type of a type. -/
def GoType.deref : GoType → Nat × GoType
  | .ptr t => (t.deref.1 + 1, t.deref.2)
  | t => (0, t)

/-- A value behind n pointers. -/
def wrapPtr : Nat → GoVal → GoVal
  | 0, v => v
  | n + 1, v => .ptr (wrapPtr n v)

/-- The position of the highest set bit of m, by halving at most fuel times. -/
def highBit : Nat → Nat → Nat
  | 0, _ => 0
  | fuel + 1, m => if m < 2 then 0 else highBit fuel (m / 2) + 1

/-- The float32 nearest to a natural number, as a bit pattern; none on overflow. -/
def float32OfNat (m : Nat) : Option Nat :=
  if m = 0 then some 0
  else
    let e := highBit m m
    if e ≤ 23 then some ((e + 127) * 8388608 + (m * 2 ^ (23 - e) - 8388608))
    else
      let shift := e - 23
      let q := m / 2 ^ shift
      let r := m % 2 ^ shift
      let half := 2 ^ (shift - 1)
      let q1 := if r > half || (r == half && q % 2 == 1) then q + 1 else q
      let e1 := if q1 == 16777216 then e + 1 else e
      let mant := if q1 == 16777216 then 0 else q1 - 8388608
      if e1 > 127 then none else some ((e1 + 127) * 8388608 + mant)

/-- The float32 nearest to an integer, as a bit pattern; none on overflow. -/
def float32OfInt (n : Int) : Option Nat :=
  if n < 0 then (float32OfNat n.natAbs).map (· + 2147483648) else float32OfNat n.natAbs

mutual
/-- Modelled from the spec: the decoding of the codec, which is outside database.go.
A JSON value is decoded into a fresh value of the expected type along the json tags
of the struct declarations; a value of the wrong kind or an integer outside int64 is
an error. -/
def decodeValue (t : GoType) : JSON → Except String GoVal
  | .null => .ok (zeroValue (resolve t))
  | .bool b => match resolve t.deref.2 with
    | .bool => .ok (wrapPtr t.deref.1 (.bool b))
    | _ => .error "cannot decode a boolean into this type"
  | .num n => match resolve t.deref.2 with
    | .int =>
      if -9223372036854775808 ≤ n ∧ n ≤ 9223372036854775807
      then .ok (wrapPtr t.deref.1 (.int n))
      else .error "number out of range"
    | .float32 => match float32OfInt n with
      | some bits => .ok (wrapPtr t.deref.1 (.float bits))
      | none => .error "number out of range"
    | _ => .error "cannot decode a number into this type"
  | .float bits => match resolve t.deref.2 with
    | .float32 => .ok (wrapPtr t.deref.1 (.float bits))
    | _ => .error "cannot decode a number into this type"
  | .str s => match resolve t.deref.2 with
    | .string => .ok (wrapPtr t.deref.1 (.str s))
    | _ => .error "cannot decode a string into this type"
  | .arr xs => match resolve t.deref.2 with
    | .slice e => match decodeElems e xs with
      | .ok vs => .ok (wrapPtr t.deref.1 (.slice vs))
      | .error e => .error e
    | _ => .error "cannot decode an array into this type"
  | .obj ms => match resolve t.deref.2 with
    | .struct n ds => match decodeMembers ds ms (zeroFields ds) with
      | .ok fs => .ok (wrapPtr t.deref.1 (.struct n fs))
      | .error e => .error e
    | _ => .error "cannot decode an object into this type"
/-- The decoding of the elements of an array. -/
def decodeElems (e : GoType) : List JSON → Except String (List GoVal)
  | [] => .ok []
  | x :: xs => match decodeValue e x with
    | .error err => .error err
    | .ok v => match decodeElems e xs with
      | .error err => .error err
      | .ok vs => .ok (v :: vs)
/-- The decoding of the members of an object into the fields of a struct, in the
order of the members: a member whose key is the tag of no field is skipped. -/
def decodeMembers (ds : List (FieldDecl GoType)) :
    List (String × JSON) → List (FieldVal GoVal) → Except String (List (FieldVal GoVal))
  | [], acc => .ok acc
  | (k, j) :: ms, acc =>
    match ds.find? (fun d => d.key == k) with
    | none => decodeMembers ds ms acc
    | some d => match decodeValue d.type j with
      | .error err => .error err
      | .ok v => decodeMembers ds ms (assignField d.name v acc)
end

/-- The type pointer to Meta. -/
def GoType.isMetaPtr : GoType → Bool
  | .ptr (.struct "Meta" _) => true
  | _ => false

/-- Modelled from the spec: the envelope keys that a response must hold, taken as the
keys of the fields of the expected shape that are not tagged omitempty, the field of
the pagination Meta apart: an envelope without a member meta carries no cursor, and the
Meta of the result stays nil. -/
def requiredKeys (t : GoType) : List String :=
  (t.fieldDecls.filter (fun d => !d.omitempty && !d.type.isMetaPtr)).map (·.key)

/-- Modelled from the spec: the check of the codec for a missing envelope key (spec
4.4), which is outside database.go: the first required key that a JSON document lacks. -/
def missingKey (t : GoType) (j : JSON) : Option String :=
  (requiredKeys t).find? (fun k => (j.get k).isNone)

/-- Modelled from the spec: the method decode of the codec, which is outside
database.go (spec 4.4). With a nil expected shape nothing is decoded. Otherwise a body
that is empty or malformed, that lacks a required envelope key, or that does not fit
the shape is a DecodeError; members outside the shape are tolerated. The result is the
value of the target after the call. -/
def decode (body : Body) (v : Option Iface) : GoVal × Option Error :=
  match v with
  | none => (.nil, none)
  | some target =>
    match body with
    | .empty => (target.val, some (.DecodeError "unexpected end of input"))
    | .malformed => (target.val, some (.DecodeError "malformed body"))
    | .json j =>
      match missingKey target.type.deref.2 j with
      | some k => (target.val, some (.DecodeError ("missing envelope key " ++ k)))
      | none =>
        match decodeValue target.type j with
        | .error msg => (target.val, some (.DecodeError msg))
        | .ok x => (x, none)

/-- Modelled from the spec: the Authenticator (spec 4.2), which is outside database.go.
It adds the bearer credential, and the content type when the request has a body. -/
def attach (cfg : Config) (req : Request) : Request :=
  { req with Header := req.Header ++ [("Authorization", "Bearer " ++ cfg.credential)] ++
      (if req.Body.isSome then [("Content-Type", "application/json")] else []) }

/-- Modelled from the spec: the request that the dispatcher constructs (spec 4.1), whose
code is outside database.go: the method, the path under the base URL, the encoded body
when there is one, and the headers of the Authenticator. -/
def buildRequest (cfg : Config) (method uri : String) (body : Option JSON) : Request :=
  attach cfg ⟨method, ⟨uri, ""⟩, [], body⟩

/-- Modelled from the spec: the encoding of the body by the dispatcher (spec 4.1), which
is outside database.go: no body for a nil interface, else the JSON encoding of the
value; none when the value cannot be encoded. -/
def encodeBody : Option Iface → Option (Option JSON)
  | none => some none
  | some b =>
    match marshal b.val with
    | some j => some (some j)
    | none => none

/-- Modelled from the spec: the method NewRequest of the client, which is outside
database.go. It constructs the request and changes nothing else. The spec requires the
body to be serializable and names no error for a body that is not; such a body is an
error of request construction here. -/
def NewRequest {ω : Type} (cfg : Config) (method uri : String) (body : Option Iface) (w : ω) :
    Except Error Request × ω :=
  match encodeBody body with
  | some encoded => (.ok (buildRequest cfg method uri encoded), w)
  | none => (.error (.other "json: unsupported value"), w)

/-- Modelled from the spec: one transport round trip of the dispatcher (spec 4.1), which
is outside database.go: the outcome for this request at this point, counted. -/
def roundTrip (req : Request) (net : Net) : RoundTrip × Net :=
  (net.server req net.roundTrips, { net with roundTrips := net.roundTrips + 1 })

/-- Modelled from the spec: the wait before the retry after the given attempt (spec
4.3): the retry-after hint of the response when there is one, else the base delay
doubled per attempt, capped by the maximum delay. -/
def backoff (cfg : Config) (attempt : Nat) (retryAfter : Option Nat) : Nat :=
  match retryAfter with
  | some hint => hint
  | none => min cfg.maxDelay (cfg.baseDelay * 2 ^ attempt)

/-- Modelled from the spec: a backoff wait of the retry policy (spec 4.3), which is
outside database.go: it is recorded unless the context is cancelled during it. -/
def sleep (d : Nat) (net : Net) : Bool × Net :=
  if net.interrupted net.waits.length then (false, net)
  else (true, { net with waits := net.waits ++ [d] })

/-- Modelled from the spec: the error for a response that is neither a success nor a
429 (spec 4.1): the message of the body when it has the shape of an API error, else
the status line. -/
def apiError (cfg : Config) (r : Response) : Error :=
  match r.body with
  | .json j =>
    match j.get "error" with
    | some (.str msg) =>
      .APIError r.status msg (match j.get cfg.providerCodeKey with
        | some (.str code) => some code
        | _ => none)
    | _ => .APIError r.status r.statusLine none
  | _ => .APIError r.status r.statusLine none

/-- Modelled from the spec: the message that a RateLimitError carries (spec 4.1), built
outside database.go: the error of the body when there is one, else the status line. -/
def Response.message (r : Response) : String :=
  match r.body with
  | .json j =>
    match j.get "error" with
    | some (.str msg) => msg
    | _ => r.statusLine
  | _ => r.statusLine

/-- Modelled from the spec: the attempts of one dispatch (spec 4.1 and 4.3), which is
outside database.go. The argument left bounds the retries still allowed and attempt
counts the attempts already made. A transport failure or a cancellation ends the call
at once; a status from 200 to 299 hands the body to the codec (the spec lists 200, 201,
202 and 204 and speaks of 2xx responses; the whole class counts as success here); a
429 is retried after the backoff wait while the budget of retries lasts and is a
RateLimitError after that; every other status is an APIError. -/
def attempts (cfg : Config) (req : Request) (v : Option Iface) :
    Nat → Nat → Net → (GoVal × Option Error) × Net
  | left, attempt, net =>
    let cur : GoVal := match v with
      | some target => target.val
      | none => .nil
    match roundTrip req net with
    | (.failure msg, net) => ((cur, some (.TransportError msg)), net)
    | (.cancelled, net) => ((cur, some .CancellationError), net)
    | (.response r, net) =>
      if 200 ≤ r.status ∧ r.status ≤ 299 then (decode r.body v, net)
      else if r.status = 429 then
        match left with
        | 0 => ((cur, some (.RateLimitError (attempt + 1) r.status r.message)), net)
        | left + 1 =>
          match sleep (backoff cfg attempt r.retryAfter) net with
          | (false, net) => ((cur, some .CancellationError), net)
          | (true, net) => attempts cfg req v left (attempt + 1) net
      else ((cur, some (apiError cfg r)), net)

/-- Modelled from the spec: the method DoWithContext of the client, the Request
Dispatcher of spec 4.1, which is outside database.go. -/
def DoWithContext (cfg : Config) (req : Request) (v : Option Iface) (net : Net) :
    (GoVal × Option Error) × Net :=
  attempts cfg req v cfg.retryBudget 0 net

/-- Modelled from the spec: the client of the dispatch layer. -/
def specClient (cfg : Config) : Client Net :=
  ⟨NewRequest cfg, DoWithContext cfg⟩

/-! ## The load balancer handler -/

/-- The calls of the load balancer handler without a payload that
load_balancer_test.go exercises. -/
inductive LoadBalancerOperation where
  | Delete (ID : Int)
  | SetLabel (ID : Int) (label : String)
  | AttachInstance (ID : Int) (backendNode : Int)
  | DetachInstance (ID : Int) (backendNode : Int)
  | SetHealthCheck (ID : Int) (healthCheck : GoVal)

/-- The path of each call, from the handlers that load_balancer_test.go registers. -/
def LoadBalancerOperation.path : LoadBalancerOperation → String
  | .Delete _ => "/v1/loadbalancer/destroy"
  | .SetLabel _ _ => "/v1/loadbalancer/label_set"
  | .AttachInstance _ _ => "/v1/loadbalancer/instance_attach"
  | .DetachInstance _ _ => "/v1/loadbalancer/instance_detach"
  | .SetHealthCheck _ _ => "/v1/loadbalancer/health_check_update"

/-- Modelled from the spec: the payload-less methods of the load balancer handler, whose
code is outside src (only load_balancer_test.go is there). By spec 6 a handler supplies
a path, a verb and the shape to decode, and an endpoint without a payload is
dispatched with a nil shape. The verb and the encoding of the arguments are not fixed
by the tests; the request is built with POST and no body. -/
def LoadBalancerHandler.exec {ω : Type} (c : Client ω) (op : LoadBalancerOperation)
    (s : St ω) : Ret × St ω :=
  match c.newRequest http.MethodPost op.path none s with
  | (.error err, s) => (⟨[], some err⟩, s)
  | (.ok req, s) =>
    match c.doWithContext req none s with
    | ((_, err), s) => (⟨[], err⟩, s)

/-! ## Classification of the operations -/

/-- The kind of a call. -/
inductive StepKind where
  | NewRequest
  | Values
  | DoWithContext
  deriving DecidableEq

/-- The kind of a step. -/
def Step.kind : Step → StepKind
  | .NewRequest _ _ _ => .NewRequest
  | .Values _ => .Values
  | .DoWithContext _ _ => .DoWithContext

/-- The calls of a handler in which no call fails: List and ListPlans encode the
query between request construction and dispatch. -/
def plannedSteps : Operation → List StepKind
  | .ListPlans _ => [.NewRequest, .Values, .DoWithContext]
  | .List _ => [.NewRequest, .Values, .DoWithContext]
  | _ => [.NewRequest, .DoWithContext]

/-- An operation returns a Meta when pointer to Meta is among its result types. -/
def returnsMeta (op : Operation) : Bool :=
  (resultTypes op).any GoType.isMetaPtr

/-- The list-style operations of DatabaseService. -/
def listStyle : Operation → Bool
  | .ListPlans _ => true
  | .List _ => true
  | .ListUsers _ => true
  | .ListDBs _ => true
  | .ListMaintenanceUpdates _ => true
  | .ListServiceAlerts _ _ => true
  | .ListConnectionPools _ => true
  | .ListAdvancedOptions _ => true
  | .ListAvailableVersions _ => true
  | _ => false

/-- The list-style operations whose envelope holds a Meta. -/
def pagedList : Operation → Bool
  | .ListPlans _ => true
  | .List _ => true
  | .ListUsers _ => true
  | .ListDBs _ => true
  | .ListConnectionPools _ => true
  | _ => false

/-- The operations without a payload: they return only an error. -/
def payloadless : Operation → Bool
  | .Delete _ => true
  | .DeleteUser _ _ => true
  | .DeleteDB _ _ => true
  | .DetachMigration _ => true
  | .DeleteConnectionPool _ _ => true
  | _ => false

/-- The operations that decode a databaseBase envelope. -/
def decodesDatabase : Operation → Bool
  | .Create _ => true
  | .Get _ => true
  | .Update _ _ => true
  | .AddReadOnlyReplica _ _ => true
  | .RestoreFromBackup _ _ => true
  | .Fork _ _ => true
  | _ => false

/-! ## Clients and networks for the examples -/

/-- A configuration for the examples. -/
def exampleConfig : Config := ⟨"https://api.vultr.com", "secret", 3, 1, 8, "code"⟩

/-- A client whose request construction fails. -/
def refusingClient : Client Unit where
  NewRequest := fun _ _ _ w => (.error (.ConfigurationError "no base URL"), w)
  DoWithContext := fun _ _ w => ((.nil, none), w)

/-- A client that builds the request and answers every dispatch with the given value
of the target and no error. -/
def cannedClient (answer : GoVal) : Client Unit where
  NewRequest := fun method uri body w => NewRequest exampleConfig method uri body w
  DoWithContext := fun _ _ w => ((answer, none), w)

/-- A network whose server answers every round trip with the same response. -/
def constantNet (r : Response) : Net := ⟨fun _ _ => .response r, fun _ => false, 0, []⟩

/-- An envelope of maintenance updates as a dispatch leaves it. -/
def updatesEnvelope : GoVal :=
  .ptr ((zeroValue databaseUpdatesBase).setField "AvailableUpdates"
    (.slice [.str "mysql-8.0.36", .str "kernel-6.1"]))

/-- An envelope of databases with its meta as a dispatch leaves it. -/
def databasesEnvelope : GoVal :=
  .ptr (((zeroValue databasesBase).setField "Databases"
    (.slice [(zeroValue Database).setField "ID" (.str "db-1")])).setField "Meta"
    (.ptr (((zeroValue Meta).setField "Total" (.int 1)).setField "Links"
      ((zeroValue Links).setField "Next" (.str "cursor-A")))))

/-- The value of the last member with the given key. -/
def lookupLast (key : String) : List (String × JSON) → Option JSON
  | [] => none
  | (k, j) :: ms =>
    match lookupLast key ms with
    | some x => some x
    | none => if k = key then some j else none

/-- A success response with an empty body. -/
def noContent : Response := ⟨204, "204 No Content", none, .empty⟩

/-- A success response whose body is the given JSON document. -/
def okJSON (j : JSON) : Response := ⟨200, "200 OK", none, .json j⟩

/-- The members of an answer to Fork: the database and a member outside the envelope. -/
def forkAnswer : List (String × JSON) :=
  [("database", .obj [("id", .str "db-2"), ("label", .str "fork"), ("plan_ram", .num 2048)]),
   ("request_id", .str "f3a9")]

/-! ## Requests and calls of a handler invocation -/

/-- The request that reaches the dispatcher when a handler with the given schema runs
over the dispatch layer, linked against query.Values: the constructed request, with the
encoded query as its raw query when the schema has options; none when the body cannot
be encoded or the query encoding fails. -/
def requestOf (cfg : Config) (p : Plan) : Option Request :=
  match encodeBody p.body with
  | none => none
  | some encoded =>
    match p.options with
    | none => some (buildRequest cfg p.method p.uri encoded)
    | some o =>
      match query.Values o with
      | .error _ => none
      | .ok newValues =>
        some { buildRequest cfg p.method p.uri encoded with
          URL := { (buildRequest cfg p.method p.uri encoded).URL with
            RawQuery := Values.Encode newValues } }

/-- The method and the path of the first call of a trace, when it is a call of
NewRequest. -/
def requestLine : Trace → Option (String × String)
  | ⟨.NewRequest method uri _, _⟩ :: _ => some (method, uri)
  | _ => none

/-- The number of calls of a kind in a trace. -/
def countKind (k : StepKind) (t : Trace) : Nat :=
  (t.filter fun e => e.step.kind = k).length

/-! ## Envelopes of collections and of messages -/

/-- The operations named by the collection envelopes: the field of the envelope that
holds the collection, the key the claim names for it, and the type of an element. -/
def collectionOf : Operation → Option (String × String × GoType)
  | .ListPlans _ => some ("DatabasePlans", "plans", DatabasePlan)
  | .List _ => some ("Databases", "databases", Database)
  | .ListUsers _ => some ("DatabaseUsers", "users", DatabaseUser)
  | .ListDBs _ => some ("DatabaseDBs", "dbs", DatabaseDB)
  | _ => none

/-- The operations that return the message of an action. -/
def returnsMessage : Operation → Bool
  | .StartMaintenance _ => true
  | .StartVersionUpgrade _ _ => true
  | _ => false

/-- The members of an answer to ListDBs: two logical databases, the meta with a cursor,
and a member outside the envelope. -/
def dbsAnswer : List (String × JSON) :=
  [("dbs", .arr [.obj [("name", .str "alpha")], .obj [("name", .str "beta")]]),
   ("meta", .obj [("total", .num 5),
     ("links", .obj [("next", .str "cursor-A"), ("prev", .str "")])]),
   ("request_id", .str "f3a9")]

/-- The members of an answer to ListDBs without a meta: two logical databases. -/
def dbsOnlyAnswer : List (String × JSON) :=
  [("dbs", .arr [.obj [("name", .str "alpha")], .obj [("name", .str "beta")]])]

/-- The members of an answer to StartMaintenance. -/
def messageAnswer : List (String × JSON) :=
  [("message", .str "Maintenance started")]

/-! ## Options of the list calls -/

/-- The options value of List that points to a DBListOptions with the given fields. -/
def listOptions (label tag region : String) : GoVal :=
  .ptr (.struct "DBListOptions" [⟨"Label", "label", true, .str label⟩,
    ⟨"Tag", "tag", true, .str tag⟩, ⟨"Region", "region", true, .str region⟩])

/-- The options value of ListPlans that points to a DBPlanListOptions with the given
fields. -/
def planListOptions (engine : String) (nodes : Int) (region : String) : GoVal :=
  .ptr (.struct "DBPlanListOptions" [⟨"Engine", "engine", true, .str engine⟩,
    ⟨"Nodes", "nodes", true, .int nodes⟩, ⟨"Region", "region", true, .str region⟩])

/-- The query values that hold the key once, with the value, unless the value is
empty. -/
def queryValue (key value : String) : Values :=
  if value = "" then [] else [(key, [value])]

/-- The pair key=value of a raw query, the value escaped, unless the value is empty. -/
def queryPair (key value : String) : List String :=
  if value = "" then [] else [key ++ "=" ++ url.QueryEscape value]

/-- The requests that a trace shows as dispatched. -/
def dispatched : Trace → List Request
  | [] => []
  | ⟨.DoWithContext req _, _⟩ :: t => req :: dispatched t
  | _ :: t => dispatched t

/-! ## Responses and networks for the examples of the error paths -/

/-- A response with the status 429 and the body of an API error. -/
def throttled : Response :=
  ⟨429, "429 Too Many Requests", none, .json (.obj [("error", .str "rate limited")])⟩

/-- A network whose server answers every round trip with a 429 and whose context is
cancelled during the first backoff wait. -/
def cancellingNet : Net := ⟨fun _ _ => .response throttled, fun k => k == 0, 0, []⟩

/-- The response of the example of the spec: the status 404 with an error body. -/
def notFound : Response :=
  ⟨404, "404 Not Found", none, .json (.obj [("error", .str "not found")])⟩

/-! ## The list of load balancers -/

/-- Modelled from the spec: the type LoadBalancers, declared outside src. Its fields and
their types are those of the literal in TestLoadBalancerHandler_List, and the keys
SUBID, date_created, location, label and status are those of the response of that
test. The keys of RegionID, IPV4 and IPV6 are not fixed by the test and are parameters;
the options of the tags play no part in decoding. -/
def LoadBalancers (regionKey ipv4Key ipv6Key : String) : GoType :=
  .struct "LoadBalancers" [
    ⟨"ID", .int, "SUBID", false⟩,
    ⟨"DateCreated", .string, "date_created", false⟩,
    ⟨"Location", .string, "location", false⟩,
    ⟨"Label", .string, "label", false⟩,
    ⟨"Status", .string, "status", false⟩,
    ⟨"RegionID", .int, regionKey, false⟩,
    ⟨"IPV6", .string, ipv6Key, false⟩,
    ⟨"IPV4", .string, ipv4Key, false⟩]

/-- Pointer indirection: the value that a pointer points to. -/
def GoVal.deref : GoVal → GoVal
  | .ptr v => v
  | v => v

/-- Modelled from the spec: the method List of the load balancer handler, whose code is
outside src (only load_balancer_test.go is there). By spec 6 a handler supplies a path,
a verb and the shape to decode: the path is the one that the test registers, the shape
a slice of the element type, and the slice decoded is returned. The verb is not fixed
by the test; the request is built with GET and no body. -/
def LoadBalancerHandler.List {ω : Type} (c : Client ω) (T : GoType) (s : St ω) :
    Ret × St ω :=
  match c.newRequest http.MethodGet "/v1/loadbalancer/list" none s with
  | (.error err, s) => (⟨[.nil], some err⟩, s)
  | (.ok req, s) =>
    match c.doWithContext req (some ⟨.ptr (.slice T), new (.slice T)⟩) s with
    | ((_, some err), s) => (⟨[.nil], some err⟩, s)
    | ((lbList, none), s) => (⟨[lbList.deref], none⟩, s)

/-- A JSON value of the kind of a string or integer field: null, a string for a string
field, a number within int64 for an integer field. -/
def fits : GoType → JSON → Bool
  | _, .null => true
  | .string, .str _ => true
  | .int, .num n => decide (-9223372036854775808 ≤ n ∧ n ≤ 9223372036854775807)
  | _, _ => false

/-- A JSON object of a struct type with string and integer fields: each member under
the key of a field is of the kind of the field. -/
def isObjectOf (t : GoType) : JSON → Bool
  | .obj ms => ms.all fun m =>
      match t.fieldDecls.find? (fun d => d.key == m.1) with
      | none => true
      | some d => fits d.type m.2
  | _ => false

/-- The load balancer object of the response of TestLoadBalancerHandler_List. -/
def loadBalancerAnswer : JSON :=
  .obj [("SUBID", .num 1317575), ("date_created", .str "2020-01-07 17:24:23"),
    ("location", .str "New Jersey"), ("label", .str "test"), ("status", .str "active")]

/-! ## The request dispatched -/

/-- The request that a handler dispatches once NewRequest has built req: req itself for
a schema without options, else req with the encoded query values of the options as raw
query; none when the query encoding fails. -/
def dispatchOf (p : Plan) (req : Request) : Option Request :=
  match p.options with
  | none => some req
  | some o =>
    match query.Values o with
    | .error _ => none
    | .ok newValues =>
      some { req with URL := { req.URL with RawQuery := Values.Encode newValues } }

/-! ## Lemmas on struct values and their encoding -/

theorem lookupKey_eq_none_iff (key : String) (ms : List (String × JSON)) :
    lookupKey key ms = none ↔ key ∉ ms.map Prod.fst := by
  induction ms with
  | nil => simp [lookupKey]
  | cons m ms ih =>
    obtain ⟨k, j⟩ := m
    by_cases h : k = key
    · simp [lookupKey, h]
    · have h2 : ¬ key = k := fun e => h e.symm
      simp [lookupKey, h, h2, ih]

theorem tagsOf_of_fieldsHaveType :
    ∀ (fs : List (FieldVal GoVal)) (ds : List (FieldDecl GoType)),
      fieldsHaveType fs ds = true → tagsOf fs = declTags ds := by
  intro fs
  induction fs with
  | nil =>
    intro ds h
    cases ds with
    | nil => rfl
    | cons d ds => simp [fieldsHaveType] at h
  | cons f fs ih =>
    intro ds h
    obtain ⟨name, key, omitempty, val⟩ := f
    cases ds with
    | nil => simp [fieldsHaveType] at h
    | cons d ds =>
      simp only [fieldsHaveType, Bool.and_eq_true, beq_iff_eq] at h
      obtain ⟨⟨⟨⟨h1, h2⟩, h3⟩, _⟩, h5⟩ := h
      simp [tagsOf, declTags, h1, h2, h3]
      have := ih ds h5
      simpa [tagsOf, declTags] using this

theorem hasType_struct (v : GoVal) (m : String) (ds : List (FieldDecl GoType))
    (h : hasType v (.struct m ds) = true) :
    ∃ fs, v = .struct m fs ∧ fieldsHaveType fs ds = true := by
  cases v with
  | struct n fs =>
    simp only [hasType, resolve, Bool.and_eq_true, beq_iff_eq] at h
    exact ⟨fs, by rw [h.1], h.2⟩
  | _ => simp [hasType] at h

theorem tagsOf_assignField (name : String) (x : GoVal) (fs : List (FieldVal GoVal)) :
    tagsOf (assignField name x fs) = tagsOf fs := by
  induction fs with
  | nil => rfl
  | cons f fs ih =>
    by_cases h : f.name = name
    · simp [assignField, h, tagsOf]
    · simp only [assignField, h, if_false]
      simpa [tagsOf] using ih

theorem lookupField_assignField (name : String) (x : GoVal) (fs : List (FieldVal GoVal))
    (h : name ∈ fs.map (·.name)) : lookupField name (assignField name x fs) = x := by
  induction fs with
  | nil => simp at h
  | cons f fs ih =>
    by_cases hf : f.name = name
    · simp [assignField, hf, lookupField]
    · have h2 : name ∈ fs.map (·.name) := by
        simp only [List.map_cons, List.mem_cons] at h
        rcases h with h | h
        · exact absurd h.symm hf
        · exact h
      simp [assignField, hf, lookupField, ih h2]

theorem marshalFields_cons (f : FieldVal GoVal) (fs : List (FieldVal GoVal)) :
    marshalFields (f :: fs) =
      if f.omitempty && isEmptyValue f.val then marshalFields fs
      else (marshal f.val).bind fun j => (marshalFields fs).map fun ms => (f.key, j) :: ms := by
  obtain ⟨n, k, o, v⟩ := f
  by_cases h : (o && isEmptyValue v) = true
  · simp [marshalFields, h]
  · rcases hv : marshal v with _ | j <;> rcases hm : marshalFields fs with _ | ms <;>
      simp [marshalFields, h, hv, hm]

theorem keys_marshalFields_subset (key : String) :
    ∀ (fs : List (FieldVal GoVal)) (ms : List (String × JSON)), marshalFields fs = some ms →
      key ∈ ms.map Prod.fst → key ∈ fs.map (·.key) := by
  intro fs
  induction fs with
  | nil =>
    intro ms h hm
    simp only [marshalFields, Option.some.injEq] at h
    subst h
    simp at hm
  | cons f fs ih =>
    intro ms h hm
    rw [marshalFields_cons] at h
    by_cases h2 : (f.omitempty && isEmptyValue f.val) = true
    · rw [if_pos h2] at h
      exact List.mem_cons_of_mem _ (ih ms h hm)
    · rw [if_neg h2] at h
      obtain ⟨j, _, h⟩ := Option.bind_eq_some.mp h
      obtain ⟨ms2, hms2, rfl⟩ := Option.map_eq_some'.mp h
      rcases List.mem_cons.mp hm with hm | hm
      · simp [hm]
      · exact List.mem_cons_of_mem _ (ih ms2 hms2 hm)

/-- The member written for a field: under the key of the field stands the encoding of
its value, unless the field is tagged omitempty and its value is empty. -/
theorem lookupKey_marshalFields :
    ∀ (fs : List (FieldVal GoVal)) (ms : List (String × JSON)), marshalFields fs = some ms →
      (fs.map (·.name)).Nodup → (fs.map (·.key)).Nodup →
      ∀ g ∈ fs, lookupKey g.key ms =
        if g.omitempty && isEmptyValue (lookupField g.name fs) then none
        else marshal (lookupField g.name fs) := by
  intro fs
  induction fs with
  | nil => intro _ _ _ _ g hg; simp at hg
  | cons f fs ih =>
    intro ms h hn hk g hg
    rw [marshalFields_cons] at h
    simp only [List.map_cons, List.nodup_cons] at hn hk
    simp only [List.mem_cons] at hg
    rcases hg with hg | hg
    · subst hg
      by_cases he : (g.omitempty && isEmptyValue g.val) = true
      · rw [if_pos he] at h
        have hnone : lookupKey g.key ms = none := by
          rw [lookupKey_eq_none_iff]
          exact fun hmem => hk.1 (keys_marshalFields_subset g.key fs ms h hmem)
        simp [lookupField, he, hnone]
      · rw [if_neg he] at h
        obtain ⟨j, hj, h⟩ := Option.bind_eq_some.mp h
        obtain ⟨ms2, _, rfl⟩ := Option.map_eq_some'.mp h
        simp [lookupField, he, lookupKey, hj]
    · have hne : ¬ f.name = g.name := by
        intro e
        apply hn.1
        rw [e]
        exact List.mem_map_of_mem _ hg
      have hke : ¬ f.key = g.key := by
        intro e
        apply hk.1
        rw [e]
        exact List.mem_map_of_mem _ hg
      by_cases he : (f.omitempty && isEmptyValue f.val) = true
      · rw [if_pos he] at h
        simpa [lookupField, hne] using ih ms h hn.2 hk.2 g hg
      · rw [if_neg he] at h
        obtain ⟨j, hj, h⟩ := Option.bind_eq_some.mp h
        obtain ⟨ms2, hms2, rfl⟩ := Option.map_eq_some'.mp h
        simpa [lookupField, hne, hke, lookupKey] using ih ms2 hms2 hn.2 hk.2 g hg

/-- The encoding of a struct exists after an assignment of an encodable value when
it existed before. -/
theorem marshalFields_assignField_isSome (name : String) (x : GoVal)
    (hx : (marshal x).isSome = true) :
    ∀ fs : List (FieldVal GoVal), (marshalFields fs).isSome = true →
      (marshalFields (assignField name x fs)).isSome = true := by
  intro fs
  induction fs with
  | nil => intro h; exact h
  | cons f fs ih =>
    intro h
    rw [marshalFields_cons] at h
    have htail : (marshalFields fs).isSome = true := by
      by_cases he : (f.omitempty && isEmptyValue f.val) = true
      · rwa [if_pos he] at h
      · rw [if_neg he] at h
        rcases hm : marshalFields fs with _ | ms
        · rw [hm] at h
          rcases marshal f.val with _ | j <;> simp at h
        · rfl
    by_cases hf : f.name = name
    · simp only [assignField, hf, if_true]
      rw [marshalFields_cons]
      obtain ⟨j, hj⟩ := Option.isSome_iff_exists.mp hx
      obtain ⟨ms, hms⟩ := Option.isSome_iff_exists.mp htail
      by_cases he : (f.omitempty && isEmptyValue x) = true
      · simp [he, hms]
      · simp [he, hms, hj]
    · simp only [assignField, hf, if_false]
      rw [marshalFields_cons]
      have := ih htail
      obtain ⟨ms, hms⟩ := Option.isSome_iff_exists.mp this
      by_cases he : (f.omitempty && isEmptyValue f.val) = true
      · simp [he, hms]
      · rw [if_neg he] at h ⊢
        rcases hv : marshal f.val with _ | j
        · rw [hv] at h; simp at h
        · simp [hms]

theorem map_name_tagsOf (fs : List (FieldVal GoVal)) :
    fs.map (·.name) = (tagsOf fs).map (·.1) := by
  simp [tagsOf]

theorem map_key_tagsOf (fs : List (FieldVal GoVal)) :
    fs.map (·.key) = (tagsOf fs).map (·.2.1) := by
  simp [tagsOf]

/-- The encoding of a struct value whose fields carry the tags of a well-formed
declaration, read at the key of a declared field. -/
theorem get_marshal_struct (n : String) (fs : List (FieldVal GoVal))
    (ds : List (FieldDecl GoType)) (ht : tagsOf fs = declTags ds)
    (hn : (ds.map (·.name)).Nodup) (hk : (ds.map (·.key)).Nodup)
    (d : FieldDecl GoType) (hd : d ∈ ds) (j : JSON) (hj : marshal (.struct n fs) = some j) :
    j.get d.key =
      if d.omitempty && isEmptyValue (lookupField d.name fs) then none
      else marshal (lookupField d.name fs) := by
  have hmem : (d.name, d.key, d.omitempty) ∈ tagsOf fs := by
    rw [ht]
    exact List.mem_map_of_mem (fun d : FieldDecl GoType => (d.name, d.key, d.omitempty)) hd
  obtain ⟨g, hg, hgt⟩ := List.mem_map.mp hmem
  simp only [Prod.mk.injEq] at hgt
  obtain ⟨h1, h2, h3⟩ := hgt
  have hn2 : (fs.map (·.name)).Nodup := by
    rw [map_name_tagsOf, ht]; simpa [declTags] using hn
  have hk2 : (fs.map (·.key)).Nodup := by
    rw [map_key_tagsOf, ht]; simpa [declTags] using hk
  rcases hm : marshalFields fs with _ | ms
  · simp [marshal, hm] at hj
  · simp only [marshal, hm, Option.some.injEq] at hj
    subst hj
    have := lookupKey_marshalFields fs ms hm hn2 hk2 g hg
    rw [h1, h2, h3] at this
    simpa [JSON.get, JSON.members] using this

theorem struct_of_structName (T : GoType) (h : T.structName.isSome = true) :
    ∃ n, T = .struct n T.fieldDecls := by
  cases T <;> simp [GoType.structName] at h
  exact ⟨_, rfl⟩

theorem requestBodyTypes_wellFormed :
    ∀ T ∈ requestBodyTypes, T.structName.isSome = true ∧ T.wellFormed ∧
      ∀ d ∈ T.fieldDecls, d.omitempty = true → isEmptyValue (zeroValue d.type) = true := by
  decide

/-- The encoding of a well-typed struct value, read at the key of a declared field. -/
theorem get_marshal_of_hasType (T : GoType) (hs : T.structName.isSome = true)
    (hw : T.wellFormed) (v : GoVal) (hv : hasType v T = true)
    (d : FieldDecl GoType) (hd : d ∈ T.fieldDecls) (j : JSON) (hj : marshal v = some j) :
    j.get d.key =
      if d.omitempty && isEmptyValue (v.field d.name) then none
      else marshal (v.field d.name) := by
  obtain ⟨n, hT⟩ := struct_of_structName T hs
  rw [hT] at hv
  obtain ⟨fs, rfl, hfs⟩ := hasType_struct v n _ hv
  exact get_marshal_struct n fs _ (tagsOf_of_fieldsHaveType fs _ hfs) hw.1 hw.2 d hd j hj

/-- The encoding of a well-typed struct value after an assignment to a declared field:
it exists when the value had an encoding and the new field value has one, and at the
key of the field it holds the encoding of the new value, unless the field is tagged
omitempty and the new value is empty. -/
theorem get_marshal_setField (T : GoType) (hs : T.structName.isSome = true)
    (hw : T.wellFormed) (v : GoVal) (hv : hasType v T = true)
    (hj : (marshal v).isSome = true)
    (d : FieldDecl GoType) (hd : d ∈ T.fieldDecls) (x : GoVal)
    (hx : (marshal x).isSome = true) :
    ∃ j, marshal (v.setField d.name x) = some j ∧
      j.get d.key = if d.omitempty && isEmptyValue x then none else marshal x := by
  obtain ⟨n, hT⟩ := struct_of_structName T hs
  rw [hT] at hv
  obtain ⟨fs, rfl, hfs⟩ := hasType_struct v n _ hv
  have ht := tagsOf_of_fieldsHaveType fs _ hfs
  have hmem : d.name ∈ fs.map (·.name) := by
    rw [map_name_tagsOf, ht]
    simp only [declTags, List.map_map, List.mem_map, Function.comp]
    exact ⟨d, hd, rfl⟩
  have hfsome : (marshalFields fs).isSome = true := by
    rcases hm : marshalFields fs with _ | ms
    · simp [marshal, hm] at hj
    · rfl
  obtain ⟨ms, hms⟩ := Option.isSome_iff_exists.mp
    (marshalFields_assignField_isSome d.name x hx fs hfsome)
  have hj2 : marshal (.struct n (assignField d.name x fs)) = some (.obj ms) := by
    simp [marshal, hms]
  refine ⟨.obj ms, by simpa [GoVal.setField] using hj2, ?_⟩
  have := get_marshal_struct n (assignField d.name x fs) _
    ((tagsOf_assignField d.name x fs).trans ht) hw.1 hw.2 d hd (.obj ms) hj2
  rwa [lookupField_assignField d.name x fs hmem] at this

theorem isEmptyValue_str (s : String) : isEmptyValue (.str s) = decide (s = "") := by
  have : s.length = 0 ↔ s = "" := by
    constructor
    · intro h
      have : s.data = [] := List.length_eq_zero.mp h
      exact String.ext this
    · intro h; rw [h]; rfl
  by_cases h : s = ""
  · simp [isEmptyValue, h]
  · have h2 : ¬ s.length = 0 := fun e => h (this.mp e)
    simp [isEmptyValue, h, h2]

/-- C3 (as stated) fails: SSL of DatabaseMigrationStartReq is a pointer-typed field
without omitempty; left nil in a well-typed request, it is still written, as the
member ssl with the value null. -/
theorem C3_nil_pointer_without_omitempty_is_encoded :
    DatabaseMigrationStartReq ∈ requestBodyTypes ∧
    (∃ d ∈ DatabaseMigrationStartReq.fieldDecls,
        d.name = "SSL" ∧ d.key = "ssl" ∧ d.optional = true) ∧
    hasType migrationReqWithoutSSL DatabaseMigrationStartReq = true ∧
    migrationReqWithoutSSL.field "SSL" = GoVal.nil ∧
    ∃ j, marshal migrationReqWithoutSSL = some j ∧ "ssl" ∈ j.keys ∧
      j.get "ssl" = some JSON.null := by
  refine ⟨by simp [requestBodyTypes], ⟨⟨"SSL", .ptr .bool, "ssl", false⟩, ?_, rfl, rfl, rfl⟩,
    rfl, rfl, _, rfl, ?_, rfl⟩
  · simp [DatabaseMigrationStartReq, GoType.fieldDecls]
  · decide

/-- C3 (amended): in every request body type of the database handler, a field tagged
omitempty that is left unset (it holds the zero value of its type) has no member in
the JSON encoding of a well-typed body: its key does not occur among the keys. -/
theorem C3_omitempty_field_left_unset_is_omitted :
    ∀ T ∈ requestBodyTypes, ∀ d ∈ T.fieldDecls, d.omitempty = true →
      ∀ v : GoVal, hasType v T = true → v.field d.name = zeroValue d.type →
        ∀ j, marshal v = some j → d.key ∉ j.keys := by
  intro T hT d hd ho v hv hz j hj
  obtain ⟨hs, hw, he⟩ := requestBodyTypes_wellFormed T hT
  have h := get_marshal_of_hasType T hs hw v hv d hd j hj
  rw [hz, ho, he d hd ho] at h
  simp only [Bool.and_self, if_true] at h
  exact (lookupKey_eq_none_iff _ _).mp h

theorem C3_omitempty_field_left_unset_is_omitted_witness :
    marshal tagOnlyUpdateReq = some (.obj [("tag", .str "prod")]) ∧
    "label" ∉ (JSON.obj [("tag", .str "prod")]).keys :=
  ⟨rfl, C3_omitempty_field_left_unset_is_omitted DatabaseUpdateReq
    (by simp [requestBodyTypes])
    ⟨"Label", .string, "label", true⟩ (by simp [DatabaseUpdateReq, GoType.fieldDecls]) rfl
    tagOnlyUpdateReq rfl rfl _ rfl⟩

/-- C4 (as stated) fails: in an update request the label explicitly set to the empty
string, and in an advanced-options body max_wal_senders explicitly set to 0, are not
written at all, and the encoding is the one of the request that does not provide the
field. -/
theorem C4_explicit_empty_scalar_is_not_distinguished :
    DatabaseUpdateReq ∈ partialUpdateTypes ∧ DatabaseAdvancedOptions ∈ partialUpdateTypes ∧
    hasType (tagOnlyUpdateReq.setField "Label" (.str "")) DatabaseUpdateReq = true ∧
    (∃ j, marshal (tagOnlyUpdateReq.setField "Label" (.str "")) = some j ∧
      marshal tagOnlyUpdateReq = some j ∧ j.get "label" = none) ∧
    hasType (workersOnlyAdvancedOptions.setField "MaxWalSenders" (.int 0))
      DatabaseAdvancedOptions = true ∧
    (∃ j, marshal (workersOnlyAdvancedOptions.setField "MaxWalSenders" (.int 0)) = some j ∧
      marshal workersOnlyAdvancedOptions = some j ∧ j.get "max_wal_senders" = none) := by
  refine ⟨by simp [partialUpdateTypes], by simp [partialUpdateTypes], rfl,
    ⟨_, rfl, rfl, rfl⟩, rfl, ⟨_, rfl, rfl, rfl⟩⟩

theorem partialUpdateTypes_wellFormed :
    ∀ T ∈ partialUpdateTypes, T.structName.isSome = true ∧ T.wellFormed ∧
      ∀ d ∈ T.fieldDecls, d.omitempty = true := by
  decide

/-- C4 (amended): in DatabaseUpdateReq and DatabaseAdvancedOptions every string or
integer field keeps a two-way distinction on the wire. In a well-typed body that has
an encoding, the field set to a non-empty string or a non-zero integer is written
under its key with that value; set to the empty string or to 0, which is also what a
field that is not provided holds, it has no member under its key. -/
theorem C4_scalar_field_two_way :
    ∀ T ∈ partialUpdateTypes, ∀ d ∈ T.fieldDecls, ∀ v : GoVal, hasType v T = true →
      (marshal v).isSome = true →
      (d.type = .string → ∀ s : String,
        ∃ j, marshal (v.setField d.name (.str s)) = some j ∧
          j.get d.key = if s = "" then none else some (.str s)) ∧
      (d.type = .int → ∀ n : Int,
        ∃ j, marshal (v.setField d.name (.int n)) = some j ∧
          j.get d.key = if n = 0 then none else some (.num n)) := by
  intro T hT d hd v hv hj
  obtain ⟨hs, hw, ho⟩ := partialUpdateTypes_wellFormed T hT
  constructor
  · intro _ s
    obtain ⟨j, h1, h2⟩ := get_marshal_setField T hs hw v hv hj d hd (.str s) rfl
    refine ⟨j, h1, ?_⟩
    rw [h2, ho d hd, isEmptyValue_str]
    by_cases h : s = "" <;> simp [h, marshal]
  · intro _ n
    obtain ⟨j, h1, h2⟩ := get_marshal_setField T hs hw v hv hj d hd (.int n) rfl
    refine ⟨j, h1, ?_⟩
    rw [h2, ho d hd]
    by_cases h : n = 0 <;> simp [h, marshal, isEmptyValue]

theorem C4_scalar_field_two_way_witness :
    hasType tagOnlyUpdateReq DatabaseUpdateReq = true ∧
    (marshal tagOnlyUpdateReq).isSome = true ∧
    (∃ j, marshal (tagOnlyUpdateReq.setField "Label" (.str "blue")) = some j ∧
      j.get "label" = some (.str "blue")) ∧
    (∃ j, marshal (tagOnlyUpdateReq.setField "Label" (.str "")) = some j ∧
      j.get "label" = none) := by
  have h := (C4_scalar_field_two_way DatabaseUpdateReq (by simp [partialUpdateTypes])
    ⟨"Label", .string, "label", true⟩ (by simp [DatabaseUpdateReq, GoType.fieldDecls])
    tagOnlyUpdateReq rfl rfl).1 rfl
  exact ⟨rfl, rfl, by simpa using h "blue", by simpa using h ""⟩

/-- The pointer-to-bool fields tagged omitempty of the request bodies are the five
fields MySQLRequirePrimaryKey and MySQLSlowQueryLog of DatabaseCreateReq and
DatabaseUpdateReq and Jit of DatabaseAdvancedOptions. -/
theorem optionalBoolFields_eq :
    optionalBoolFields =
      [("DatabaseCreateReq", "MySQLRequirePrimaryKey"),
       ("DatabaseCreateReq", "MySQLSlowQueryLog"),
       ("DatabaseUpdateReq", "MySQLRequirePrimaryKey"),
       ("DatabaseUpdateReq", "MySQLSlowQueryLog"),
       ("DatabaseAdvancedOptions", "Jit")] := by
  decide

/-- C5: for every boolean field of a request body that is a pointer tagged omitempty
(MySQLRequirePrimaryKey and MySQLSlowQueryLog of DatabaseCreateReq and
DatabaseUpdateReq, Jit of DatabaseAdvancedOptions), with the other fields of a
well-typed body that has an encoding unchanged, the three encodings exist: the nil
pointer leaves the key out, a pointer to false writes the key with false, a pointer to
true writes the key with true, and the three encodings are pairwise distinct. -/
theorem C5_optional_bool_three_way :
    ∀ T ∈ requestBodyTypes, ∀ d ∈ T.fieldDecls, d.omitempty = true → d.type = .ptr .bool →
      ∀ v : GoVal, hasType v T = true → (marshal v).isSome = true →
        ∃ absent disabled enabled,
          marshal (v.setField d.name .nil) = some absent ∧
          marshal (v.setField d.name (.ptr (.bool false))) = some disabled ∧
          marshal (v.setField d.name (.ptr (.bool true))) = some enabled ∧
          d.key ∉ absent.keys ∧
          disabled.get d.key = some (.bool false) ∧
          enabled.get d.key = some (.bool true) ∧
          absent ≠ disabled ∧ absent ≠ enabled ∧ disabled ≠ enabled := by
  intro T hT d hd ho _ v hv hj
  obtain ⟨hs, hw, _⟩ := requestBodyTypes_wellFormed T hT
  obtain ⟨j0, e0, h0⟩ := get_marshal_setField T hs hw v hv hj d hd .nil rfl
  obtain ⟨j1, e1, h1⟩ := get_marshal_setField T hs hw v hv hj d hd (.ptr (.bool false)) rfl
  obtain ⟨j2, e2, h2⟩ := get_marshal_setField T hs hw v hv hj d hd (.ptr (.bool true)) rfl
  simp only [ho, isEmptyValue, Bool.and_self, Bool.and_false, if_true, marshal] at h0 h1 h2
  simp only [Bool.false_eq_true, if_false] at h1 h2
  refine ⟨j0, j1, j2, e0, e1, e2, (lookupKey_eq_none_iff _ _).mp h0, h1, h2, ?_, ?_, ?_⟩
  · intro e; rw [e, h1] at h0; cases h0
  · intro e; rw [e, h2] at h0; cases h0
  · intro e; rw [e, h2] at h1; cases h1

theorem C5_optional_bool_three_way_witness :
    hasType tagOnlyUpdateReq DatabaseUpdateReq = true ∧
    (marshal tagOnlyUpdateReq).isSome = true ∧
    ∃ absent disabled enabled,
      marshal (tagOnlyUpdateReq.setField "MySQLSlowQueryLog" .nil) = some absent ∧
      marshal (tagOnlyUpdateReq.setField "MySQLSlowQueryLog" (.ptr (.bool false))) = some disabled ∧
      marshal (tagOnlyUpdateReq.setField "MySQLSlowQueryLog" (.ptr (.bool true))) = some enabled ∧
      "mysql_slow_query_log" ∉ absent.keys ∧
      disabled.get "mysql_slow_query_log" = some (.bool false) ∧
      enabled.get "mysql_slow_query_log" = some (.bool true) ∧
      absent ≠ disabled ∧ absent ≠ enabled ∧ disabled ≠ enabled :=
  ⟨rfl, rfl, C5_optional_bool_three_way DatabaseUpdateReq (by simp [requestBodyTypes])
    ⟨"MySQLSlowQueryLog", .ptr .bool, "mysql_slow_query_log", true⟩
    (by simp [DatabaseUpdateReq, GoType.fieldDecls]) rfl rfl tagOnlyUpdateReq rfl rfl⟩

/-! ## The handlers: results and errors -/

/-- Every handler of database.go is the instance of the common schema at its plan. -/
theorem exec_eq_run {ω : Type} (i : DatabaseServiceHandler ω) (op : Operation) :
    i.exec op = i.run (plan op) := by
  cases op <;> rfl

theorem zeros_eq_zeroValues (op : Operation) :
    (plan op).zeros = (resultTypes op).map zeroValue := by
  cases op <;> rfl

theorem run_error_zeros {ω : Type} (i : DatabaseServiceHandler ω) (p : Plan) (s : St ω)
    (h : (i.run p s).1.err ≠ none) : (i.run p s).1.vals = p.zeros := by
  revert h
  simp only [DatabaseServiceHandler.run]
  repeat' split
  all_goals simp

/-- C1: for every operation of DatabaseService, every client and every input, when the
operation returns an error then each other result is the zero value of its declared
type (a nil slice, a nil pointer or the empty string). -/
theorem C1_error_excludes_result {ω : Type} (i : DatabaseServiceHandler ω) (op : Operation)
    (w : ω) (h : (i.exec op (w, [])).1.err ≠ none) :
    (i.exec op (w, [])).1.vals = (resultTypes op).map zeroValue := by
  rw [exec_eq_run] at h ⊢
  rw [run_error_zeros i _ _ h, zeros_eq_zeroValues]

theorem C1_error_excludes_result_witness :
    ((databaseHandler refusingClient).exec (.ListConnectionPools "db-1") ((), [])).1.err ≠ none ∧
    ((databaseHandler refusingClient).exec (.ListConnectionPools "db-1") ((), [])).1.vals =
      [.nil, .nil, .nil] :=
  ⟨by simp [DatabaseServiceHandler.exec, DatabaseServiceHandler.ListConnectionPools,
      databaseHandler, refusingClient, Client.newRequest],
   C1_error_excludes_result (databaseHandler refusingClient) (.ListConnectionPools "db-1") ()
    (by simp [DatabaseServiceHandler.exec, DatabaseServiceHandler.ListConnectionPools,
      databaseHandler, refusingClient, Client.newRequest])⟩

/-- The calls of the schema when none fails. -/
theorem plannedSteps_eq (op : Operation) :
    plannedSteps op =
      match (plan op).options with
      | some _ => [.NewRequest, .Values, .DoWithContext]
      | none => [.NewRequest, .DoWithContext] := by
  cases op <;> rfl

theorem run_trace {ω : Type} (i : DatabaseServiceHandler ω) (p : Plan) (w : ω) :
    (∃ rest, (i.run p (w, [])).2.2.map (fun e => e.step.kind) ++ rest =
      match p.options with
      | some _ => [.NewRequest, .Values, .DoWithContext]
      | none => [.NewRequest, .DoWithContext]) ∧
    (i.run p (w, [])).2.2 ≠ [] ∧
    (∀ e ∈ (i.run p (w, [])).2.2.dropLast, e.err = none) ∧
    (i.run p (w, [])).1.err = (i.run p (w, [])).2.2.getLast?.bind (fun e => e.err) ∧
    ((i.run p (w, [])).1.err = none →
      (i.run p (w, [])).2.2.map (fun e => e.step.kind) =
        match p.options with
        | some _ => [.NewRequest, .Values, .DoWithContext]
        | none => [.NewRequest, .DoWithContext]) := by
  simp only [DatabaseServiceHandler.run, Client.newRequest, Client.doWithContext,
    DatabaseServiceHandler.values]
  rcases h1 : i.client.NewRequest p.method p.uri p.body w with ⟨_ | req, w1⟩
  · rcases p.options with _ | o <;> simp [h1, errOf, Step.kind]
  · rcases p.options with _ | o
    · rcases p.shape with _ | T
      · rcases h2 : i.client.DoWithContext req none w1 with ⟨⟨x, _ | e⟩, w2⟩ <;>
          simp [h1, h2, errOf, Step.kind]
      · rcases h2 : i.client.DoWithContext req (some ⟨.ptr T, new T⟩) w1 with
          ⟨⟨x, _ | e⟩, w2⟩ <;> simp [h1, h2, errOf, Step.kind]
    · rcases h3 : i.queryValues o with e | nv
      · simp [h1, h3, errOf, Step.kind]
      · rcases p.shape with _ | T
        · rcases h2 : i.client.DoWithContext
            { req with URL := { req.URL with RawQuery := Values.Encode nv } } none w1 with
            ⟨⟨x, _ | e⟩, w2⟩ <;> simp [h1, h3, h2, errOf, Step.kind]
        · rcases h2 : i.client.DoWithContext
            { req with URL := { req.URL with RawQuery := Values.Encode nv } }
            (some ⟨.ptr T, new T⟩) w1 with
            ⟨⟨x, _ | e⟩, w2⟩ <;> simp [h1, h3, h2, errOf, Step.kind]

/-- C2: for every operation of DatabaseService, every client and every input, the calls
made are an initial part of NewRequest, query.Values (only in List and ListPlans),
DoWithContext, in that order, and at least one call is made; every call but the last
returned no error, so that the calls stop at the first failing one; the error returned
is the error of the last call, as that call returned it; and when no error is returned
all the calls were made. -/
theorem C2_error_of_first_failing_step {ω : Type} (i : DatabaseServiceHandler ω)
    (op : Operation) (w : ω) :
    (∃ rest, (i.exec op (w, [])).2.2.map (fun e => e.step.kind) ++ rest = plannedSteps op) ∧
    (i.exec op (w, [])).2.2 ≠ [] ∧
    (∀ e ∈ (i.exec op (w, [])).2.2.dropLast, e.err = none) ∧
    (i.exec op (w, [])).1.err = (i.exec op (w, [])).2.2.getLast?.bind (fun e => e.err) ∧
    ((i.exec op (w, [])).1.err = none →
      (i.exec op (w, [])).2.2.map (fun e => e.step.kind) = plannedSteps op) := by
  rw [exec_eq_run, plannedSteps_eq]
  exact run_trace i (plan op) w

/-! ## The query of List -/

theorem hasType_string (v : GoVal) (h : hasType v .string = true) : ∃ s, v = .str s := by
  cases v <;> simp [hasType, resolve] at h
  exact ⟨_, rfl⟩

/-- A well-typed options argument of List is nil or points to a struct of three
strings. -/
theorem hasType_ptr_DBListOptions (o : GoVal) (h : hasType o (.ptr DBListOptions) = true) :
    o = .nil ∨ ∃ l t r : String, o = .ptr (.struct "DBListOptions"
      [⟨"Label", "label", true, .str l⟩, ⟨"Tag", "tag", true, .str t⟩,
       ⟨"Region", "region", true, .str r⟩]) := by
  cases o with
  | nil => exact Or.inl rfl
  | ptr v =>
    right
    cases v with
    | struct n fs =>
      simp only [hasType, DBListOptions, resolve, Bool.and_eq_true, beq_iff_eq] at h
      obtain ⟨hn, hfs⟩ := h
      subst hn
      match fs, hfs with
      | [⟨n1, k1, o1, v1⟩, ⟨n2, k2, o2, v2⟩, ⟨n3, k3, o3, v3⟩], hfs =>
        simp only [fieldsHaveType, Bool.and_eq_true, beq_iff_eq, List.isEmpty_nil] at hfs
        obtain ⟨⟨⟨⟨h1, h2⟩, h3⟩, h4⟩, ⟨⟨⟨⟨h5, h6⟩, h7⟩, h8⟩, ⟨⟨⟨⟨h9, h10⟩, h11⟩, h12⟩, _⟩⟩⟩ := hfs
        subst h1 h2 h3 h5 h6 h7 h9 h10 h11
        obtain ⟨l, rfl⟩ := hasType_string v1 h4
        obtain ⟨t, rfl⟩ := hasType_string v2 h8
        obtain ⟨r, rfl⟩ := hasType_string v3 h12
        exact ⟨l, t, r, rfl⟩
      | [], hfs => simp [fieldsHaveType] at hfs
      | [_], hfs => simp [fieldsHaveType] at hfs
      | [_, _], hfs => simp [fieldsHaveType] at hfs
      | _ :: _ :: _ :: _ :: _, hfs => simp [fieldsHaveType] at hfs
    | _ => simp [hasType, DBListOptions] at h
  | _ => simp [hasType, resolve] at h

/-- The query values of a well-typed options argument of List exist, and every key of
them is one of the filter keys. -/
theorem listQuery_keys (o : GoVal) (h : hasType o (.ptr DBListOptions) = true) :
    ∃ vs, query.Values ⟨.ptr DBListOptions, o⟩ = .ok vs ∧ ∀ p ∈ vs, p.1 ∈ filterKeys := by
  rcases hasType_ptr_DBListOptions o h with rfl | ⟨l, t, r, rfl⟩
  · exact ⟨[], rfl, by simp⟩
  · by_cases hl : l = "" <;> by_cases ht : t = "" <;> by_cases hr : r = "" <;>
      simp [query.Values, reflectValue, isEmptyValue_str, valueString, Values.Add, filterKeys,
        hl, ht, hr] <;> aesop

theorem mem_keys_of_mem_index (vs : Values) (key x : String) (h : x ∈ Values.index vs key) :
    ∃ p ∈ vs, p.1 = key := by
  unfold Values.index at h
  split at h
  · rename_i p hp
    have := List.find?_some hp
    exact ⟨p, List.mem_of_find?_eq_some hp, by simpa using this⟩
  · simp at h

/-- C6 (as stated) fails: no well-typed options value makes List put the cursor
cursor-A into the query under a key other than the filter keys label, tag and region,
so no List call carries it as the value of a pagination parameter. -/
theorem C6_list_cannot_carry_cursor :
    ¬ ∃ (options : GoVal) (vs : Values) (key : String),
      hasType options (.ptr DBListOptions) = true ∧
      query.Values ⟨.ptr DBListOptions, options⟩ = .ok vs ∧
      key ∉ filterKeys ∧ "cursor-A" ∈ Values.index vs key := by
  rintro ⟨options, vs, key, h, hq, hk, hc⟩
  obtain ⟨vs2, hq2, hkeys⟩ := listQuery_keys options h
  rw [hq] at hq2
  cases hq2
  obtain ⟨p, hp, rfl⟩ := mem_keys_of_mem_index vs key _ hc
  exact hk (hkeys p hp)

/-- C6 (amended): the database List operation has no pagination parameter. For every
well-typed options value and every client, query encoding succeeds, every key of the
encoded values is one of label, tag and region, and the raw query of the request that
List dispatches is the encoding of exactly these values. -/
theorem C6_list_query_holds_only_filters {ω : Type} (c : Client ω) (options : GoVal)
    (h : hasType options (.ptr DBListOptions) = true) (w : ω) :
    ∃ vs, query.Values ⟨.ptr DBListOptions, options⟩ = .ok vs ∧
      (∀ p ∈ vs, p.1 ∈ filterKeys) ∧
      ∀ e ∈ ((databaseHandler c).exec (.List options) (w, [])).2.2, ∀ req v,
        e.step = .DoWithContext req v → req.URL.RawQuery = Values.Encode vs := by
  obtain ⟨vs, hq, hkeys⟩ := listQuery_keys options h
  refine ⟨vs, hq, hkeys, ?_⟩
  simp only [DatabaseServiceHandler.exec, DatabaseServiceHandler.List, databaseHandler,
    Client.newRequest, Client.doWithContext, DatabaseServiceHandler.values, hq]
  rcases h1 : c.NewRequest http.MethodGet databasePath none w with ⟨_ | req, w1⟩
  · simp [h1]
  · rcases h2 : c.DoWithContext
      { req with URL := { req.URL with RawQuery := Values.Encode vs } }
      (some ⟨.ptr databasesBase, new databasesBase⟩) w1 with ⟨⟨x, _ | e⟩, w2⟩ <;>
    · simp only [h1, h2]
      intro e he req2 v hstep
      simp only [List.nil_append, List.cons_append, List.mem_cons, List.mem_singleton,
        List.not_mem_nil, or_false] at he
      rcases he with rfl | rfl | rfl <;> simp at hstep
      rw [← hstep.1]

theorem C6_list_query_holds_only_filters_witness :
    hasType (.ptr ((zeroValue DBListOptions).setField "Label" (.str "cursor-A")))
      (.ptr DBListOptions) = true ∧
    ∃ vs, query.Values ⟨.ptr DBListOptions,
        .ptr ((zeroValue DBListOptions).setField "Label" (.str "cursor-A"))⟩ = .ok vs ∧
      (∀ p ∈ vs, p.1 ∈ filterKeys) ∧
      ∀ e ∈ ((databaseHandler (cannedClient databasesEnvelope)).exec
          (.List (.ptr ((zeroValue DBListOptions).setField "Label" (.str "cursor-A"))))
          ((), [])).2.2, ∀ req v,
        e.step = .DoWithContext req v → req.URL.RawQuery = Values.Encode vs :=
  ⟨rfl, C6_list_query_holds_only_filters (cannedClient databasesEnvelope)
    (.ptr ((zeroValue DBListOptions).setField "Label" (.str "cursor-A"))) rfl ()⟩

/-! ## Results after a successful dispatch -/

/-- When the schema has an envelope and the handler returns no error, dispatch stored a
value in a new envelope and returned no error, and the results are read off it. -/
theorem run_success {ω : Type} (i : DatabaseServiceHandler ω) (p : Plan) (w : ω) (T : GoType)
    (hT : p.shape = some T) (h : (i.run p (w, [])).1.err = none) :
    ∃ req w1 x w2, i.client.DoWithContext req (some ⟨.ptr T, new T⟩) w1 = ((x, none), w2) ∧
      (i.run p (w, [])).1.vals = p.results x := by
  revert h
  simp only [DatabaseServiceHandler.run, Client.newRequest, Client.doWithContext,
    DatabaseServiceHandler.values, hT]
  rcases h1 : i.client.NewRequest p.method p.uri p.body w with ⟨_ | req, w1⟩
  · rcases p.options with _ | o <;> simp [h1]
  · rcases p.options with _ | o
    · rcases h2 : i.client.DoWithContext req (some ⟨.ptr T, new T⟩) w1 with
        ⟨⟨x, _ | e⟩, w2⟩
      · simp only [h1, h2]
        intro _
        exact ⟨req, w1, x, w2, h2, rfl⟩
      · simp [h1, h2]
    · rcases h3 : i.queryValues o with e | nv
      · simp [h1, h3]
      · rcases h2 : i.client.DoWithContext
          { req with URL := { req.URL with RawQuery := Values.Encode nv } }
          (some ⟨.ptr T, new T⟩) w1 with ⟨⟨x, _ | e⟩, w2⟩
        · simp only [h1, h3, h2]
          intro _
          exact ⟨_, w1, x, w2, h2, rfl⟩
        · simp [h1, h3, h2]

/-- C7 (as stated) fails: ListMaintenanceUpdates is a list-style operation whose
signature has no Meta result and whose envelope has no meta field; after a successful
dispatch it returns the updates of the envelope and nothing else. -/
theorem C7_list_maintenance_updates_returns_no_meta :
    listStyle (.ListMaintenanceUpdates "db-1") = true ∧
    returnsMeta (.ListMaintenanceUpdates "db-1") = false ∧
    "meta" ∉ databaseUpdatesBase.fieldDecls.map (fun d => d.key) ∧
    ((databaseHandler (cannedClient updatesEnvelope)).exec (.ListMaintenanceUpdates "db-1")
      ((), [])).1.err = none ∧
    ((databaseHandler (cannedClient updatesEnvelope)).exec (.ListMaintenanceUpdates "db-1")
      ((), [])).1.vals = [.slice [.str "mysql-8.0.36", .str "kernel-6.1"]] := by
  refine ⟨rfl, rfl, by decide, rfl, rfl⟩

/-- C7 (amended): among the list-style operations, exactly ListPlans, List, ListUsers,
ListDBs and ListConnectionPools have a Meta result; when one of them returns no error,
its last result is the field Meta (key meta) of the envelope that dispatch populated.
ListMaintenanceUpdates, ListServiceAlerts, ListAdvancedOptions and
ListAvailableVersions have no Meta result, and their envelopes have no meta field. -/
theorem C7_meta_of_the_envelope {ω : Type} (i : DatabaseServiceHandler ω) (op : Operation)
    (w : ω) (hl : listStyle op = true) :
    returnsMeta op = pagedList op ∧
    (pagedList op = true → (i.exec op (w, [])).1.err = none →
      ∃ T req w1 x w2, (plan op).shape = some T ∧
        (∃ d ∈ T.fieldDecls, d.name = "Meta" ∧ d.key = "meta") ∧
        i.client.DoWithContext req (some ⟨.ptr T, new T⟩) w1 = ((x, none), w2) ∧
        (i.exec op (w, [])).1.vals.getLast? = some (x.field "Meta")) ∧
    (pagedList op = false →
      ∀ T, (plan op).shape = some T → "meta" ∉ T.fieldDecls.map (fun d => d.key)) := by
  refine ⟨by cases op <;> rfl, ?_, ?_⟩
  · intro hp herr
    rw [exec_eq_run] at herr ⊢
    have key : ∃ T, (plan op).shape = some T ∧
        (∃ d ∈ T.fieldDecls, d.name = "Meta" ∧ d.key = "meta") ∧
        ∀ x, ((plan op).results x).getLast? = some (x.field "Meta") := by
      cases op <;> simp [pagedList] at hp <;>
        exact ⟨_, rfl, ⟨⟨"Meta", .ptr Meta, "meta", false⟩, by simp [GoType.fieldDecls,
          databasePlansBase, databasesBase, databaseUsersBase, databaseDBsBase,
          databaseConnectionPoolsBase], rfl, rfl⟩, fun _ => rfl⟩
    obtain ⟨T, hT, hd, hres⟩ := key
    obtain ⟨req, w1, x, w2, hdo, hvals⟩ := run_success i (plan op) w T hT herr
    exact ⟨T, req, w1, x, w2, hT, hd, hdo, by rw [hvals, hres]⟩
  · intro hp T hT
    cases op <;> simp [listStyle] at hl <;> simp [pagedList] at hp <;>
      (simp only [plan, Option.some.injEq] at hT; subst hT; decide)

theorem C7_meta_of_the_envelope_witness :
    listStyle (.List .nil) = true ∧ pagedList (.List .nil) = true ∧
    ((databaseHandler (cannedClient databasesEnvelope)).exec (.List .nil) ((), [])).1.err
      = none ∧
    ∃ T req w1 x w2, (plan (.List .nil)).shape = some T ∧
      (∃ d ∈ T.fieldDecls, d.name = "Meta" ∧ d.key = "meta") ∧
      (databaseHandler (cannedClient databasesEnvelope)).client.DoWithContext req
        (some ⟨.ptr T, new T⟩) w1 = ((x, none), w2) ∧
      ((databaseHandler (cannedClient databasesEnvelope)).exec (.List .nil)
        ((), [])).1.vals.getLast? = some (x.field "Meta") :=
  ⟨rfl, rfl, rfl, (C7_meta_of_the_envelope (databaseHandler (cannedClient databasesEnvelope))
    (.List .nil) () rfl).2.1 rfl rfl⟩

/-! ## The dispatch layer -/

/-- A response with a status from 200 to 299 ends the dispatch at the first round
trip: the body goes to the codec. -/
theorem DoWithContext_success (cfg : Config) (req : Request) (v : Option Iface) (net : Net)
    (r : Response) (hs : 200 ≤ r.status ∧ r.status ≤ 299)
    (hsrv : net.server req net.roundTrips = .response r) :
    DoWithContext cfg req v net =
      (decode r.body v, { net with roundTrips := net.roundTrips + 1 }) := by
  unfold DoWithContext
  cases cfg.retryBudget <;> (unfold attempts; simp [roundTrip, hsrv, hs])

/-- The handler over the dispatch layer, for a schema without query options, when the
server answers the request with a status from 200 to 299. -/
theorem run_specClient_success (cfg : Config) (p : Plan) (net : Net) (r : Response)
    (encoded : Option JSON) (hopt : p.options = none) (henc : encodeBody p.body = some encoded)
    (hs : 200 ≤ r.status ∧ r.status ≤ 299)
    (hsrv : net.server (buildRequest cfg p.method p.uri encoded) net.roundTrips = .response r) :
    ((databaseHandler (specClient cfg)).run p (net, [])).1 =
      match p.shape with
      | none => ⟨p.zeros, (decode r.body none).2⟩
      | some T =>
        match decode r.body (some ⟨.ptr T, new T⟩) with
        | (_, some err) => ⟨p.zeros, some err⟩
        | (x, none) => ⟨p.results x, none⟩ := by
  simp only [DatabaseServiceHandler.run, Client.newRequest, Client.doWithContext, hopt,
    databaseHandler, specClient, NewRequest, henc]
  rcases p.shape with _ | T
  · simp only [DoWithContext_success cfg _ none net r hs hsrv]
  · simp only [DoWithContext_success cfg _ _ net r hs hsrv]
    rcases decode r.body (some ⟨.ptr T, new T⟩) with ⟨x, _ | e⟩ <;> rfl

/-- A schema with a nil shape dispatches with a nil shape. -/
theorem run_shape_none {ω : Type} (i : DatabaseServiceHandler ω) (p : Plan) (w : ω)
    (hopt : p.options = none) (hT : p.shape = none) :
    ∀ e ∈ (i.run p (w, [])).2.2, ∀ req v, e.step = .DoWithContext req v → v = none := by
  simp only [DatabaseServiceHandler.run, Client.newRequest, Client.doWithContext, hopt, hT]
  rcases h1 : i.client.NewRequest p.method p.uri p.body w with ⟨_ | req, w1⟩
  · simp [h1]
  · simp only [h1, List.nil_append, List.cons_append, List.mem_cons, List.not_mem_nil,
      or_false]
    intro e he req2 v hstep
    rcases he with rfl | rfl <;> simp at hstep
    exact hstep.2.symm

theorem payloadless_plan (op : Operation) (h : payloadless op = true) :
    (plan op).options = none ∧ (plan op).shape = none ∧ (plan op).body = none ∧
      (plan op).zeros = [] := by
  cases op <;> simp [payloadless] at h <;> exact ⟨rfl, rfl, rfl, rfl⟩

/-- A handler whose schema has neither options nor a shape: once NewRequest has built
the request, the request is dispatched with a nil shape, and the handler returns the
error of the dispatch with the results of its error path. -/
theorem run_payloadless {ω : Type} (i : DatabaseServiceHandler ω) (p : Plan) (w w1 w2 : ω)
    (req : Request) (x : GoVal) (e : Option Error)
    (hopt : p.options = none) (hT : p.shape = none)
    (h1 : i.client.NewRequest p.method p.uri p.body w = (.ok req, w1))
    (h2 : i.client.DoWithContext req none w1 = ((x, e), w2)) :
    i.run p (w, []) =
      (⟨p.zeros, e⟩, (w2, [⟨.NewRequest p.method p.uri p.body, none⟩,
        ⟨.DoWithContext req none, e⟩])) := by
  simp [DatabaseServiceHandler.run, Client.newRequest, Client.doWithContext, hopt, hT, h1, h2,
    errOf]

/-- C8: for every payload-less operation (Delete, DeleteUser, DeleteDB, DetachMigration
and DeleteConnectionPool of the database handler; Delete, SetLabel, AttachInstance,
DetachInstance and SetHealthCheck of the load balancer handler). With any client: once
NewRequest has built the request, the operation dispatches that request, once, with a
nil expected shape, and returns the error of the dispatch, whatever it is; no dispatch
of the operation has another shape. Over the dispatch layer, when the server answers
the request with a status from 200 to 299 and an empty body: the operation makes the
two calls NewRequest and DoWithContext, the latter with the request built and a nil
shape, the server is reached by exactly one round trip, and the operation returns a nil
error and no result. -/
theorem C8_payloadless_success (cfg : Config) (net : Net) (r : Response)
    (hs : 200 ≤ r.status ∧ r.status ≤ 299) (hb : r.body = .empty) :
    (∀ op : Operation, payloadless op = true →
      (∀ (ω : Type) (i : DatabaseServiceHandler ω) (w w1 w2 : ω) (req : Request) (x : GoVal)
          (e : Option Error),
        i.client.NewRequest (plan op).method (plan op).uri none w = (.ok req, w1) →
        i.client.DoWithContext req none w1 = ((x, e), w2) →
        i.exec op (w, []) =
          (⟨[], e⟩, (w2, [⟨.NewRequest (plan op).method (plan op).uri none, none⟩,
            ⟨.DoWithContext req none, e⟩]))) ∧
      (∀ (ω : Type) (i : DatabaseServiceHandler ω) (w : ω),
        ∀ e ∈ (i.exec op (w, [])).2.2, ∀ req v, e.step = .DoWithContext req v → v = none) ∧
      (net.server (buildRequest cfg (plan op).method (plan op).uri none) net.roundTrips
          = .response r →
        (databaseHandler (specClient cfg)).exec op (net, []) =
          (⟨[], none⟩, ({ net with roundTrips := net.roundTrips + 1 },
            [⟨.NewRequest (plan op).method (plan op).uri none, none⟩,
              ⟨.DoWithContext (buildRequest cfg (plan op).method (plan op).uri none) none,
                none⟩])))) ∧
    (∀ op : LoadBalancerOperation,
      (∀ (ω : Type) (c : Client ω) (w w1 w2 : ω) (req : Request) (x : GoVal)
          (e : Option Error),
        c.NewRequest http.MethodPost op.path none w = (.ok req, w1) →
        c.DoWithContext req none w1 = ((x, e), w2) →
        LoadBalancerHandler.exec c op (w, []) =
          (⟨[], e⟩, (w2, [⟨.NewRequest http.MethodPost op.path none, none⟩,
            ⟨.DoWithContext req none, e⟩]))) ∧
      (∀ (ω : Type) (c : Client ω) (w : ω),
        ∀ e ∈ (LoadBalancerHandler.exec c op (w, [])).2.2, ∀ req v,
          e.step = .DoWithContext req v → v = none) ∧
      (net.server (buildRequest cfg http.MethodPost op.path none) net.roundTrips
          = .response r →
        LoadBalancerHandler.exec (specClient cfg) op (net, []) =
          (⟨[], none⟩, ({ net with roundTrips := net.roundTrips + 1 },
            [⟨.NewRequest http.MethodPost op.path none, none⟩,
              ⟨.DoWithContext (buildRequest cfg http.MethodPost op.path none) none,
                none⟩])))) := by
  constructor
  · intro op hop
    obtain ⟨hopt, hT, hbody, hz⟩ := payloadless_plan op hop
    refine ⟨?_, ?_, ?_⟩
    · intro ω i w w1 w2 req x e h1 h2
      rw [← hbody] at h1
      rw [exec_eq_run, run_payloadless i (plan op) w w1 w2 req x e hopt hT h1 h2, hz, hbody]
    · intro ω i w
      rw [exec_eq_run]
      exact run_shape_none i (plan op) w hopt hT
    · intro hsrv
      have h1 : (databaseHandler (specClient cfg)).client.NewRequest (plan op).method
          (plan op).uri (plan op).body net
          = (.ok (buildRequest cfg (plan op).method (plan op).uri none), net) := by
        rw [hbody]; rfl
      have h2 : (databaseHandler (specClient cfg)).client.DoWithContext
          (buildRequest cfg (plan op).method (plan op).uri none) none net
          = ((.nil, none), { net with roundTrips := net.roundTrips + 1 }) := by
        show DoWithContext cfg _ none net = _
        rw [DoWithContext_success cfg _ none net r hs hsrv, hb]
        rfl
      rw [exec_eq_run, run_payloadless _ (plan op) net net _ _ _ _ hopt hT h1 h2, hz, hbody]
  · intro op
    refine ⟨?_, ?_, ?_⟩
    · intro ω c w w1 w2 req x e h1 h2
      simp [LoadBalancerHandler.exec, Client.newRequest, Client.doWithContext, h1, h2, errOf]
    · intro ω c w
      simp only [LoadBalancerHandler.exec, Client.newRequest, Client.doWithContext]
      rcases h1 : c.NewRequest http.MethodPost op.path none w with ⟨_ | req, w1⟩
      · simp [h1]
      · simp only [h1, List.nil_append, List.cons_append, List.mem_cons, List.not_mem_nil,
          or_false]
        intro e he req2 v hstep
        rcases he with rfl | rfl <;> simp at hstep
        exact hstep.2.symm
    · intro hsrv
      have h2 : DoWithContext cfg (buildRequest cfg http.MethodPost op.path none) none net
          = ((.nil, none), { net with roundTrips := net.roundTrips + 1 }) := by
        rw [DoWithContext_success cfg _ none net r hs hsrv, hb]
        rfl
      simp [LoadBalancerHandler.exec, Client.newRequest, Client.doWithContext, specClient,
        NewRequest, encodeBody, h2, errOf]

theorem C8_payloadless_success_witness :
    (200 ≤ noContent.status ∧ noContent.status ≤ 299) ∧ noContent.body = .empty ∧
    payloadless (.Delete "db-1") = true ∧
    (databaseHandler (specClient exampleConfig)).exec (.Delete "db-1")
        (constantNet noContent, []) =
      (⟨[], none⟩, ({ constantNet noContent with roundTrips := 1 },
        [⟨.NewRequest "DELETE" "/v2/databases/db-1" none, none⟩,
          ⟨.DoWithContext (buildRequest exampleConfig "DELETE" "/v2/databases/db-1" none)
            none, none⟩])) ∧
    LoadBalancerHandler.exec (specClient exampleConfig) (.Delete 12345)
        (constantNet noContent, []) =
      (⟨[], none⟩, ({ constantNet noContent with roundTrips := 1 },
        [⟨.NewRequest "POST" "/v1/loadbalancer/destroy" none, none⟩,
          ⟨.DoWithContext (buildRequest exampleConfig "POST" "/v1/loadbalancer/destroy" none)
            none, none⟩])) :=
  ⟨by decide, rfl, rfl,
    ((C8_payloadless_success exampleConfig (constantNet noContent) noContent
      (by decide) rfl).1 (.Delete "db-1") rfl).2.2 rfl,
    ((C8_payloadless_success exampleConfig (constantNet noContent) noContent
      (by decide) rfl).2 (.Delete 12345)).2.2 rfl⟩

theorem decodesDatabase_plan (op : Operation) (h : decodesDatabase op = true) :
    (plan op).options = none ∧ (plan op).shape = some databaseBase ∧
      (plan op).zeros = [.nil] ∧ (plan op).results = fun x => [x.field "Database"] := by
  cases op <;> simp [decodesDatabase] at h <;> exact ⟨rfl, rfl, rfl, rfl⟩

/-- A pointer to Database is not the pagination Meta. -/
theorem isMetaPtr_ptr_Database : (GoType.ptr Database).isMetaPtr = false := rfl

/-- The decoding of a JSON object into a new databaseBase envelope. -/
theorem decode_databaseBase (ms : List (String × JSON)) :
    decode (.json (.obj ms)) (some ⟨.ptr databaseBase, new databaseBase⟩) =
      match lookupKey "database" ms with
      | none => (new databaseBase, some (.DecodeError "missing envelope key database"))
      | some _ =>
        match decodeMembers databaseBase.fieldDecls ms (zeroFields databaseBase.fieldDecls) with
        | .error msg => (new databaseBase, some (.DecodeError msg))
        | .ok fs => (.ptr (.struct "databaseBase" fs), none) := by
  rcases h : lookupKey "database" ms with _ | jd
  · simp [decode, missingKey, requiredKeys, databaseBase, GoType.deref, GoType.fieldDecls,
      JSON.get, JSON.members, h, isMetaPtr_ptr_Database]
  · simp only [decode, missingKey, requiredKeys, databaseBase, GoType.deref, GoType.fieldDecls,
      JSON.get, JSON.members, List.filter, Bool.not_false, List.map, List.find?, h,
      Option.isNone_some, decodeValue, resolve, wrapPtr, isMetaPtr_ptr_Database,
      Bool.and_self]
    rcases decodeMembers _ ms _ with e | fs <;> rfl

/-- A response that lacks the key database is a DecodeError for a databaseBase
envelope. -/
theorem decode_databaseBase_missing (j : JSON) (hk : j.get "database" = none) :
    decode (.json j) (some ⟨.ptr databaseBase, new databaseBase⟩) =
      (new databaseBase, some (.DecodeError "missing envelope key database")) := by
  simp [decode, missingKey, requiredKeys, databaseBase, GoType.deref, GoType.fieldDecls, hk,
    isMetaPtr_ptr_Database]

/-- C9: for Get, Create, Update, AddReadOnlyReplica, RestoreFromBackup and Fork over the
dispatch layer, when the server answers the request with a status from 200 to 299 and
a well-formed JSON body that has no member database, the operation returns a
DecodeError and a nil Database: never a nil Database with a nil error. -/
theorem C9_missing_database_key_is_decode_error (cfg : Config) (net : Net) (r : Response)
    (j : JSON) (op : Operation) (hop : decodesDatabase op = true)
    (hs : 200 ≤ r.status ∧ r.status ≤ 299) (hb : r.body = .json j)
    (hk : j.get "database" = none) (encoded : Option JSON)
    (henc : encodeBody (plan op).body = some encoded)
    (hsrv : net.server (buildRequest cfg (plan op).method (plan op).uri encoded)
      net.roundTrips = .response r) :
    (∃ msg, ((databaseHandler (specClient cfg)).exec op (net, [])).1.err
      = some (.DecodeError msg)) ∧
    ((databaseHandler (specClient cfg)).exec op (net, [])).1.vals = [.nil] := by
  obtain ⟨hopt, hT, hz, _⟩ := decodesDatabase_plan op hop
  rw [exec_eq_run, run_specClient_success cfg (plan op) net r encoded hopt henc hs hsrv, hT,
    hb]
  simp only [decode_databaseBase_missing j hk, hz]
  exact ⟨⟨_, rfl⟩, trivial⟩

theorem C9_missing_database_key_is_decode_error_witness :
    decodesDatabase (.Get "db-1") = true ∧
    (200 ≤ (okJSON (.obj [("message", .str "ok")])).status ∧
      (okJSON (.obj [("message", .str "ok")])).status ≤ 299) ∧
    (JSON.obj [("message", .str "ok")]).get "database" = none ∧
    (∃ msg, ((databaseHandler (specClient exampleConfig)).exec (.Get "db-1")
      (constantNet (okJSON (.obj [("message", .str "ok")])), [])).1.err
      = some (.DecodeError msg)) ∧
    ((databaseHandler (specClient exampleConfig)).exec (.Get "db-1")
      (constantNet (okJSON (.obj [("message", .str "ok")])), [])).1.vals = [.nil] :=
  ⟨rfl, by decide, rfl,
    C9_missing_database_key_is_decode_error exampleConfig
      (constantNet (okJSON (.obj [("message", .str "ok")])))
      (okJSON (.obj [("message", .str "ok")])) (.obj [("message", .str "ok")]) (.Get "db-1")
      rfl (by decide) rfl rfl none rfl rfl⟩

/-! ## The database envelope -/

theorem decodeMembers_nil (ds : List (FieldDecl GoType)) (acc : List (FieldVal GoVal)) :
    decodeMembers ds [] acc = .ok acc := by
  simp [decodeMembers]

theorem decodeMembers_cons (ds : List (FieldDecl GoType)) (k : String) (j : JSON)
    (ms : List (String × JSON)) (acc : List (FieldVal GoVal)) :
    decodeMembers ds ((k, j) :: ms) acc =
      match ds.find? (fun d => d.key == k) with
      | none => decodeMembers ds ms acc
      | some d => match decodeValue d.type j with
        | .error err => .error err
        | .ok v => decodeMembers ds ms (assignField d.name v acc) := by
  simp [decodeMembers]

/-- The members that have the key of no field of the databaseBase envelope do not
take part in its decoding. -/
theorem decodeMembers_databaseBase_filter (ms : List (String × JSON))
    (acc : List (FieldVal GoVal)) :
    decodeMembers databaseBase.fieldDecls ms acc =
      decodeMembers databaseBase.fieldDecls (ms.filter (fun m => m.1 = "database")) acc := by
  induction ms generalizing acc with
  | nil => rfl
  | cons m ms ih =>
    obtain ⟨k, j⟩ := m
    by_cases hk : k = "database"
    · subst hk
      simp only [List.filter, decide_True, decodeMembers_cons]
      simp only [databaseBase, GoType.fieldDecls, List.find?, beq_self_eq_true]
      rcases decodeValue (.ptr Database) j with e | v
      · rfl
      · exact ih _
    · have hk2 : ("database" == k) = false := by
        simp only [beq_eq_false_iff_ne, ne_eq]
        exact fun e => hk e.symm
      simp only [List.filter, hk, decide_False, decodeMembers_cons]
      simp only [databaseBase, GoType.fieldDecls, List.find?, hk2]
      exact ih acc

theorem lookupKey_filter (key : String) (ms : List (String × JSON)) :
    lookupKey key ms = lookupKey key (ms.filter (fun m => m.1 = key)) := by
  induction ms with
  | nil => rfl
  | cons m ms ih =>
    obtain ⟨k, j⟩ := m
    by_cases hk : k = key
    · simp [List.filter, lookupKey, hk]
    · simp [List.filter, lookupKey, hk, ih]

theorem lookupKey_none_of_lookupLast_none (key : String) (ms : List (String × JSON))
    (h : lookupLast key ms = none) : lookupKey key ms = none := by
  induction ms with
  | nil => rfl
  | cons m ms ih =>
    obtain ⟨k, j⟩ := m
    simp only [lookupLast] at h
    rcases h2 : lookupLast key ms with _ | x
    · rw [h2] at h
      by_cases hk : k = key
      · simp [hk] at h
      · simp [lookupKey, hk, ih h2]
    · rw [h2] at h
      cases h

/-- The decoding of the members of a databaseBase envelope: the field Database holds
the decoding of the last member database, or is untouched when there is none. -/
theorem decodeMembers_databaseBase_value (ms : List (String × JSON)) (a : GoVal)
    (fs : List (FieldVal GoVal))
    (h : decodeMembers databaseBase.fieldDecls ms [⟨"Database", "database", false, a⟩]
      = .ok fs) :
    (lookupLast "database" ms = none ∧ fs = [⟨"Database", "database", false, a⟩]) ∨
    ∃ jd v, lookupLast "database" ms = some jd ∧ decodeValue (.ptr Database) jd = .ok v ∧
      fs = [⟨"Database", "database", false, v⟩] := by
  induction ms generalizing a with
  | nil =>
    left
    simp only [decodeMembers_nil, Except.ok.injEq] at h
    exact ⟨rfl, h.symm⟩
  | cons m ms ih =>
    obtain ⟨k, j⟩ := m
    rw [decodeMembers_cons] at h
    by_cases hk : k = "database"
    · subst hk
      simp only [databaseBase, GoType.fieldDecls, List.find?, beq_self_eq_true] at h
      rcases hv : decodeValue (.ptr Database) j with e | v
      · rw [hv] at h; cases h
      · rw [hv] at h
        simp only [assignField, if_true] at h
        have h' : decodeMembers databaseBase.fieldDecls ms
            [⟨"Database", "database", false, v⟩] = .ok fs := h
        rcases ih v h' with ⟨hl, hfs⟩ | ⟨jd, v2, hl, hd, hfs⟩
        · right
          exact ⟨j, v, by simp [lookupLast, hl], hv, hfs⟩
        · right
          exact ⟨jd, v2, by simp [lookupLast, hl], hd, hfs⟩
    · have hk2 : ("database" == k) = false := by
        simp only [beq_eq_false_iff_ne, ne_eq]
        exact fun e => hk e.symm
      simp only [databaseBase, GoType.fieldDecls, List.find?, hk2] at h
      have h' : decodeMembers databaseBase.fieldDecls ms
          [⟨"Database", "database", false, a⟩] = .ok fs := h
      rcases ih a h' with ⟨hl, hfs⟩ | ⟨jd, v2, hl, hd, hfs⟩
      · left
        exact ⟨by simp [lookupLast, hl, hk], hfs⟩
      · right
        exact ⟨jd, v2, by simp [lookupLast, hl], hd, hfs⟩

/-- The decoding of a databaseBase envelope reads only the members database. -/
theorem decode_databaseBase_filter (ms : List (String × JSON)) :
    decode (.json (.obj ms)) (some ⟨.ptr databaseBase, new databaseBase⟩) =
      decode (.json (.obj (ms.filter (fun m => m.1 = "database"))))
        (some ⟨.ptr databaseBase, new databaseBase⟩) := by
  rw [decode_databaseBase, decode_databaseBase, ← lookupKey_filter,
    ← decodeMembers_databaseBase_filter]

/-- C10: for Get, Create, Update, AddReadOnlyReplica, RestoreFromBackup and Fork: with
any client, whenever request construction and dispatch succeed, the error returned is
nil and the Database returned is the field Database (key database) of the envelope
that dispatch populated; over the dispatch layer, when the server answers with a
status from 200 to 299 and a JSON object and no error is returned, the Database
returned is the decoding of the member database of the object (the last one, should
the key occur twice); and two such answers whose objects have the same members
database give the same result, whatever their other members. -/
theorem C10_database_of_the_envelope (cfg : Config) (op : Operation)
    (hop : decodesDatabase op = true) :
    (∀ (ω : Type) (i : DatabaseServiceHandler ω) (w w1 w2 : ω) (req : Request) (x : GoVal),
      i.client.NewRequest (plan op).method (plan op).uri (plan op).body w = (.ok req, w1) →
      i.client.DoWithContext req (some ⟨.ptr databaseBase, new databaseBase⟩) w1
        = ((x, none), w2) →
      (i.exec op (w, [])).1.err = none ∧
      (i.exec op (w, [])).1.vals = [x.field "Database"]) ∧
    (∀ (net : Net) (r : Response) (ms : List (String × JSON)) (encoded : Option JSON),
      200 ≤ r.status ∧ r.status ≤ 299 → r.body = .json (.obj ms) →
      encodeBody (plan op).body = some encoded →
      net.server (buildRequest cfg (plan op).method (plan op).uri encoded)
        net.roundTrips = .response r →
      ((databaseHandler (specClient cfg)).exec op (net, [])).1.err = none →
      ∃ jd v, lookupLast "database" ms = some jd ∧
        decodeValue (.ptr Database) jd = .ok v ∧
        ((databaseHandler (specClient cfg)).exec op (net, [])).1.vals = [v]) ∧
    (∀ (net net' : Net) (r r' : Response) (ms ms' : List (String × JSON))
        (encoded : Option JSON),
      200 ≤ r.status ∧ r.status ≤ 299 → 200 ≤ r'.status ∧ r'.status ≤ 299 →
      r.body = .json (.obj ms) → r'.body = .json (.obj ms') →
      encodeBody (plan op).body = some encoded →
      net.server (buildRequest cfg (plan op).method (plan op).uri encoded)
        net.roundTrips = .response r →
      net'.server (buildRequest cfg (plan op).method (plan op).uri encoded)
        net'.roundTrips = .response r' →
      ms.filter (fun m => m.1 = "database") = ms'.filter (fun m => m.1 = "database") →
      ((databaseHandler (specClient cfg)).exec op (net, [])).1.err =
        ((databaseHandler (specClient cfg)).exec op (net', [])).1.err ∧
      ((databaseHandler (specClient cfg)).exec op (net, [])).1.vals =
        ((databaseHandler (specClient cfg)).exec op (net', [])).1.vals) := by
  obtain ⟨hopt, hT, hz, hres⟩ := decodesDatabase_plan op hop
  refine ⟨?_, ?_, ?_⟩
  · intro ω i w w1 w2 req x h1 h2
    rw [exec_eq_run]
    simp [DatabaseServiceHandler.run, Client.newRequest, Client.doWithContext, hopt, hT, h1,
      h2, hres]
  · intro net r ms encoded hs hb henc hsrv
    rw [exec_eq_run, run_specClient_success cfg (plan op) net r encoded hopt henc hs hsrv, hT,
      hb]
    dsimp only
    rw [decode_databaseBase]
    rcases hk : lookupKey "database" ms with _ | j0
    · simp
    · rcases hm : decodeMembers databaseBase.fieldDecls ms
          (zeroFields databaseBase.fieldDecls) with e | fs
      · simp
      · intro _
        have hm' : decodeMembers databaseBase.fieldDecls ms
            [⟨"Database", "database", false, .nil⟩] = .ok fs := hm
        rcases decodeMembers_databaseBase_value ms .nil fs hm' with
          ⟨hl, _⟩ | ⟨jd, v, hl, hd, hfs⟩
        · rw [lookupKey_none_of_lookupLast_none _ _ hl] at hk
          cases hk
        · refine ⟨jd, v, hl, hd, ?_⟩
          simp [hres, hfs, GoVal.field, GoVal.fields, lookupField]
  · intro net net' r r' ms ms' encoded hs hs' hb hb' henc hsrv hsrv' hf
    rw [exec_eq_run, run_specClient_success cfg (plan op) net r encoded hopt henc hs hsrv,
      run_specClient_success cfg (plan op) net' r' encoded hopt henc hs' hsrv', hT, hb, hb']
    dsimp only
    rw [decode_databaseBase_filter ms, decode_databaseBase_filter ms', hf]
    exact ⟨rfl, rfl⟩

theorem C10_database_of_the_envelope_witness :
    decodesDatabase (.Fork "db-1" .nil) = true ∧
    ∃ jd v, lookupLast "database" forkAnswer = some jd ∧
      decodeValue (.ptr Database) jd = .ok v ∧
      ((databaseHandler (specClient exampleConfig)).exec (.Fork "db-1" .nil)
        (constantNet (okJSON (.obj forkAnswer)), [])).1.vals = [v] :=
  ⟨rfl, (C10_database_of_the_envelope exampleConfig (.Fork "db-1" .nil) rfl).2.1
    (constantNet (okJSON (.obj forkAnswer))) (okJSON (.obj forkAnswer)) forkAnswer
    (some .null) (by decide) rfl rfl rfl rfl⟩

/-! ## The handlers over the dispatch layer -/

/-- The result of a handler with the given schema over the dispatch layer, in terms of
the outcome of the dispatch of its request. -/
theorem run_specClient_eq (cfg : Config) (p : Plan) (net : Net) (req : Request)
    (hreq : requestOf cfg p = some req) :
    ((databaseHandler (specClient cfg)).run p (net, [])).1 =
      match p.shape with
      | none => ⟨p.zeros, (DoWithContext cfg req none net).1.2⟩
      | some T =>
        match (DoWithContext cfg req (some ⟨.ptr T, new T⟩) net).1 with
        | (_, some err) => ⟨p.zeros, some err⟩
        | (x, none) => ⟨p.results x, none⟩ := by
  unfold requestOf at hreq
  rcases henc : encodeBody p.body with _ | encoded
  · simp [henc] at hreq
  · rw [henc] at hreq
    rcases hopt : p.options with _ | o
    · simp only [hopt, Option.some.injEq] at hreq
      subst hreq
      simp only [DatabaseServiceHandler.run, Client.newRequest, Client.doWithContext, hopt,
        databaseHandler, specClient, NewRequest, henc]
      rcases p.shape with _ | T
      · rfl
      · simp only
        rcases (DoWithContext cfg _ (some ⟨.ptr T, new T⟩) net).1 with ⟨x, _ | e⟩ <;> rfl
    · simp only [hopt] at hreq
      rcases hq : query.Values o with e | vs
      · simp [hq] at hreq
      · simp only [hq, Option.some.injEq] at hreq
        subst hreq
        simp only [DatabaseServiceHandler.run, Client.newRequest, Client.doWithContext, hopt,
          databaseHandler, specClient, NewRequest, henc, DatabaseServiceHandler.values, hq]
        rcases p.shape with _ | T
        · rfl
        · simp only
          rcases (DoWithContext cfg _ (some ⟨.ptr T, new T⟩) net).1 with ⟨x, _ | e⟩ <;> rfl

/-! ## Paths and calls -/

/-- The first call of a handler is the call of NewRequest with the method, the path
and the body of its schema. -/
theorem run_requestLine {ω : Type} (i : DatabaseServiceHandler ω) (p : Plan) (w : ω) :
    requestLine (i.run p (w, [])).2.2 = some (p.method, p.uri) := by
  simp only [DatabaseServiceHandler.run, Client.newRequest, Client.doWithContext,
    DatabaseServiceHandler.values]
  rcases h1 : i.client.NewRequest p.method p.uri p.body w with ⟨_ | req, w1⟩
  · simp [h1, requestLine]
  · rcases p.options with _ | o
    · rcases p.shape with _ | T
      · simp [h1, requestLine]
      · rcases h2 : i.client.DoWithContext req (some ⟨.ptr T, new T⟩) w1 with
          ⟨⟨x, _ | e⟩, w2⟩ <;> simp [h1, h2, requestLine]
    · rcases h3 : i.queryValues o with e | nv
      · simp [h1, h3, requestLine]
      · rcases p.shape with _ | T
        · simp [h1, h3, requestLine]
        · rcases h2 : i.client.DoWithContext
            { req with URL := { req.URL with RawQuery := Values.Encode nv } }
            (some ⟨.ptr T, new T⟩) w1 with
            ⟨⟨x, _ | e⟩, w2⟩ <;> simp [h1, h3, h2, requestLine]

/-- The expansion of a format that starts with the verb %s starts with its first
operand. -/
theorem sprintf_head (format a : String) (args : List String)
    (h : format.data.take 2 = ['%', 's']) :
    fmt.Sprintf format (a :: args) = a ++ ⟨sprintfAux (format.data.drop 2) args⟩ := by
  apply String.ext
  obtain ⟨cs⟩ := format
  match cs, h with
  | c1 :: c2 :: rest, h =>
    simp only [List.take, List.cons.injEq, and_true] at h
    obtain ⟨rfl, rfl⟩ := h
    simp [fmt.Sprintf, sprintfAux]

/-- The path of the database with the given identifier. -/
theorem sprintf_database (databaseID : String) :
    fmt.Sprintf "%s/%s" [databasePath, databaseID] = "/v2/databases/" ++ databaseID := by
  apply String.ext
  simp [fmt.Sprintf, sprintfAux, databasePath]

/-- C14: for every databaseID and every client, the first call of Get, Update and Delete
is the call of NewRequest with the path /v2/databases/ followed by databaseID exactly
as given, and with the methods GET, PUT and DELETE respectively. -/
theorem C14_path_of_a_database {ω : Type} (i : DatabaseServiceHandler ω) (databaseID : String)
    (databaseReq : GoVal) (w : ω) :
    requestLine (i.exec (.Get databaseID) (w, [])).2.2
      = some ("GET", "/v2/databases/" ++ databaseID) ∧
    requestLine (i.exec (.Update databaseID databaseReq) (w, [])).2.2
      = some ("PUT", "/v2/databases/" ++ databaseID) ∧
    requestLine (i.exec (.Delete databaseID) (w, [])).2.2
      = some ("DELETE", "/v2/databases/" ++ databaseID) := by
  refine ⟨?_, ?_, ?_⟩ <;>
    simp only [exec_eq_run, run_requestLine, plan, sprintf_database] <;> rfl

/-- C19: for every operation of DatabaseService, all argument values and every client,
the path handed to NewRequest is /v2/databases followed by some text. -/
theorem C19_path_under_base {ω : Type} (i : DatabaseServiceHandler ω) (op : Operation)
    (w : ω) :
    ∃ method rest, requestLine (i.exec op (w, [])).2.2
      = some (method, "/v2/databases" ++ rest) := by
  rw [exec_eq_run, run_requestLine]
  refine ⟨(plan op).method, ?_⟩
  have key : ∃ rest, (plan op).uri = "/v2/databases" ++ rest := by
    cases op <;> first
      | exact ⟨"", rfl⟩
      | exact ⟨_, sprintf_head _ databasePath _ (by decide)⟩
  obtain ⟨rest, h⟩ := key
  exact ⟨rest, by rw [h]⟩

/-! ## Paths of the sub-resources -/

/-- The path of the users of a database. -/
theorem sprintf_users (databaseID : String) :
    fmt.Sprintf "%s/%s/users" [databasePath, databaseID]
      = "/v2/databases/" ++ databaseID ++ "/users" := by
  apply String.ext
  simp [fmt.Sprintf, sprintfAux, databasePath]

/-- The path of a user of a database. -/
theorem sprintf_user (databaseID username : String) :
    fmt.Sprintf "%s/%s/users/%s" [databasePath, databaseID, username]
      = "/v2/databases/" ++ databaseID ++ "/users" ++ "/" ++ username := by
  apply String.ext
  simp [fmt.Sprintf, sprintfAux, databasePath]

/-- The path of the logical databases of a database. -/
theorem sprintf_dbs (databaseID : String) :
    fmt.Sprintf "%s/%s/dbs" [databasePath, databaseID]
      = "/v2/databases/" ++ databaseID ++ "/dbs" := by
  apply String.ext
  simp [fmt.Sprintf, sprintfAux, databasePath]

/-- The path of a logical database of a database. -/
theorem sprintf_db (databaseID dbname : String) :
    fmt.Sprintf "%s/%s/dbs/%s" [databasePath, databaseID, dbname]
      = "/v2/databases/" ++ databaseID ++ "/dbs" ++ "/" ++ dbname := by
  apply String.ext
  simp [fmt.Sprintf, sprintfAux, databasePath]

/-- The path of the connection pools of a database. -/
theorem sprintf_pools (databaseID : String) :
    fmt.Sprintf "%s/%s/connection-pools" [databasePath, databaseID]
      = "/v2/databases/" ++ databaseID ++ "/connection-pools" := by
  apply String.ext
  simp [fmt.Sprintf, sprintfAux, databasePath]

/-- The path of a connection pool of a database. -/
theorem sprintf_pool (databaseID poolName : String) :
    fmt.Sprintf "%s/%s/connection-pools/%s" [databasePath, databaseID, poolName]
      = "/v2/databases/" ++ databaseID ++ "/connection-pools" ++ "/" ++ poolName := by
  apply String.ext
  simp [fmt.Sprintf, sprintfAux, databasePath]

/-- C20: for the sub-resources users, dbs and connection-pools, all databaseID and name
and every client: the list and create operations hand NewRequest the same path
/v2/databases/databaseID/kind, with GET and POST; the get, update (users and
connection-pools) and delete operations hand it the same path, with GET, PUT and
DELETE; and that path is the collection path followed by / and the name unchanged. -/
theorem C20_sub_resource_paths {ω : Type} (i : DatabaseServiceHandler ω)
    (databaseID name : String) (body : GoVal) (w : ω) :
    (requestLine (i.exec (.ListUsers databaseID) (w, [])).2.2
        = some ("GET", "/v2/databases/" ++ databaseID ++ "/users") ∧
      requestLine (i.exec (.CreateUser databaseID body) (w, [])).2.2
        = some ("POST", "/v2/databases/" ++ databaseID ++ "/users") ∧
      requestLine (i.exec (.GetUser databaseID name) (w, [])).2.2
        = some ("GET", "/v2/databases/" ++ databaseID ++ "/users" ++ "/" ++ name) ∧
      requestLine (i.exec (.UpdateUser databaseID name body) (w, [])).2.2
        = some ("PUT", "/v2/databases/" ++ databaseID ++ "/users" ++ "/" ++ name) ∧
      requestLine (i.exec (.DeleteUser databaseID name) (w, [])).2.2
        = some ("DELETE", "/v2/databases/" ++ databaseID ++ "/users" ++ "/" ++ name)) ∧
    (requestLine (i.exec (.ListDBs databaseID) (w, [])).2.2
        = some ("GET", "/v2/databases/" ++ databaseID ++ "/dbs") ∧
      requestLine (i.exec (.CreateDB databaseID body) (w, [])).2.2
        = some ("POST", "/v2/databases/" ++ databaseID ++ "/dbs") ∧
      requestLine (i.exec (.GetDB databaseID name) (w, [])).2.2
        = some ("GET", "/v2/databases/" ++ databaseID ++ "/dbs" ++ "/" ++ name) ∧
      requestLine (i.exec (.DeleteDB databaseID name) (w, [])).2.2
        = some ("DELETE", "/v2/databases/" ++ databaseID ++ "/dbs" ++ "/" ++ name)) ∧
    (requestLine (i.exec (.ListConnectionPools databaseID) (w, [])).2.2
        = some ("GET", "/v2/databases/" ++ databaseID ++ "/connection-pools") ∧
      requestLine (i.exec (.CreateConnectionPool databaseID body) (w, [])).2.2
        = some ("POST", "/v2/databases/" ++ databaseID ++ "/connection-pools") ∧
      requestLine (i.exec (.GetConnectionPool databaseID name) (w, [])).2.2
        = some ("GET",
          "/v2/databases/" ++ databaseID ++ "/connection-pools" ++ "/" ++ name) ∧
      requestLine (i.exec (.UpdateConnectionPool databaseID name body) (w, [])).2.2
        = some ("PUT",
          "/v2/databases/" ++ databaseID ++ "/connection-pools" ++ "/" ++ name) ∧
      requestLine (i.exec (.DeleteConnectionPool databaseID name) (w, [])).2.2
        = some ("DELETE",
          "/v2/databases/" ++ databaseID ++ "/connection-pools" ++ "/" ++ name)) := by
  simp only [exec_eq_run, run_requestLine, plan, sprintf_users, sprintf_user, sprintf_dbs,
    sprintf_db, sprintf_pools, sprintf_pool]
  refine ⟨⟨rfl, rfl, rfl, rfl, rfl⟩, ⟨rfl, rfl, rfl, rfl⟩, ⟨rfl, rfl, rfl, rfl, rfl⟩⟩

/-- The calls of a handler by kind: NewRequest once; DoWithContext at most once, and
once exactly when every other call returned no error. -/
theorem run_counts {ω : Type} (i : DatabaseServiceHandler ω) (p : Plan) (w : ω) :
    countKind .NewRequest (i.run p (w, [])).2.2 = 1 ∧
    countKind .DoWithContext (i.run p (w, [])).2.2 ≤ 1 ∧
    (countKind .DoWithContext (i.run p (w, [])).2.2 = 1 ↔
      ∀ e ∈ (i.run p (w, [])).2.2, e.step.kind ≠ .DoWithContext → e.err = none) ∧
    (countKind .Values (i.run p (w, [])).2.2 ≤ 1) ∧
    (p.options = none → countKind .Values (i.run p (w, [])).2.2 = 0) := by
  simp only [DatabaseServiceHandler.run, Client.newRequest, Client.doWithContext,
    DatabaseServiceHandler.values]
  rcases h1 : i.client.NewRequest p.method p.uri p.body w with ⟨_ | req, w1⟩
  · rcases p.options with _ | o <;> simp [h1, errOf, Step.kind, countKind]
  · rcases p.options with _ | o
    · rcases p.shape with _ | T
      · rcases h2 : i.client.DoWithContext req none w1 with ⟨⟨x, _ | e⟩, w2⟩ <;>
          simp [h1, h2, errOf, Step.kind, countKind]
      · rcases h2 : i.client.DoWithContext req (some ⟨.ptr T, new T⟩) w1 with
          ⟨⟨x, _ | e⟩, w2⟩ <;> simp [h1, h2, errOf, Step.kind, countKind]
    · rcases h3 : i.queryValues o with e | nv
      · simp [h1, h3, errOf, Step.kind, countKind]
      · rcases p.shape with _ | T
        · rcases h2 : i.client.DoWithContext
            { req with URL := { req.URL with RawQuery := Values.Encode nv } } none w1 with
            ⟨⟨x, _ | e⟩, w2⟩ <;> simp [h1, h3, h2, errOf, Step.kind, countKind]
        · rcases h2 : i.client.DoWithContext
            { req with URL := { req.URL with RawQuery := Values.Encode nv } }
            (some ⟨.ptr T, new T⟩) w1 with
            ⟨⟨x, _ | e⟩, w2⟩ <;> simp [h1, h3, h2, errOf, Step.kind, countKind]

/-- An operation whose planned calls hold no query encoding has no options in its
schema. -/
theorem options_none_of_not_planned (op : Operation)
    (h : StepKind.Values ∉ plannedSteps op) : (plan op).options = none := by
  cases op <;> first
    | rfl
    | exact absurd (by simp [plannedSteps]) h

/-- C15: every operation of DatabaseService, with every client and in every state, calls
NewRequest exactly once and DoWithContext at most once, exactly once if and only if
every call before the dispatch (request construction and, for List and ListPlans, query
encoding) returned no error; query.Values is called at most once, and never by an
operation other than List and ListPlans. The answer of the dispatch is arbitrary here,
so that the count holds whatever cursor the response carries. -/
theorem C15_one_request_at_most_one_dispatch {ω : Type} (i : DatabaseServiceHandler ω)
    (op : Operation) (w : ω) :
    countKind .NewRequest (i.exec op (w, [])).2.2 = 1 ∧
    countKind .DoWithContext (i.exec op (w, [])).2.2 ≤ 1 ∧
    (countKind .DoWithContext (i.exec op (w, [])).2.2 = 1 ↔
      ∀ e ∈ (i.exec op (w, [])).2.2, e.step.kind ≠ .DoWithContext → e.err = none) ∧
    countKind .Values (i.exec op (w, [])).2.2 ≤ 1 ∧
    (StepKind.Values ∉ plannedSteps op → countKind .Values (i.exec op (w, [])).2.2 = 0) := by
  rw [exec_eq_run]
  obtain ⟨h1, h2, h3, h4, h5⟩ := run_counts i (plan op) w
  exact ⟨h1, h2, h3, h4, fun h => h5 (options_none_of_not_planned op h)⟩

/-! ## Decoding of struct shapes -/

theorem names_zeroFields (ds : List (FieldDecl GoType)) :
    (zeroFields ds).map (·.name) = ds.map (·.name) := by
  induction ds with
  | nil => simp [zeroFields]
  | cons d ds ih => simp [zeroFields, ih]

theorem names_assignField (name : String) (x : GoVal) (fs : List (FieldVal GoVal)) :
    (assignField name x fs).map (·.name) = fs.map (·.name) := by
  have := congrArg (List.map (·.1)) (tagsOf_assignField name x fs)
  simpa [tagsOf] using this

theorem lookupField_assignField_ne (n m : String) (x : GoVal) (fs : List (FieldVal GoVal))
    (h : n ≠ m) : lookupField m (assignField n x fs) = lookupField m fs := by
  induction fs with
  | nil => rfl
  | cons f fs ih =>
    by_cases hf : f.name = n
    · have hm : ¬ f.name = m := by rw [hf]; exact h
      simp [assignField, hf, lookupField, hm, h]
    · by_cases hm : f.name = m
      · have hmn : ¬ m = n := fun e => h e.symm
        simp [assignField, lookupField, hm, hmn]
      · simp [assignField, hf, lookupField, hm, ih]

theorem lookupLast_cons_ne (key k : String) (j : JSON) (ms : List (String × JSON))
    (h : k ≠ key) : lookupLast key ((k, j) :: ms) = lookupLast key ms := by
  rcases hl : lookupLast key ms with _ | x <;> simp [lookupLast, hl, h]

theorem lookupLast_cons_eq (key : String) (j : JSON) (ms : List (String × JSON)) :
    lookupLast key ((key, j) :: ms) =
      match lookupLast key ms with
      | some x => some x
      | none => some j := by
  rcases hl : lookupLast key ms with _ | x <;> simp [lookupLast, hl]

/-- The decoding of the members of an object along the declarations of a struct whose
field names and keys are pairwise distinct: a field holds the decoding of the last
member under its key, or is untouched when there is none. -/
theorem decodeMembers_field (ds : List (FieldDecl GoType))
    (hn : (ds.map (·.name)).Nodup) (hk : (ds.map (·.key)).Nodup)
    (d : FieldDecl GoType) (hd : d ∈ ds) :
    ∀ (ms : List (String × JSON)) (acc fs : List (FieldVal GoVal)),
      acc.map (·.name) = ds.map (·.name) → decodeMembers ds ms acc = .ok fs →
      (lookupLast d.key ms = none ∧ lookupField d.name fs = lookupField d.name acc) ∨
      ∃ jd v, lookupLast d.key ms = some jd ∧ decodeValue d.type jd = .ok v ∧
        lookupField d.name fs = v := by
  intro ms
  induction ms with
  | nil =>
    intro acc fs _ h
    left
    simp only [decodeMembers_nil, Except.ok.injEq] at h
    exact ⟨rfl, by rw [h]⟩
  | cons m ms ih =>
    intro acc fs hacc h
    obtain ⟨k, j⟩ := m
    rw [decodeMembers_cons] at h
    rcases hfind : ds.find? (fun d => d.key == k) with _ | d'
    · rw [hfind] at h
      dsimp only at h
      have hne : k ≠ d.key := by
        intro e
        have := List.find?_eq_none.mp hfind d hd
        simp [e] at this
      rw [lookupLast_cons_ne _ _ _ _ hne]
      exact ih acc fs hacc h
    · rw [hfind] at h
      dsimp only at h
      have hd' : d' ∈ ds := List.mem_of_find?_eq_some hfind
      have hk' : d'.key = k := by simpa using List.find?_some hfind
      rcases hv : decodeValue d'.type j with e | v
      · rw [hv] at h; cases h
      · rw [hv] at h
        dsimp only at h
        have hacc' : (assignField d'.name v acc).map (·.name) = ds.map (·.name) := by
          rw [names_assignField, hacc]
        have h' : decodeMembers ds ms (assignField d'.name v acc) = .ok fs := h
        by_cases hkeq : d'.key = d.key
        · have hdd : d' = d := List.inj_on_of_nodup_map hk hd' hd hkeq
          subst hdd
          subst hk'
          have hmem : d'.name ∈ acc.map (·.name) := by
            rw [hacc]; exact List.mem_map_of_mem _ hd
          rw [lookupLast_cons_eq]
          rcases ih _ fs hacc' h' with ⟨hl, hf⟩ | ⟨jd, v2, hl, hdv, hf⟩
          · right
            refine ⟨j, v, by rw [hl], hv, ?_⟩
            rw [hf, lookupField_assignField _ _ _ hmem]
          · right
            exact ⟨jd, v2, by rw [hl], hdv, hf⟩
        · have hnn : d'.name ≠ d.name := by
            intro e
            exact hkeq (congrArg (·.key) (List.inj_on_of_nodup_map hn hd' hd e))
          have hne : k ≠ d.key := by rw [← hk']; exact hkeq
          rw [lookupLast_cons_ne _ _ _ _ hne]
          rcases ih _ fs hacc' h' with ⟨hl, hf⟩ | ⟨jd, v2, hl, hdv, hf⟩
          · left
            exact ⟨hl, by rw [hf, lookupField_assignField_ne _ _ _ _ hnn]⟩
          · right
            exact ⟨jd, v2, hl, hdv, hf⟩

/-- The decoding of a JSON object into a new value of a struct shape. -/
theorem decode_struct (n : String) (ds : List (FieldDecl GoType))
    (ms : List (String × JSON)) :
    decode (.json (.obj ms)) (some ⟨.ptr (.struct n ds), new (.struct n ds)⟩) =
      match missingKey (.struct n ds) (.obj ms) with
      | some k => (new (.struct n ds), some (.DecodeError ("missing envelope key " ++ k)))
      | none =>
        match decodeMembers ds ms (zeroFields ds) with
        | .error msg => (new (.struct n ds), some (.DecodeError msg))
        | .ok fs => (.ptr (.struct n fs), none) := by
  simp only [decode, GoType.deref]
  rcases missingKey (.struct n ds) (.obj ms) with _ | k
  · simp only [decodeValue, GoType.deref, resolve, wrapPtr]
    rcases decodeMembers ds ms (zeroFields ds) with e | fs <;> rfl
  · rfl

theorem lookupLast_none_of_lookupKey_none (key : String) (ms : List (String × JSON))
    (h : lookupKey key ms = none) : lookupLast key ms = none := by
  induction ms with
  | nil => rfl
  | cons m ms ih =>
    obtain ⟨k, j⟩ := m
    by_cases hk : k = key
    · simp [lookupKey, hk] at h
    · simp only [lookupKey, hk, if_false] at h
      rw [lookupLast_cons_ne _ _ _ _ hk]
      exact ih h

/-- A required key that decoding found present is the key of some member. -/
theorem lookupLast_of_required (T : GoType) (ms : List (String × JSON))
    (h : missingKey T (.obj ms) = none) (k : String) (hk : k ∈ requiredKeys T) :
    lookupLast k ms ≠ none := by
  intro hl
  have := List.find?_eq_none.mp h k hk
  simp [JSON.get, JSON.members, lookupKey_none_of_lookupLast_none k ms hl] at this

/-- The decoding of the elements of an array keeps their number and their order. -/
theorem decodeElems_forall₂ (e : GoType) :
    ∀ (xs : List JSON) (vs : List GoVal), decodeElems e xs = .ok vs →
      List.Forall₂ (fun x v => decodeValue e x = .ok v) xs vs := by
  intro xs
  induction xs with
  | nil =>
    intro vs h
    simp only [decodeElems, Except.ok.injEq] at h
    subst h
    exact List.Forall₂.nil
  | cons x xs ih =>
    intro vs h
    simp only [decodeElems] at h
    rcases hx : decodeValue e x with err | v
    · simp [hx] at h
    · rcases hxs : decodeElems e xs with err | vs2
      · simp [hx, hxs] at h
      · simp only [hx, hxs, Except.ok.injEq] at h
        subst h
        exact List.Forall₂.cons hx (ih vs2 hxs)

/-- The members of an object whose members under the keys of the fields decode, decode. -/
theorem decodeMembers_total (ds : List (FieldDecl GoType)) :
    ∀ (ms : List (String × JSON)) (acc : List (FieldVal GoVal)),
      (∀ m ∈ ms, ∀ d, ds.find? (fun d => d.key == m.1) = some d →
        ∃ v, decodeValue d.type m.2 = .ok v) →
      ∃ fs, decodeMembers ds ms acc = .ok fs := by
  intro ms
  induction ms with
  | nil => intro acc _; exact ⟨acc, decodeMembers_nil ds acc⟩
  | cons m ms ih =>
    intro acc h
    obtain ⟨k, j⟩ := m
    rw [decodeMembers_cons]
    have ih' := fun acc => ih acc (fun m hm => h m (List.mem_cons_of_mem _ hm))
    rcases hf : ds.find? (fun d => d.key == k) with _ | d
    · rw [hf]
      exact ih' acc
    · obtain ⟨v, hv⟩ := h (k, j) (List.mem_cons_self _ _) d hf
      rw [hf]
      dsimp only
      rw [hv]
      exact ih' _

/-! ## Envelopes of collections and of messages -/

theorem lookupField_zeroFields (ds : List (FieldDecl GoType)) (d : FieldDecl GoType)
    (hn : (ds.map (·.name)).Nodup) (hd : d ∈ ds) :
    lookupField d.name (zeroFields ds) = zeroValue d.type := by
  induction ds with
  | nil => cases hd
  | cons d0 ds ih =>
    rw [List.map_cons, List.nodup_cons] at hn
    rcases List.mem_cons.mp hd with rfl | hmem
    · simp [zeroFields, lookupField]
    · have hne : ¬ d0.name = d.name := by
        intro e
        exact hn.1 (e ▸ List.mem_map_of_mem (·.name) hmem)
      simp [zeroFields, lookupField, hne, ih hn.2 hmem]

/-- A field of a struct decoded from the members of an object holds the decoding of
the last member under its key, or its zero value when there is none. -/
theorem decodeMembers_zero_field (ds : List (FieldDecl GoType))
    (hn : (ds.map (·.name)).Nodup) (hk : (ds.map (·.key)).Nodup)
    (d : FieldDecl GoType) (hd : d ∈ ds) (ms : List (String × JSON))
    (fs : List (FieldVal GoVal)) (h : decodeMembers ds ms (zeroFields ds) = .ok fs) :
    (lookupLast d.key ms = none ∧ lookupField d.name fs = zeroValue d.type) ∨
    ∃ jd v, lookupLast d.key ms = some jd ∧ decodeValue d.type jd = .ok v ∧
      lookupField d.name fs = v := by
  rcases decodeMembers_field ds hn hk d hd ms _ fs (names_zeroFields ds) h with
    ⟨hl, hf⟩ | hex
  · left
    exact ⟨hl, by rw [hf, lookupField_zeroFields ds d hn hd]⟩
  · right
    exact hex

/-- A successful decoding of an object into a new envelope leaves the members decoded
into the fields of the envelope, and every required key is the key of a member. -/
theorem decode_struct_ok (n : String) (ds : List (FieldDecl GoType))
    (ms : List (String × JSON)) (x : GoVal)
    (h : decode (.json (.obj ms)) (some ⟨.ptr (.struct n ds), new (.struct n ds)⟩) = (x, none)) :
    missingKey (.struct n ds) (.obj ms) = none ∧
    ∃ fs, decodeMembers ds ms (zeroFields ds) = .ok fs ∧ x = .ptr (.struct n fs) := by
  rw [decode_struct] at h
  rcases hm : missingKey (.struct n ds) (.obj ms) with _ | k
  · rw [hm] at h
    dsimp only at h
    rcases hdm : decodeMembers ds ms (zeroFields ds) with e | fs
    · rw [hdm] at h
      simp at h
    · rw [hdm] at h
      simp only [Prod.mk.injEq, and_true] at h
      exact ⟨rfl, fs, rfl, h.symm⟩
  · rw [hm] at h
    simp at h

/-- A successful decoding of an object into a new envelope: a field holds the decoding
of the last member under its key, or its zero value when there is none. -/
theorem decode_struct_field (n : String) (ds : List (FieldDecl GoType))
    (hn : (ds.map (·.name)).Nodup) (hk : (ds.map (·.key)).Nodup)
    (ms : List (String × JSON)) (x : GoVal)
    (h : decode (.json (.obj ms)) (some ⟨.ptr (.struct n ds), new (.struct n ds)⟩) = (x, none))
    (d : FieldDecl GoType) (hd : d ∈ ds) :
    (lookupLast d.key ms = none ∧ x.field d.name = zeroValue d.type) ∨
    ∃ jd v, lookupLast d.key ms = some jd ∧ decodeValue d.type jd = .ok v ∧
      x.field d.name = v := by
  obtain ⟨_, fs, hdm, hx⟩ := decode_struct_ok n ds ms x h
  subst hx
  exact decodeMembers_zero_field ds hn hk d hd ms fs hdm

/-- A successful decoding of an object into a new envelope: a field whose key is
required holds the decoding of the last member under its key. -/
theorem decode_struct_required (n : String) (ds : List (FieldDecl GoType))
    (hn : (ds.map (·.name)).Nodup) (hk : (ds.map (·.key)).Nodup)
    (ms : List (String × JSON)) (x : GoVal)
    (h : decode (.json (.obj ms)) (some ⟨.ptr (.struct n ds), new (.struct n ds)⟩) = (x, none))
    (d : FieldDecl GoType) (hd : d ∈ ds) (hreq : d.omitempty = false)
    (hmeta : d.type.isMetaPtr = false) :
    ∃ jd v, lookupLast d.key ms = some jd ∧ decodeValue d.type jd = .ok v ∧
      x.field d.name = v := by
  have hkey : d.key ∈ requiredKeys (.struct n ds) := by
    simp only [requiredKeys, GoType.fieldDecls, List.mem_map, List.mem_filter]
    exact ⟨d, ⟨hd, by simp [hreq, hmeta]⟩, rfl⟩
  rcases decode_struct_field n ds hn hk ms x h d hd with ⟨hl, _⟩ | hex
  · exact absurd hl (lookupLast_of_required _ ms (decode_struct_ok n ds ms x h).1 _ hkey)
  · exact hex

/-- The schema of the operations with a collection envelope. -/
theorem collectionOf_plan (op : Operation) (name key : String) (elem : GoType)
    (h : collectionOf op = some (name, key, elem)) :
    ∃ n, (plan op).shape = some (.struct n
        [⟨name, .slice elem, key, false⟩, ⟨"Meta", .ptr Meta, "meta", false⟩]) ∧
      (plan op).results = (fun x => [x.field name, x.field "Meta"]) ∧
      name ≠ "Meta" ∧ key ≠ "meta" := by
  cases op <;> simp only [collectionOf, Option.some.injEq, Prod.mk.injEq] at h <;>
    first
    | (obtain ⟨rfl, rfl, rfl⟩ := h
       exact ⟨_, rfl, rfl, by decide, by decide⟩)
    | cases h

/-- The handler over the dispatch layer, for a schema with an envelope, when the server
answers the request of the handler with a status from 200 to 299. -/
theorem run_specClient_decoded (cfg : Config) (p : Plan) (net : Net) (req : Request)
    (r : Response) (T : GoType) (hreq : requestOf cfg p = some req) (hT : p.shape = some T)
    (hs : 200 ≤ r.status ∧ r.status ≤ 299)
    (hsrv : net.server req net.roundTrips = .response r) :
    ((databaseHandler (specClient cfg)).run p (net, [])).1 =
      match decode r.body (some ⟨.ptr T, new T⟩) with
      | (_, some err) => ⟨p.zeros, some err⟩
      | (x, none) => ⟨p.results x, none⟩ := by
  rw [run_specClient_eq cfg p net req hreq, hT]
  dsimp only
  rw [DoWithContext_success cfg req _ net r hs hsrv]

/-- The cursors of a decoded Meta are the strings of the members next and prev of its
member links, as they stand. -/
theorem decodeValue_meta_cursor (mm lm : List (String × JSON)) (m : GoVal)
    (h : decodeValue (.ptr Meta) (.obj mm) = .ok m)
    (hl : lookupLast "links" mm = some (.obj lm)) :
    (∀ c, lookupLast "next" lm = some (.str c) → (m.field "Links").field "Next" = .str c) ∧
    (∀ c, lookupLast "prev" lm = some (.str c) → (m.field "Links").field "Prev" = .str c) := by
  simp only [decodeValue, GoType.deref, Meta, resolve, wrapPtr] at h
  rcases hm : decodeMembers [⟨"Total", .int, "total", false⟩, ⟨"Links", Links, "links", false⟩]
      mm (zeroFields [⟨"Total", .int, "total", false⟩, ⟨"Links", Links, "links", false⟩])
    with e | fs
  · rw [hm] at h; cases h
  · rw [hm] at h
    simp only [Except.ok.injEq] at h
    subst h
    rcases decodeMembers_zero_field _ (by decide) (by decide) ⟨"Links", Links, "links", false⟩
      (by simp) mm fs hm with ⟨hn, _⟩ | ⟨jl, vl, hjl, hvl, hf⟩
    · rw [hl] at hn; cases hn
    · rw [hl] at hjl
      simp only [Option.some.injEq] at hjl
      subst hjl
      simp only [decodeValue, GoType.deref, Links, resolve, wrapPtr] at hvl
      rcases hlm : decodeMembers [⟨"Next", .string, "next", false⟩,
          ⟨"Prev", .string, "prev", false⟩] lm
          (zeroFields [⟨"Next", .string, "next", false⟩, ⟨"Prev", .string, "prev", false⟩])
        with e | ls
      · rw [hlm] at hvl; cases hvl
      · rw [hlm] at hvl
        simp only [Except.ok.injEq] at hvl
        subst hvl
        have hLinks : (GoVal.ptr (.struct "Meta" fs)).field "Links" = .struct "Links" ls := hf
        rw [hLinks]
        constructor
        · intro c hc
          rcases decodeMembers_zero_field _ (by decide) (by decide)
            ⟨"Next", .string, "next", false⟩ (by simp) lm ls hlm with
            ⟨hn, _⟩ | ⟨jn, vn, hjn, hvn, hfn⟩
          · rw [hc] at hn; cases hn
          · rw [hc] at hjn
            simp only [Option.some.injEq] at hjn
            subst hjn
            simp only [decodeValue, GoType.deref, resolve, wrapPtr, Except.ok.injEq] at hvn
            subst hvn
            exact hfn
        · intro c hc
          rcases decodeMembers_zero_field _ (by decide) (by decide)
            ⟨"Prev", .string, "prev", false⟩ (by simp) lm ls hlm with
            ⟨hn, _⟩ | ⟨jn, vn, hjn, hvn, hfn⟩
          · rw [hc] at hn; cases hn
          · rw [hc] at hjn
            simp only [Option.some.injEq] at hjn
            subst hjn
            simp only [decodeValue, GoType.deref, resolve, wrapPtr, Except.ok.injEq] at hvn
            subst hvn
            exact hfn

/-- The decoding of an array into a slice keeps the number and the order of the
elements. -/
theorem decodeValue_slice (elem : GoType) (xs : List JSON) (coll : GoVal)
    (h : decodeValue (.slice elem) (.arr xs) = .ok coll) :
    ∃ vs, coll = .slice vs ∧ List.Forall₂ (fun x v => decodeValue elem x = .ok v) xs vs := by
  simp only [decodeValue, GoType.deref, resolve, wrapPtr] at h
  rcases he : decodeElems elem xs with e | vs
  · rw [he] at h; cases h
  · rw [he] at h
    simp only [Except.ok.injEq] at h
    exact ⟨vs, h.symm, decodeElems_forall₂ elem xs vs he⟩

/-- The result of a handler whose request is built and whose dispatch succeeds: the
results read off the envelope that dispatch populated, and a nil error. -/
theorem run_dispatch_success {ω : Type} (c : Client ω) (p : Plan) (T : GoType)
    (w w1 w2 : ω) (req dreq : Request) (x : GoVal) (hT : p.shape = some T)
    (h1 : c.NewRequest p.method p.uri p.body w = (.ok req, w1))
    (hd : dispatchOf p req = some dreq)
    (h2 : c.DoWithContext dreq (some ⟨.ptr T, new T⟩) w1 = ((x, none), w2)) :
    ((databaseHandler c).run p (w, [])).1 = ⟨p.results x, none⟩ := by
  unfold dispatchOf at hd
  simp only [DatabaseServiceHandler.run, Client.newRequest, Client.doWithContext,
    DatabaseServiceHandler.values, databaseHandler, hT, h1]
  rcases hopt : p.options with _ | o
  · rw [hopt] at hd
    simp only [Option.some.injEq] at hd
    subst hd
    simp [h2]
  · rw [hopt] at hd
    dsimp only at hd
    rcases hq : query.Values o with e | vs
    · rw [hq] at hd; cases hd
    · rw [hq] at hd
      simp only [Option.some.injEq] at hd
      subst hd
      simp [hq, h2]

/-- The decoding of an object into a new collection envelope succeeds when the object
has a member under the key of the collection and its members under the keys of the
collection and of the meta decode. -/
theorem decode_collection_total (n name key : String) (elem : GoType)
    (ms : List (String × JSON)) (hpresent : lookupLast key ms ≠ none)
    (hcoll : ∀ m ∈ ms, m.1 = key → ∃ v, decodeValue (.slice elem) m.2 = .ok v)
    (hmeta : ∀ m ∈ ms, m.1 = "meta" → ∃ v, decodeValue (.ptr Meta) m.2 = .ok v) :
    (decode (.json (.obj ms)) (some ⟨.ptr (.struct n
        [⟨name, .slice elem, key, false⟩, ⟨"Meta", .ptr Meta, "meta", false⟩]),
      new (.struct n
        [⟨name, .slice elem, key, false⟩, ⟨"Meta", .ptr Meta, "meta", false⟩])⟩)).2 = none := by
  rw [decode_struct]
  have hmk : missingKey (.struct n
      [⟨name, .slice elem, key, false⟩, ⟨"Meta", .ptr Meta, "meta", false⟩]) (.obj ms)
      = none := by
    have h1 : (GoType.slice elem).isMetaPtr = false := rfl
    have h2 : (GoType.ptr Meta).isMetaPtr = true := rfl
    have h3 : lookupKey key ms ≠ none := fun hn =>
      hpresent (lookupLast_none_of_lookupKey_none key ms hn)
    rcases hl : lookupKey key ms with _ | j
    · exact absurd hl h3
    · simp [missingKey, requiredKeys, GoType.fieldDecls, h1, h2, JSON.get, JSON.members, hl]
  rw [hmk]
  dsimp only
  obtain ⟨fs, hfs⟩ := decodeMembers_total
    [⟨name, .slice elem, key, false⟩, ⟨"Meta", .ptr Meta, "meta", false⟩] ms
    (zeroFields [⟨name, .slice elem, key, false⟩, ⟨"Meta", .ptr Meta, "meta", false⟩]) (by
      intro m hm d hd
      have hmem := List.mem_of_find?_eq_some hd
      have hkd : d.key = m.1 := by simpa using List.find?_some hd
      simp only [List.mem_cons, List.mem_singleton, List.not_mem_nil, or_false] at hmem
      rcases hmem with rfl | rfl
      · exact hcoll m hm hkd.symm
      · exact hmeta m hm hkd.symm)
  rw [hfs]

/-- C11: for ListPlans, List, ListUsers and ListDBs, with the envelope type of the
operation. With any client: when NewRequest builds the request and the dispatch of it
(with the encoded options as raw query, for List and ListPlans) into a new envelope
succeeds, the operation returns a nil error, the collection field and the field Meta of
the envelope that dispatch populated, as they stand. Over the dispatch layer, when the
server answers the request with a status from 200 to 299 and a JSON object and dispatch
succeeds: the collection returned is the decoding of the member under the named key
(plans, databases, users, dbs), an array being decoded element by element in the same
number and order; the Meta returned is nil when the object has no member meta, and else
the decoding of the member meta, whose cursors next and prev are the strings of its
member links, unchanged. And dispatch does succeed when the object has a member under
the named key and its members under that key and under meta decode. -/
theorem C11_collection_and_meta_of_the_envelope (cfg : Config) (op : Operation)
    (name key : String) (elem T : GoType)
    (hop : collectionOf op = some (name, key, elem)) (hT : (plan op).shape = some T) :
    (∀ (ω : Type) (c : Client ω) (w w1 w2 : ω) (req dreq : Request) (x : GoVal),
      c.NewRequest (plan op).method (plan op).uri (plan op).body w = (.ok req, w1) →
      dispatchOf (plan op) req = some dreq →
      c.DoWithContext dreq (some ⟨.ptr T, new T⟩) w1 = ((x, none), w2) →
      ((databaseHandler c).exec op (w, [])).1 = ⟨[x.field name, x.field "Meta"], none⟩) ∧
    (∀ (net : Net) (req : Request) (r : Response) (ms : List (String × JSON)),
      requestOf cfg (plan op) = some req →
      200 ≤ r.status ∧ r.status ≤ 299 → r.body = .json (.obj ms) →
      net.server req net.roundTrips = .response r →
      (DoWithContext cfg req (some ⟨.ptr T, new T⟩) net).1.2 = none →
      ∃ ja coll m, lookupLast key ms = some ja ∧
        decodeValue (.slice elem) ja = .ok coll ∧
        ((databaseHandler (specClient cfg)).exec op (net, [])).1 = ⟨[coll, m], none⟩ ∧
        (∀ xs, ja = .arr xs → ∃ vs, coll = .slice vs ∧
          List.Forall₂ (fun x v => decodeValue elem x = .ok v) xs vs) ∧
        (lookupLast "meta" ms = none → m = .nil) ∧
        (∀ jm, lookupLast "meta" ms = some jm →
          decodeValue (.ptr Meta) jm = .ok m ∧
          (jm = .null → m = .nil) ∧
          (∀ mm lm, jm = .obj mm → lookupLast "links" mm = some (.obj lm) →
            (∀ c, lookupLast "next" lm = some (.str c) →
              (m.field "Links").field "Next" = .str c) ∧
            (∀ c, lookupLast "prev" lm = some (.str c) →
              (m.field "Links").field "Prev" = .str c)))) ∧
    (∀ (net : Net) (req : Request) (r : Response) (ms : List (String × JSON)),
      requestOf cfg (plan op) = some req →
      200 ≤ r.status ∧ r.status ≤ 299 → r.body = .json (.obj ms) →
      net.server req net.roundTrips = .response r →
      lookupLast key ms ≠ none →
      (∀ m ∈ ms, m.1 = key → ∃ v, decodeValue (.slice elem) m.2 = .ok v) →
      (∀ m ∈ ms, m.1 = "meta" → ∃ v, decodeValue (.ptr Meta) m.2 = .ok v) →
      (DoWithContext cfg req (some ⟨.ptr T, new T⟩) net).1.2 = none) := by
  obtain ⟨n, hT2, hres, hname, hkey⟩ := collectionOf_plan op name key elem hop
  have hTeq : T = .struct n
      [⟨name, .slice elem, key, false⟩, ⟨"Meta", .ptr Meta, "meta", false⟩] := by
    rw [hT] at hT2
    exact Option.some.inj hT2
  subst hTeq
  refine ⟨?_, ?_, ?_⟩
  · intro ω c w w1 w2 req dreq x h1 hd h2
    rw [exec_eq_run, run_dispatch_success c (plan op) _ w w1 w2 req dreq x hT h1 hd h2, hres]
  · intro net req r ms hreq hs hb hsrv
    rw [exec_eq_run, run_specClient_decoded cfg (plan op) net req r _ hreq hT hs hsrv,
      DoWithContext_success cfg req _ net r hs hsrv, hb]
    rcases hdec : decode (.json (.obj ms)) (some ⟨.ptr (.struct n
        [⟨name, .slice elem, key, false⟩, ⟨"Meta", .ptr Meta, "meta", false⟩]),
        new (.struct n [⟨name, .slice elem, key, false⟩, ⟨"Meta", .ptr Meta, "meta", false⟩])⟩)
      with ⟨x, _ | e⟩
    · intro _
      have hn : (List.map (·.name) ([⟨name, .slice elem, key, false⟩,
          ⟨"Meta", .ptr Meta, "meta", false⟩] : List (FieldDecl GoType))).Nodup := by
        simp [hname]
      have hk : (List.map (·.key) ([⟨name, .slice elem, key, false⟩,
          ⟨"Meta", .ptr Meta, "meta", false⟩] : List (FieldDecl GoType))).Nodup := by
        simp [hkey]
      obtain ⟨ja, coll, hja, hcoll, hfa⟩ := decode_struct_required n _ hn hk ms x hdec
        ⟨name, .slice elem, key, false⟩ (by simp) rfl rfl
      have hmf := decode_struct_field n _ hn hk ms x hdec
        ⟨"Meta", .ptr Meta, "meta", false⟩ (by simp)
      refine ⟨ja, coll, x.field "Meta", hja, hcoll, ?_, ?_, ?_, ?_⟩
      · simp only [hres]
        rw [← hfa]
      · intro xs hxs
        subst hxs
        exact decodeValue_slice elem xs coll hcoll
      · intro hnone
        rcases hmf with ⟨_, hz⟩ | ⟨jm, v, hjm, _, _⟩
        · exact hz
        · rw [hnone] at hjm; cases hjm
      · intro jm hjm
        rcases hmf with ⟨hnone, _⟩ | ⟨jm2, v, hjm2, hv, hfv⟩
        · rw [hjm] at hnone; cases hnone
        · rw [hjm] at hjm2
          simp only [Option.some.injEq] at hjm2
          subst hjm2
          have hfv' : x.field "Meta" = v := hfv
          rw [hfv']
          refine ⟨hv, ?_, ?_⟩
          · intro hnull
            subst hnull
            simp only [decodeValue, resolve, zeroValue, Except.ok.injEq] at hv
            exact hv.symm
          · intro mm lm hmm hl
            subst hmm
            exact decodeValue_meta_cursor mm lm v hv hl
    · intro h
      simp at h
  · intro net req r ms hreq hs hb hsrv hpresent hcoll hmeta
    rw [DoWithContext_success cfg req _ net r hs hsrv, hb]
    exact decode_collection_total n name key elem ms hpresent hcoll hmeta

theorem C11_collection_and_meta_of_the_envelope_witness :
    collectionOf (.ListDBs "db-1") = some ("DatabaseDBs", "dbs", DatabaseDB) ∧
    (plan (.ListDBs "db-1")).shape = some databaseDBsBase ∧
    lookupLast "meta" dbsOnlyAnswer = none ∧
    ((databaseHandler (specClient exampleConfig)).exec (.ListDBs "db-1")
      (constantNet (okJSON (.obj dbsOnlyAnswer)), [])).1 =
      ⟨[.slice [.struct "DatabaseDB" [⟨"Name", "name", false, .str "alpha"⟩],
          .struct "DatabaseDB" [⟨"Name", "name", false, .str "beta"⟩]], .nil], none⟩ ∧
    (∃ ja coll m, lookupLast "dbs" dbsOnlyAnswer = some ja ∧
      decodeValue (.slice DatabaseDB) ja = .ok coll ∧
      ((databaseHandler (specClient exampleConfig)).exec (.ListDBs "db-1")
        (constantNet (okJSON (.obj dbsOnlyAnswer)), [])).1 = ⟨[coll, m], none⟩ ∧
      (∀ xs, ja = .arr xs → ∃ vs, coll = .slice vs ∧
        List.Forall₂ (fun x v => decodeValue DatabaseDB x = .ok v) xs vs) ∧
      (lookupLast "meta" dbsOnlyAnswer = none → m = .nil) ∧
      (∀ jm, lookupLast "meta" dbsOnlyAnswer = some jm →
        decodeValue (.ptr Meta) jm = .ok m ∧
        (jm = .null → m = .nil) ∧
        (∀ mm lm, jm = .obj mm → lookupLast "links" mm = some (.obj lm) →
          (∀ c, lookupLast "next" lm = some (.str c) →
            (m.field "Links").field "Next" = .str c) ∧
          (∀ c, lookupLast "prev" lm = some (.str c) →
            (m.field "Links").field "Prev" = .str c)))) ∧
    (∃ ja coll m, lookupLast "dbs" dbsAnswer = some ja ∧
      decodeValue (.slice DatabaseDB) ja = .ok coll ∧
      ((databaseHandler (specClient exampleConfig)).exec (.ListDBs "db-1")
        (constantNet (okJSON (.obj dbsAnswer)), [])).1 = ⟨[coll, m], none⟩ ∧
      (∀ xs, ja = .arr xs → ∃ vs, coll = .slice vs ∧
        List.Forall₂ (fun x v => decodeValue DatabaseDB x = .ok v) xs vs) ∧
      (lookupLast "meta" dbsAnswer = none → m = .nil) ∧
      (∀ jm, lookupLast "meta" dbsAnswer = some jm →
        decodeValue (.ptr Meta) jm = .ok m ∧
        (jm = .null → m = .nil) ∧
        (∀ mm lm, jm = .obj mm → lookupLast "links" mm = some (.obj lm) →
          (∀ c, lookupLast "next" lm = some (.str c) →
            (m.field "Links").field "Next" = .str c) ∧
          (∀ c, lookupLast "prev" lm = some (.str c) →
            (m.field "Links").field "Prev" = .str c)))) :=
  ⟨rfl, rfl, rfl, rfl,
    (C11_collection_and_meta_of_the_envelope exampleConfig (.ListDBs "db-1")
      "DatabaseDBs" "dbs" DatabaseDB databaseDBsBase rfl rfl).2.1
      (constantNet (okJSON (.obj dbsOnlyAnswer)))
      (buildRequest exampleConfig "GET" "/v2/databases/db-1/dbs" none)
      (okJSON (.obj dbsOnlyAnswer)) dbsOnlyAnswer rfl (by decide) rfl rfl rfl,
    (C11_collection_and_meta_of_the_envelope exampleConfig (.ListDBs "db-1")
      "DatabaseDBs" "dbs" DatabaseDB databaseDBsBase rfl rfl).2.1
      (constantNet (okJSON (.obj dbsAnswer)))
      (buildRequest exampleConfig "GET" "/v2/databases/db-1/dbs" none)
      (okJSON (.obj dbsAnswer)) dbsAnswer rfl (by decide) rfl rfl rfl⟩

/-- The schema of the operations that return a message. -/
theorem returnsMessage_plan (op : Operation) (h : returnsMessage op = true) :
    (plan op).options = none ∧ (plan op).shape = some databaseMessage ∧
      (plan op).zeros = [.str ""] ∧ (plan op).results = fun x => [x.field "Message"] := by
  cases op <;> simp [returnsMessage] at h <;> exact ⟨rfl, rfl, rfl, rfl⟩

/-- C12: for StartMaintenance and StartVersionUpgrade. With any client: when request
construction fails, or when it succeeds and dispatch fails, the result is the empty
string together with that error; when both succeed the result is the field Message
(key message) of the envelope that dispatch populated, together with a nil error. Over
the dispatch layer, when the server answers the request with a status from 200 to 299
and a JSON object and no error is returned, the string returned is the decoding of the
member message of the object: for a JSON string, that string. -/
theorem C12_message_of_the_envelope (cfg : Config) (op : Operation)
    (hop : returnsMessage op = true) :
    (∀ (ω : Type) (i : DatabaseServiceHandler ω) (w w1 : ω) (e : Error),
      i.client.NewRequest (plan op).method (plan op).uri (plan op).body w = (.error e, w1) →
      (i.exec op (w, [])).1 = ⟨[.str ""], some e⟩) ∧
    (∀ (ω : Type) (i : DatabaseServiceHandler ω) (w w1 w2 : ω) (req : Request) (x : GoVal)
        (e : Error),
      i.client.NewRequest (plan op).method (plan op).uri (plan op).body w = (.ok req, w1) →
      i.client.DoWithContext req (some ⟨.ptr databaseMessage, new databaseMessage⟩) w1
        = ((x, some e), w2) →
      (i.exec op (w, [])).1 = ⟨[.str ""], some e⟩) ∧
    (∀ (ω : Type) (i : DatabaseServiceHandler ω) (w w1 w2 : ω) (req : Request) (x : GoVal),
      i.client.NewRequest (plan op).method (plan op).uri (plan op).body w = (.ok req, w1) →
      i.client.DoWithContext req (some ⟨.ptr databaseMessage, new databaseMessage⟩) w1
        = ((x, none), w2) →
      (i.exec op (w, [])).1 = ⟨[x.field "Message"], none⟩) ∧
    (∀ (net : Net) (req : Request) (r : Response) (ms : List (String × JSON)),
      requestOf cfg (plan op) = some req →
      200 ≤ r.status ∧ r.status ≤ 299 → r.body = .json (.obj ms) →
      net.server req net.roundTrips = .response r →
      ((databaseHandler (specClient cfg)).exec op (net, [])).1.err = none →
      ∃ jm v, lookupLast "message" ms = some jm ∧ decodeValue .string jm = .ok v ∧
        ((databaseHandler (specClient cfg)).exec op (net, [])).1.vals = [v] ∧
        (∀ s, jm = .str s → v = .str s)) := by
  obtain ⟨hopt, hT, hz, hres⟩ := returnsMessage_plan op hop
  refine ⟨?_, ?_, ?_, ?_⟩
  · intro ω i w w1 e h1
    rw [exec_eq_run]
    simp [DatabaseServiceHandler.run, Client.newRequest, h1, hz]
  · intro ω i w w1 w2 req x e h1 h2
    rw [exec_eq_run]
    simp [DatabaseServiceHandler.run, Client.newRequest, Client.doWithContext, hopt, hT, h1,
      h2, hz]
  · intro ω i w w1 w2 req x h1 h2
    rw [exec_eq_run]
    simp [DatabaseServiceHandler.run, Client.newRequest, Client.doWithContext, hopt, hT, h1,
      h2, hres]
  · intro net req r ms hreq hs hb hsrv
    rw [exec_eq_run, run_specClient_decoded cfg (plan op) net req r _ hreq hT hs hsrv, hb]
    rcases hdec : decode (.json (.obj ms))
        (some ⟨.ptr (.struct "databaseMessage" [⟨"Message", .string, "message", false⟩]),
          new (.struct "databaseMessage" [⟨"Message", .string, "message", false⟩])⟩)
      with ⟨x, _ | e⟩
    · have hdec' : decode (.json (.obj ms)) (some ⟨.ptr databaseMessage, new databaseMessage⟩)
          = (x, none) := hdec
      rw [hdec']
      intro _
      obtain ⟨jm, v, hjm, hv, hf⟩ := decode_struct_required "databaseMessage" _
        (by decide) (by decide) ms x hdec ⟨"Message", .string, "message", false⟩ (by simp) rfl
        rfl
      refine ⟨jm, v, hjm, hv, ?_, ?_⟩
      · simp only [hres]
        rw [← hf]
      · intro s hs
        subst hs
        simp only [decodeValue, GoType.deref, resolve, wrapPtr, Except.ok.injEq] at hv
        exact hv.symm
    · have hdec' : decode (.json (.obj ms)) (some ⟨.ptr databaseMessage, new databaseMessage⟩)
          = (x, some e) := hdec
      rw [hdec']
      simp

theorem C12_message_of_the_envelope_witness :
    returnsMessage (.StartMaintenance "db-1") = true ∧
    ((databaseHandler (specClient exampleConfig)).exec (.StartMaintenance "db-1")
      (constantNet (okJSON (.obj messageAnswer)), [])).1
      = ⟨[.str "Maintenance started"], none⟩ :=
  ⟨rfl, (C12_message_of_the_envelope exampleConfig (.StartMaintenance "db-1") rfl).2.2.1
    Net (databaseHandler (specClient exampleConfig))
    (constantNet (okJSON (.obj messageAnswer)))
    (constantNet (okJSON (.obj messageAnswer)))
    { constantNet (okJSON (.obj messageAnswer)) with roundTrips := 1 }
    (buildRequest exampleConfig "POST" "/v2/databases/db-1/maintenance" none)
    (.ptr (.struct "databaseMessage"
      [⟨"Message", "message", false, .str "Maintenance started"⟩])) rfl rfl⟩

/-! ## The query of the list calls -/

theorem isEmptyValue_int (n : Int) : isEmptyValue (.int n) = decide (n = 0) := by
  by_cases h : n = 0 <;> simp [isEmptyValue, h]

/-- The query values of a DBListOptions. -/
theorem listOptions_values (l t r : String) :
    query.Values ⟨.ptr DBListOptions, listOptions l t r⟩ =
      .ok (queryValue "label" l ++ queryValue "tag" t ++ queryValue "region" r) := by
  by_cases hl : l = "" <;> by_cases ht : t = "" <;> by_cases hr : r = "" <;>
    simp [query.Values, listOptions, reflectValue, isEmptyValue_str, valueString, Values.Add,
      queryValue, hl, ht, hr]

/-- The query values of a DBPlanListOptions. -/
theorem planListOptions_values (engine : String) (nodes : Int) (region : String) :
    query.Values ⟨.ptr DBPlanListOptions, planListOptions engine nodes region⟩ =
      .ok (queryValue "engine" engine ++
        (if nodes = 0 then [] else [("nodes", [toString nodes])]) ++
        queryValue "region" region) := by
  by_cases hl : engine = "" <;> by_cases ht : nodes = 0 <;> by_cases hr : region = "" <;>
    simp [query.Values, planListOptions, reflectValue, isEmptyValue_str, isEmptyValue_int,
      valueString, Values.Add, queryValue, hl, ht, hr]

/-- The encoding of the query values of a DBListOptions: the keys in sorted order. -/
theorem listOptions_encode (l t r : String) :
    Values.Encode (queryValue "label" l ++ queryValue "tag" t ++ queryValue "region" r) =
      String.intercalate "&"
        (queryPair "label" l ++ queryPair "region" r ++ queryPair "tag" t) := by
  have e1 : url.QueryEscape "label" = "label" := by decide
  have e2 : url.QueryEscape "tag" = "tag" := by decide
  have e3 : url.QueryEscape "region" = "region" := by decide
  by_cases hl : l = "" <;> by_cases ht : t = "" <;> by_cases hr : r = "" <;>
    simp [Values.Encode, encodePairs, sortedKeys, insertKey, ltChars, Values.index,
      queryValue, queryPair, hl, ht, hr, e1, e2, e3]

/-- The encoding of the query values of a DBPlanListOptions: the keys in sorted
order. -/
theorem planListOptions_encode (engine : String) (nodes : Int) (region : String) :
    Values.Encode (queryValue "engine" engine ++
        (if nodes = 0 then [] else [("nodes", [toString nodes])]) ++
        queryValue "region" region) =
      String.intercalate "&" (queryPair "engine" engine ++
        (if nodes = 0 then [] else ["nodes=" ++ url.QueryEscape (toString nodes)]) ++
        queryPair "region" region) := by
  have e1 : url.QueryEscape "engine" = "engine" := by decide
  have e2 : url.QueryEscape "nodes" = "nodes" := by decide
  have e3 : url.QueryEscape "region" = "region" := by decide
  by_cases hl : engine = "" <;> by_cases ht : nodes = 0 <;> by_cases hr : region = "" <;>
    simp [Values.Encode, encodePairs, sortedKeys, insertKey, ltChars, Values.index,
      queryValue, queryPair, hl, ht, hr, e1, e2, e3]

/-- The values under each key of the query values of a DBListOptions. -/
theorem listOptions_index (l t r key : String) :
    Values.index (queryValue "label" l ++ queryValue "tag" t ++ queryValue "region" r) key =
      if key = "label" then (if l = "" then [] else [l])
      else if key = "tag" then (if t = "" then [] else [t])
      else if key = "region" then (if r = "" then [] else [r])
      else [] := by
  by_cases k1 : key = "label"
  · subst k1
    by_cases hl : l = "" <;> by_cases ht : t = "" <;> by_cases hr : r = "" <;>
      simp [Values.index, queryValue, hl, ht, hr]
  · by_cases k2 : key = "tag"
    · subst k2
      by_cases hl : l = "" <;> by_cases ht : t = "" <;> by_cases hr : r = "" <;>
        simp [Values.index, queryValue, hl, ht, hr]
    · by_cases k3 : key = "region"
      · subst k3
        by_cases hl : l = "" <;> by_cases ht : t = "" <;> by_cases hr : r = "" <;>
          simp [Values.index, queryValue, hl, ht, hr]
      · have k1' : ¬ "label" = key := fun e => k1 e.symm
        have k2' : ¬ "tag" = key := fun e => k2 e.symm
        have k3' : ¬ "region" = key := fun e => k3 e.symm
        by_cases hl : l = "" <;> by_cases ht : t = "" <;> by_cases hr : r = "" <;>
          simp [Values.index, queryValue, hl, ht, hr, k1, k2, k3, k1', k2', k3']

/-- The values under each key of the query values of a DBPlanListOptions. -/
theorem planListOptions_index (engine : String) (nodes : Int) (region key : String) :
    Values.index (queryValue "engine" engine ++
        (if nodes = 0 then [] else [("nodes", [toString nodes])]) ++
        queryValue "region" region) key =
      if key = "engine" then (if engine = "" then [] else [engine])
      else if key = "nodes" then (if nodes = 0 then [] else [toString nodes])
      else if key = "region" then (if region = "" then [] else [region])
      else [] := by
  by_cases k1 : key = "engine"
  · subst k1
    by_cases hl : engine = "" <;> by_cases ht : nodes = 0 <;> by_cases hr : region = "" <;>
      simp [Values.index, queryValue, hl, ht, hr]
  · by_cases k2 : key = "nodes"
    · subst k2
      by_cases hl : engine = "" <;> by_cases ht : nodes = 0 <;> by_cases hr : region = "" <;>
        simp [Values.index, queryValue, hl, ht, hr]
    · by_cases k3 : key = "region"
      · subst k3
        by_cases hl : engine = "" <;> by_cases ht : nodes = 0 <;>
          by_cases hr : region = "" <;>
          simp [Values.index, queryValue, hl, ht, hr]
      · have k1' : ¬ "engine" = key := fun e => k1 e.symm
        have k2' : ¬ "nodes" = key := fun e => k2 e.symm
        have k3' : ¬ "region" = key := fun e => k3 e.symm
        by_cases hl : engine = "" <;> by_cases ht : nodes = 0 <;>
          by_cases hr : region = "" <;>
          simp [Values.index, queryValue, hl, ht, hr, k1, k2, k3, k1', k2', k3']

/-- The requests that a handler dispatches, for a schema with query options whose
encoding succeeds: none when request construction fails, else the one request built,
with the encoded values as its raw query. -/
theorem run_dispatched {ω : Type} (c : Client ω) (p : Plan) (o : Iface) (vs : Values) (w : ω)
    (hopt : p.options = some o) (hq : query.Values o = .ok vs) :
    dispatched ((databaseHandler c).run p (w, [])).2.2 =
      match (c.NewRequest p.method p.uri p.body w).1 with
      | .error _ => []
      | .ok req => [{ req with URL := { req.URL with RawQuery := Values.Encode vs } }] := by
  simp only [DatabaseServiceHandler.run, Client.newRequest, Client.doWithContext,
    DatabaseServiceHandler.values, databaseHandler, hopt, hq]
  rcases h1 : c.NewRequest p.method p.uri p.body w with ⟨_ | req, w1⟩
  · simp [h1, dispatched]
  · rcases p.shape with _ | T
    · rcases h2 : c.DoWithContext
        { req with URL := { req.URL with RawQuery := Values.Encode vs } } none w1 with
        ⟨⟨x, _ | e⟩, w2⟩ <;> simp [h1, h2, dispatched]
    · rcases h2 : c.DoWithContext
        { req with URL := { req.URL with RawQuery := Values.Encode vs } }
        (some ⟨.ptr T, new T⟩) w1 with
        ⟨⟨x, _ | e⟩, w2⟩ <;> simp [h1, h2, dispatched]

/-- C13: for List called with options that point to a DBListOptions with the fields
Label, Tag and Region, and every client: query encoding succeeds; the values under the
key label (resp. tag, region) are the one value of the field when the field is not
empty and none when it is, and every other key has no values; and the request
dispatched, when request construction succeeds, has as raw query the pairs key=value
of the non-empty fields, each once, the value escaped, in the sorted order label,
region, tag. Likewise for ListPlans with the keys engine, nodes and region, where
nodes is present when Nodes is not zero, with the decimal text of the number. -/
theorem C13_query_of_the_list_options {ω : Type} (c : Client ω) (w : ω)
    (label tag region engine planRegion : String) (nodes : Int) :
    (∃ vs, query.Values ⟨.ptr DBListOptions, listOptions label tag region⟩ = .ok vs ∧
      (∀ key, Values.index vs key =
        if key = "label" then (if label = "" then [] else [label])
        else if key = "tag" then (if tag = "" then [] else [tag])
        else if key = "region" then (if region = "" then [] else [region])
        else []) ∧
      dispatched ((databaseHandler c).exec (.List (listOptions label tag region))
          (w, [])).2.2 =
        match (c.NewRequest http.MethodGet databasePath none w).1 with
        | .error _ => []
        | .ok req => [{ req with URL := { req.URL with RawQuery :=
            (String.intercalate "&"
              (queryPair "label" label ++ queryPair "region" region ++
                queryPair "tag" tag)) } }]) ∧
    (∃ vs, query.Values ⟨.ptr DBPlanListOptions, planListOptions engine nodes planRegion⟩
        = .ok vs ∧
      (∀ key, Values.index vs key =
        if key = "engine" then (if engine = "" then [] else [engine])
        else if key = "nodes" then (if nodes = 0 then [] else [toString nodes])
        else if key = "region" then (if planRegion = "" then [] else [planRegion])
        else []) ∧
      dispatched ((databaseHandler c).exec
          (.ListPlans (planListOptions engine nodes planRegion)) (w, [])).2.2 =
        match (c.NewRequest http.MethodGet (fmt.Sprintf "%s/plans" [databasePath]) none w).1
          with
        | .error _ => []
        | .ok req => [{ req with URL := { req.URL with RawQuery :=
            (String.intercalate "&"
              (queryPair "engine" engine ++
                (if nodes = 0 then [] else ["nodes=" ++ url.QueryEscape (toString nodes)]) ++
                queryPair "region" planRegion)) } }]) := by
  refine ⟨⟨_, listOptions_values label tag region, listOptions_index label tag region, ?_⟩,
    ⟨_, planListOptions_values engine nodes planRegion,
      planListOptions_index engine nodes planRegion, ?_⟩⟩
  · rw [exec_eq_run, run_dispatched c _ _ _ w rfl (listOptions_values label tag region),
      listOptions_encode]
    rfl
  · rw [exec_eq_run, run_dispatched c _ _ _ w rfl
      (planListOptions_values engine nodes planRegion), planListOptions_encode]
    rfl

/-! ## Rate limiting and API errors -/

/-- The attempts of a dispatch whose round trips are all answered with a 429 and whose
backoff waits are not interrupted: the retries allowed are all made, and the call ends
with a RateLimitError. -/
theorem attempts_throttled (cfg : Config) (req : Request) (v : Option Iface) :
    ∀ (left attempt : Nat) (net : Net),
      (∀ k, net.roundTrips ≤ k → k ≤ net.roundTrips + left →
        ∃ r, net.server req k = .response r ∧ r.status = 429) →
      (∀ k, net.waits.length ≤ k → k < net.waits.length + left →
        net.interrupted k = false) →
      (∃ message, (attempts cfg req v left attempt net).1.2 =
        some (.RateLimitError (attempt + left + 1) 429 message)) ∧
      (attempts cfg req v left attempt net).2.roundTrips = net.roundTrips + (1 + left) ∧
      (attempts cfg req v left attempt net).2.waits.length = net.waits.length + left := by
  intro left
  induction left with
  | zero =>
    intro attempt net h429 _
    obtain ⟨r, hsrv, hst⟩ := h429 net.roundTrips (Nat.le_refl _) (Nat.le_refl _)
    unfold attempts
    simp [roundTrip, hsrv, hst]
  | succ left ih =>
    intro attempt net h429 hwait
    obtain ⟨r, hsrv, hst⟩ := h429 net.roundTrips (Nat.le_refl _) (by omega)
    have hw := hwait net.waits.length (Nat.le_refl _) (by omega)
    unfold attempts
    simp only [roundTrip, hsrv, hst, sleep, hw]
    have key := ih (attempt + 1)
      { server := net.server, interrupted := net.interrupted,
        roundTrips := net.roundTrips + 1,
        waits := net.waits ++ [backoff cfg attempt r.retryAfter] }
      (by
        intro k hk1 hk2
        exact h429 k (by simp at hk1; omega) (by simp at hk2; omega))
      (by
        intro k hk1 hk2
        simp only [List.length_append, List.length_singleton] at hk1 hk2
        exact hwait k (by omega) (by omega))
    obtain ⟨⟨message, hm⟩, hr, hwl⟩ := key
    simp only [List.length_append, List.length_singleton] at hwl
    refine ⟨⟨message, ?_⟩, ?_, ?_⟩
    · simp only [show ¬ (200 ≤ 429 ∧ 429 ≤ 299) by omega, if_false, if_true] 
      simpa [show attempt + 1 + left + 1 = attempt + (left + 1) + 1 by omega] using hm
    · simp only [show ¬ (200 ≤ 429 ∧ 429 ≤ 299) by omega, if_false, if_true]
      simpa [show net.roundTrips + 1 + (1 + left) = net.roundTrips + (1 + (left + 1)) by omega]
        using hr
    · simp only [show ¬ (200 ≤ 429 ∧ 429 ≤ 299) by omega, if_false, if_true]
      simpa [show net.waits.length + 1 + left = net.waits.length + (left + 1) by omega]
        using hwl

/-- C16 (as stated) fails: with the retry budget 3 and a server that answers every
attempt with a 429, a call whose context is cancelled during the first backoff wait
ends with a CancellationError after one round trip, not with a RateLimitError after
four. -/
theorem C16_cancelled_wait_ends_the_call :
    exampleConfig.retryBudget = 3 ∧
    (∀ k, cancellingNet.server (buildRequest exampleConfig "GET" "/v2/databases" none) k
      = .response throttled) ∧
    throttled.status = 429 ∧
    (DoWithContext exampleConfig (buildRequest exampleConfig "GET" "/v2/databases" none)
      none cancellingNet).1.2 = some .CancellationError ∧
    (DoWithContext exampleConfig (buildRequest exampleConfig "GET" "/v2/databases" none)
      none cancellingNet).2.roundTrips = 1 :=
  ⟨rfl, fun _ => rfl, rfl, rfl, rfl⟩

/-- C16 (amended): for every retry budget and every call in which each attempt made
receives an HTTP 429 and no backoff wait is interrupted by a cancellation, the call
fails with a RateLimitError that carries the number of attempts made, one more than
the budget, and the status 429; the number of transport round trips of the call is
one more than the budget, and the number of its backoff waits is the budget. -/
theorem C16_rate_limit_past_the_budget (cfg : Config) (req : Request) (v : Option Iface)
    (net : Net)
    (h429 : ∀ k, net.roundTrips ≤ k → k ≤ net.roundTrips + cfg.retryBudget →
      ∃ r, net.server req k = .response r ∧ r.status = 429)
    (hwait : ∀ k, net.waits.length ≤ k → k < net.waits.length + cfg.retryBudget →
      net.interrupted k = false) :
    (∃ message, (DoWithContext cfg req v net).1.2 =
      some (.RateLimitError (cfg.retryBudget + 1) 429 message)) ∧
    (DoWithContext cfg req v net).2.roundTrips = net.roundTrips + (1 + cfg.retryBudget) ∧
    (DoWithContext cfg req v net).2.waits.length = net.waits.length + cfg.retryBudget := by
  have h := attempts_throttled cfg req v cfg.retryBudget 0 net h429 hwait
  simpa [DoWithContext] using h

theorem C16_rate_limit_past_the_budget_witness :
    (DoWithContext exampleConfig (buildRequest exampleConfig "GET" "/v2/databases" none)
      none (constantNet throttled)).1.2 = some (.RateLimitError 4 429 "rate limited") ∧
    (∃ message, (DoWithContext exampleConfig
      (buildRequest exampleConfig "GET" "/v2/databases" none) none
        (constantNet throttled)).1.2 =
      some (.RateLimitError (exampleConfig.retryBudget + 1) 429 message)) ∧
    (DoWithContext exampleConfig (buildRequest exampleConfig "GET" "/v2/databases" none)
      none (constantNet throttled)).2.roundTrips
      = (constantNet throttled).roundTrips + (1 + exampleConfig.retryBudget) ∧
    (DoWithContext exampleConfig (buildRequest exampleConfig "GET" "/v2/databases" none)
      none (constantNet throttled)).2.waits.length
      = (constantNet throttled).waits.length + exampleConfig.retryBudget :=
  ⟨rfl, C16_rate_limit_past_the_budget exampleConfig
    (buildRequest exampleConfig "GET" "/v2/databases" none) none (constantNet throttled)
    (fun _ _ _ => ⟨throttled, rfl, rfl⟩) (fun _ _ _ => rfl)⟩

/-- A response whose status is neither a success nor a 429 ends the dispatch at the
first round trip with the error of the response. -/
theorem DoWithContext_apiError (cfg : Config) (req : Request) (v : Option Iface) (net : Net)
    (r : Response) (hs : ¬ (200 ≤ r.status ∧ r.status ≤ 299)) (h429 : r.status ≠ 429)
    (hsrv : net.server req net.roundTrips = .response r) :
    (DoWithContext cfg req v net).1.2 = some (apiError cfg r) ∧
    (DoWithContext cfg req v net).2.roundTrips = net.roundTrips + 1 := by
  unfold DoWithContext
  cases cfg.retryBudget <;> (unfold attempts; simp [roundTrip, hsrv, hs, h429])

/-- The error of a response whose body has the shape of an API error. -/
theorem apiError_of_shape (cfg : Config) (r : Response) (j : JSON) (msg : String)
    (hb : r.body = .json j) (hm : j.get "error" = some (.str msg)) :
    ∃ code, apiError cfg r = .APIError r.status msg code := by
  simp only [apiError, hb, hm]
  exact ⟨_, rfl⟩

/-- A handler over the dispatch layer returns the error of a failed dispatch with the
results of its error path. -/
theorem run_specClient_error (cfg : Config) (p : Plan) (net : Net) (req : Request) (e : Error)
    (hreq : requestOf cfg p = some req)
    (h : ∀ v, (DoWithContext cfg req v net).1.2 = some e) :
    ((databaseHandler (specClient cfg)).run p (net, [])).1 = ⟨p.zeros, some e⟩ := by
  rw [run_specClient_eq cfg p net req hreq]
  rcases p.shape with _ | T
  · simp only [h]
  · simp only
    have hT := h (some ⟨.ptr T, new T⟩)
    rcases hd : (DoWithContext cfg req (some ⟨.ptr T, new T⟩) net).1 with ⟨x, _ | e2⟩
    · rw [hd] at hT; cases hT
    · rw [hd] at hT
      simp only [Option.some.injEq] at hT
      subst hT
      rfl

/-- C17: for every response whose status is neither from 200 to 299 nor 429 and whose
body is a JSON document with a string member error, the dispatch of a request that
receives it ends after one round trip with an APIError that carries the status of the
response and that string as message (hence neither a TransportError nor a
DecodeError); and every operation of DatabaseService whose request receives it
returns that error, with the zero value (nil, or the empty string) of each of its
other results. -/
theorem C17_api_error_of_the_body (cfg : Config) (req : Request) (net : Net) (r : Response)
    (j : JSON) (msg : String)
    (hs : ¬ (200 ≤ r.status ∧ r.status ≤ 299)) (h429 : r.status ≠ 429)
    (hb : r.body = .json j) (hm : j.get "error" = some (.str msg))
    (hsrv : net.server req net.roundTrips = .response r) :
    ∃ code,
      (∀ v, (DoWithContext cfg req v net).1.2 = some (.APIError r.status msg code) ∧
        (DoWithContext cfg req v net).2.roundTrips = net.roundTrips + 1) ∧
      (∀ op, requestOf cfg (plan op) = some req →
        ((databaseHandler (specClient cfg)).exec op (net, [])).1 =
          ⟨(resultTypes op).map zeroValue, some (.APIError r.status msg code)⟩) := by
  obtain ⟨code, hcode⟩ := apiError_of_shape cfg r j msg hb hm
  have hd : ∀ v, (DoWithContext cfg req v net).1.2 = some (.APIError r.status msg code) ∧
      (DoWithContext cfg req v net).2.roundTrips = net.roundTrips + 1 := by
    intro v
    rw [← hcode]
    exact DoWithContext_apiError cfg req v net r hs h429 hsrv
  refine ⟨code, hd, ?_⟩
  intro op hreq
  rw [exec_eq_run, run_specClient_error cfg (plan op) net req _ hreq (fun v => (hd v).1),
    zeros_eq_zeroValues]

theorem C17_api_error_of_the_body_witness :
    ¬ (200 ≤ notFound.status ∧ notFound.status ≤ 299) ∧ notFound.status ≠ 429 ∧
    (JSON.obj [("error", .str "not found")]).get "error" = some (.str "not found") ∧
    ((databaseHandler (specClient exampleConfig)).exec (.Get "db-1")
      (constantNet notFound, [])).1 = ⟨[.nil], some (.APIError 404 "not found" none)⟩ ∧
    ∃ code,
      (∀ v, (DoWithContext exampleConfig
          (buildRequest exampleConfig "GET" "/v2/databases/db-1" none) v
          (constantNet notFound)).1.2 = some (.APIError notFound.status "not found" code) ∧
        (DoWithContext exampleConfig
          (buildRequest exampleConfig "GET" "/v2/databases/db-1" none) v
          (constantNet notFound)).2.roundTrips = (constantNet notFound).roundTrips + 1) ∧
      (∀ op, requestOf exampleConfig (plan op)
          = some (buildRequest exampleConfig "GET" "/v2/databases/db-1" none) →
        ((databaseHandler (specClient exampleConfig)).exec op (constantNet notFound, [])).1 =
          ⟨(resultTypes op).map zeroValue,
            some (.APIError notFound.status "not found" code)⟩) :=
  ⟨by decide, by decide, rfl, rfl,
    C17_api_error_of_the_body exampleConfig
      (buildRequest exampleConfig "GET" "/v2/databases/db-1" none) (constantNet notFound)
      notFound (.obj [("error", .str "not found")]) "not found" (by decide) (by decide)
      rfl rfl rfl⟩

/-! ## The list of load balancers -/

/-- A value of the kind of a field decodes. -/
theorem decodeValue_of_fits (t : GoType) (j : JSON) (h : fits t j = true) :
    ∃ v, decodeValue t j = .ok v := by
  cases j with
  | null => exact ⟨zeroValue (resolve t), by simp [decodeValue]⟩
  | str s =>
    cases t <;> simp [fits] at h
    exact ⟨.str s, by simp [decodeValue, GoType.deref, resolve, wrapPtr]⟩
  | num n =>
    cases t <;> simp [fits] at h
    exact ⟨.int n, by simp [decodeValue, GoType.deref, resolve, wrapPtr, h]⟩
  | bool b => cases t <;> simp [fits] at h
  | float b => cases t <;> simp [fits] at h
  | arr xs => cases t <;> simp [fits] at h
  | obj ms => cases t <;> simp [fits] at h

/-- The elements of an array that decode one by one, decode. -/
theorem decodeElems_total (e : GoType) :
    ∀ xs : List JSON, (∀ x ∈ xs, ∃ v, decodeValue e x = .ok v) →
      ∃ vs, decodeElems e xs = .ok vs := by
  intro xs
  induction xs with
  | nil => intro _; exact ⟨[], by simp [decodeElems]⟩
  | cons x xs ih =>
    intro h
    obtain ⟨v, hv⟩ := h x (List.mem_cons_self _ _)
    obtain ⟨vs, hvs⟩ := ih (fun y hy => h y (List.mem_cons_of_mem _ hy))
    exact ⟨v :: vs, by simp [decodeElems, hv, hvs]⟩

/-- An object of a struct type decodes into a struct whose fields hold the decoding of
the last member under their key, or their zero value when there is none. -/
theorem decodeValue_object (n : String) (ds : List (FieldDecl GoType))
    (hn : (ds.map (·.name)).Nodup) (hk : (ds.map (·.key)).Nodup) (x : JSON)
    (hx : isObjectOf (.struct n ds) x = true) :
    ∃ ms fs, x = .obj ms ∧ decodeValue (.struct n ds) x = .ok (.struct n fs) ∧
      ∀ d ∈ ds,
        (lookupLast d.key ms = none ∧ lookupField d.name fs = zeroValue d.type) ∨
        ∃ jd v, lookupLast d.key ms = some jd ∧ decodeValue d.type jd = .ok v ∧
          lookupField d.name fs = v := by
  cases x with
  | obj ms =>
    simp only [isObjectOf, GoType.fieldDecls, List.all_eq_true] at hx
    obtain ⟨fs, hfs⟩ := decodeMembers_total ds ms (zeroFields ds) (by
      intro m hm d hd
      have := hx m hm
      rw [hd] at this
      exact decodeValue_of_fits _ _ this)
    refine ⟨ms, fs, rfl, ?_, ?_⟩
    · simp [decodeValue, GoType.deref, resolve, wrapPtr, hfs]
    · intro d hd
      exact decodeMembers_zero_field ds hn hk d hd ms fs hfs
  | null => simp [isObjectOf] at hx
  | bool b => simp [isObjectOf] at hx
  | num b => simp [isObjectOf] at hx
  | float b => simp [isObjectOf] at hx
  | str b => simp [isObjectOf] at hx
  | arr b => simp [isObjectOf] at hx

/-- An array of objects of a struct type decodes element by element, in the same number
and order. -/
theorem decodeElems_objects (n : String) (ds : List (FieldDecl GoType))
    (hn : (ds.map (·.name)).Nodup) (hk : (ds.map (·.key)).Nodup) :
    ∀ xs : List JSON, (∀ x ∈ xs, isObjectOf (.struct n ds) x = true) →
      ∃ vs, decodeElems (.struct n ds) xs = .ok vs ∧
        List.Forall₂ (fun x v => ∃ ms fs, x = .obj ms ∧ v = .struct n fs ∧
          ∀ d ∈ ds,
            (lookupLast d.key ms = none ∧ lookupField d.name fs = zeroValue d.type) ∨
            ∃ jd w, lookupLast d.key ms = some jd ∧ decodeValue d.type jd = .ok w ∧
              lookupField d.name fs = w) xs vs := by
  intro xs
  induction xs with
  | nil => intro _; exact ⟨[], by simp [decodeElems], List.Forall₂.nil⟩
  | cons x xs ih =>
    intro h
    obtain ⟨ms, fs, hx, hv, hf⟩ := decodeValue_object n ds hn hk x
      (h x (List.mem_cons_self _ _))
    obtain ⟨vs, hvs, hall⟩ := ih (fun y hy => h y (List.mem_cons_of_mem _ hy))
    refine ⟨.struct n fs :: vs, by simp [decodeElems, hv, hvs], ?_⟩
    exact List.Forall₂.cons ⟨ms, fs, hx, rfl, hf⟩ hall

/-- C18: over the dispatch layer, for the type LoadBalancers with any pairwise distinct
keys: when the server answers the request of LoadBalancer.List with a status from 200
to 299 and a JSON array of load balancer objects, List returns a nil error and a slice
with one element for each object, in the same order; in each element the fields ID,
DateCreated, Location, Label and Status hold the values of the last members SUBID,
date_created, location, label and status of its object, and every field whose key the
object lacks is at its zero value. -/
theorem C18_load_balancer_list (cfg : Config) (regionKey ipv4Key ipv6Key : String)
    (hkeys : ((LoadBalancers regionKey ipv4Key ipv6Key).fieldDecls.map (·.key)).Nodup)
    (net : Net) (r : Response) (xs : List JSON)
    (hs : 200 ≤ r.status ∧ r.status ≤ 299) (hb : r.body = .json (.arr xs))
    (hobj : ∀ x ∈ xs, isObjectOf (LoadBalancers regionKey ipv4Key ipv6Key) x = true)
    (hsrv : net.server (buildRequest cfg "GET" "/v1/loadbalancer/list" none) net.roundTrips
      = .response r) :
    ∃ vs, (LoadBalancerHandler.List (specClient cfg)
        (LoadBalancers regionKey ipv4Key ipv6Key) (net, [])).1 = ⟨[.slice vs], none⟩ ∧
      List.Forall₂ (fun x v => ∃ ms, x = .obj ms ∧
        (∀ n, lookupLast "SUBID" ms = some (.num n) → v.field "ID" = .int n) ∧
        (∀ s, lookupLast "date_created" ms = some (.str s) →
          v.field "DateCreated" = .str s) ∧
        (∀ s, lookupLast "location" ms = some (.str s) → v.field "Location" = .str s) ∧
        (∀ s, lookupLast "label" ms = some (.str s) → v.field "Label" = .str s) ∧
        (∀ s, lookupLast "status" ms = some (.str s) → v.field "Status" = .str s) ∧
        (∀ d ∈ (LoadBalancers regionKey ipv4Key ipv6Key).fieldDecls,
          lookupLast d.key ms = none → v.field d.name = zeroValue d.type)) xs vs := by
  have hn : ((LoadBalancers regionKey ipv4Key ipv6Key).fieldDecls.map (·.name)).Nodup := by
    simp only [LoadBalancers, GoType.fieldDecls, List.map]
    decide
  obtain ⟨vs, hvs, hall⟩ := decodeElems_objects "LoadBalancers"
    (LoadBalancers regionKey ipv4Key ipv6Key).fieldDecls hn hkeys xs hobj
  have hvs' : decodeElems (LoadBalancers regionKey ipv4Key ipv6Key) xs = .ok vs := hvs
  refine ⟨vs, ?_, ?_⟩
  · simp only [LoadBalancerHandler.List, Client.newRequest, Client.doWithContext, specClient,
      NewRequest, encodeBody, http.MethodGet]
    rw [DoWithContext_success cfg _ _ net r hs hsrv, hb]
    simp [decode, missingKey, requiredKeys, GoType.deref, GoType.fieldDecls, decodeValue,
      resolve, wrapPtr, hvs', GoVal.deref]
  · refine hall.imp ?_
    rintro x v ⟨ms, fs, hx, hv, hf⟩
    subst hx hv
    have str : ∀ (d : FieldDecl GoType), d ∈ (LoadBalancers regionKey ipv4Key ipv6Key).fieldDecls →
        d.type = .string → ∀ s, lookupLast d.key ms = some (.str s) →
        lookupField d.name fs = .str s := by
      intro d hd ht s hl
      rcases hf d hd with ⟨hnone, _⟩ | ⟨jd, w, hjd, hw, hfw⟩
      · rw [hl] at hnone; cases hnone
      · rw [hl] at hjd
        simp only [Option.some.injEq] at hjd
        subst hjd
        rw [ht] at hw
        simp only [decodeValue, GoType.deref, resolve, wrapPtr, Except.ok.injEq] at hw
        rw [hfw, ← hw]
    refine ⟨ms, rfl, ?_, ?_, ?_, ?_, ?_, ?_⟩
    · intro n hl
      rcases hf ⟨"ID", .int, "SUBID", false⟩ (by simp [LoadBalancers, GoType.fieldDecls]) with
        ⟨hnone, _⟩ | ⟨jd, w, hjd, hw, hfw⟩
      · rw [hl] at hnone; cases hnone
      · rw [hl] at hjd
        simp only [Option.some.injEq] at hjd
        subst hjd
        simp only [decodeValue, GoType.deref, resolve, wrapPtr] at hw
        split at hw
        · simp only [Except.ok.injEq] at hw
          exact hfw.trans hw.symm
        · cases hw
    · exact str ⟨"DateCreated", .string, "date_created", false⟩
        (by simp [LoadBalancers, GoType.fieldDecls]) rfl
    · exact str ⟨"Location", .string, "location", false⟩
        (by simp [LoadBalancers, GoType.fieldDecls]) rfl
    · exact str ⟨"Label", .string, "label", false⟩
        (by simp [LoadBalancers, GoType.fieldDecls]) rfl
    · exact str ⟨"Status", .string, "status", false⟩
        (by simp [LoadBalancers, GoType.fieldDecls]) rfl
    · intro d hd hl
      rcases hf d hd with ⟨_, hz⟩ | ⟨jd, w, hjd, _, _⟩
      · exact hz
      · rw [hl] at hjd; cases hjd

theorem C18_load_balancer_list_witness :
    (LoadBalancerHandler.List (specClient exampleConfig) (LoadBalancers "DCID" "ipv4" "ipv6")
      (constantNet (okJSON (.arr [loadBalancerAnswer])), [])).1 =
      ⟨[.slice [.struct "LoadBalancers" [
        ⟨"ID", "SUBID", false, .int 1317575⟩,
        ⟨"DateCreated", "date_created", false, .str "2020-01-07 17:24:23"⟩,
        ⟨"Location", "location", false, .str "New Jersey"⟩,
        ⟨"Label", "label", false, .str "test"⟩,
        ⟨"Status", "status", false, .str "active"⟩,
        ⟨"RegionID", "DCID", false, .int 0⟩,
        ⟨"IPV6", "ipv6", false, .str ""⟩,
        ⟨"IPV4", "ipv4", false, .str ""⟩]]], none⟩ ∧
    ∃ vs, (LoadBalancerHandler.List (specClient exampleConfig)
        (LoadBalancers "DCID" "ipv4" "ipv6")
        (constantNet (okJSON (.arr [loadBalancerAnswer])), [])).1 = ⟨[.slice vs], none⟩ ∧
      List.Forall₂ (fun x v => ∃ ms, x = .obj ms ∧
        (∀ n, lookupLast "SUBID" ms = some (.num n) → v.field "ID" = .int n) ∧
        (∀ s, lookupLast "date_created" ms = some (.str s) →
          v.field "DateCreated" = .str s) ∧
        (∀ s, lookupLast "location" ms = some (.str s) → v.field "Location" = .str s) ∧
        (∀ s, lookupLast "label" ms = some (.str s) → v.field "Label" = .str s) ∧
        (∀ s, lookupLast "status" ms = some (.str s) → v.field "Status" = .str s) ∧
        (∀ d ∈ (LoadBalancers "DCID" "ipv4" "ipv6").fieldDecls,
          lookupLast d.key ms = none → v.field d.name = zeroValue d.type))
        [loadBalancerAnswer] vs :=
  ⟨rfl, C18_load_balancer_list exampleConfig "DCID" "ipv4" "ipv6" (by decide)
    (constantNet (okJSON (.arr [loadBalancerAnswer])))
    (okJSON (.arr [loadBalancerAnswer])) [loadBalancerAnswer] (by decide) rfl
    (by intro x hx; rw [List.mem_singleton.mp hx]; rfl) rfl⟩

/-! ## Paths as functions of their arguments -/

/-- A text without the separator, followed by the separator and a rest, determines
both the text and the rest. -/
theorem split_at_separator (c : Char) :
    ∀ (a b r s : List Char), c ∉ a → c ∉ b → a ++ c :: r = b ++ c :: s → a = b ∧ r = s := by
  intro a
  induction a with
  | nil =>
    intro b r s _ hb h
    cases b with
    | nil =>
      simp only [List.nil_append, List.cons.injEq, true_and] at h
      exact ⟨rfl, h⟩
    | cons x b =>
      simp only [List.nil_append, List.cons_append, List.cons.injEq] at h
      exact absurd (h.1 ▸ List.mem_cons_self _ _) hb
  | cons x a ih =>
    intro b r s ha hb h
    cases b with
    | nil =>
      simp only [List.nil_append, List.cons_append, List.cons.injEq] at h
      exact absurd (h.1 ▸ List.mem_cons_self _ _) ha
    | cons y b =>
      simp only [List.cons_append, List.cons.injEq] at h
      obtain ⟨hab, hrs⟩ := ih b r s (fun hm => ha (List.mem_cons_of_mem _ hm))
        (fun hm => hb (List.mem_cons_of_mem _ hm)) h.2
      exact ⟨by rw [h.1, hab], hrs⟩

/-- The path of a user determines the database and the user, for identifiers of
databases without a slash. -/
theorem user_path_injective (databaseID username databaseID' username' : String)
    (h : '/' ∉ databaseID.data) (h' : '/' ∉ databaseID'.data)
    (heq : "/v2/databases/" ++ databaseID ++ "/users" ++ "/" ++ username =
      "/v2/databases/" ++ databaseID' ++ "/users" ++ "/" ++ username') :
    databaseID = databaseID' ∧ username = username' := by
  have hd := congrArg String.data heq
  simp only [String.data_append, List.append_assoc] at hd
  have hd2 := (List.append_right_inj _).mp hd
  have hd3 : databaseID.data ++ '/' :: (['u', 's', 'e', 'r', 's', '/'] ++ username.data) =
      databaseID'.data ++ '/' :: (['u', 's', 'e', 'r', 's', '/'] ++ username'.data) := hd2
  obtain ⟨h1, h2⟩ := split_at_separator '/' _ _ _ _ h h' hd3
  have h3 := (List.append_right_inj _).mp h2
  exact ⟨String.ext h1, String.ext h3⟩

/-- C21: the path that GetUser, UpdateUser and DeleteUser hand to NewRequest determines
their arguments: for all databaseID and databaseID' that contain no slash and all
username and username' (with or without a slash), with any clients, states and
bodies, two calls of the same operation that build the same method and path have the
same databaseID and the same username. -/
theorem C21_user_path_determines_arguments {ω ω' : Type} (i : DatabaseServiceHandler ω)
    (i' : DatabaseServiceHandler ω') (w : ω) (w' : ω')
    (databaseID username databaseID' username' : String) (body body' : GoVal)
    (h : '/' ∉ databaseID.data) (h' : '/' ∉ databaseID'.data) :
    (requestLine (i.exec (.GetUser databaseID username) (w, [])).2.2 =
        requestLine (i'.exec (.GetUser databaseID' username') (w', [])).2.2 →
      databaseID = databaseID' ∧ username = username') ∧
    (requestLine (i.exec (.UpdateUser databaseID username body) (w, [])).2.2 =
        requestLine (i'.exec (.UpdateUser databaseID' username' body') (w', [])).2.2 →
      databaseID = databaseID' ∧ username = username') ∧
    (requestLine (i.exec (.DeleteUser databaseID username) (w, [])).2.2 =
        requestLine (i'.exec (.DeleteUser databaseID' username') (w', [])).2.2 →
      databaseID = databaseID' ∧ username = username') := by
  refine ⟨?_, ?_, ?_⟩ <;>
  · simp only [exec_eq_run, run_requestLine, plan, sprintf_user, Option.some.injEq,
      Prod.mk.injEq]
    intro heq
    exact user_path_injective _ _ _ _ h h' heq.2

theorem C21_user_path_determines_arguments_witness :
    '/' ∉ "db-1".data ∧ '/' ∉ "db-2".data ∧
    requestLine ((databaseHandler refusingClient).exec (.GetUser "db-1" "alice") ((), [])).2.2 =
      some ("GET", "/v2/databases/db-1/users/alice") ∧
    requestLine ((databaseHandler refusingClient).exec (.GetUser "db-1" "alice") ((), [])).2.2 ≠
      requestLine ((databaseHandler (cannedClient .nil)).exec (.GetUser "db-2" "alice")
        ((), [])).2.2 :=
  ⟨by decide, by decide, rfl, fun heq =>
    absurd ((C21_user_path_determines_arguments (databaseHandler refusingClient)
      (databaseHandler (cannedClient .nil)) () () "db-1" "alice" "db-2" "alice" .nil .nil
      (by decide) (by decide)).1 heq).1 (by decide)⟩

/-! ## Single resources and collections -/

/-- The path of ListPlans. -/
theorem sprintf_plans : fmt.Sprintf "%s/plans" [databasePath] = "/v2/databases/plans" := by
  decide

/-- C22 (as stated) fails: the databaseID plans is not empty and contains no slash, and
Get with it hands NewRequest the same method and path as ListPlans, GET on
/v2/databases/plans; with nil options the requests dispatched are the same. -/
theorem C22_get_plans_aliases_list_plans :
    "plans" ≠ "" ∧ '/' ∉ "plans".data ∧
    requestLine ((databaseHandler refusingClient).exec (.Get "plans") ((), [])).2.2 =
      some ("GET", "/v2/databases/plans") ∧
    requestLine ((databaseHandler refusingClient).exec (.ListPlans .nil) ((), [])).2.2 =
      some ("GET", "/v2/databases/plans") ∧
    requestLine ((databaseHandler refusingClient).exec (.Get "plans") ((), [])).2.2 =
      requestLine ((databaseHandler refusingClient).exec (.ListPlans .nil) ((), [])).2.2 ∧
    dispatched ((databaseHandler (cannedClient .nil)).exec (.Get "plans") ((), [])).2.2 =
      dispatched ((databaseHandler (cannedClient .nil)).exec (.ListPlans .nil) ((), [])).2.2 :=
  ⟨by decide, by decide, rfl, rfl, rfl, rfl⟩

/-- C22 (amended): for every databaseID other than plans (empty or not, with or without
a slash), with any clients, states and options, the method and path that Get hands to
NewRequest differ from those of List and from those of ListPlans. -/
theorem C22_get_differs_from_the_lists {ω ω' : Type} (i : DatabaseServiceHandler ω)
    (i' : DatabaseServiceHandler ω') (w : ω) (w' : ω') (databaseID : String)
    (options : GoVal) (h : databaseID ≠ "plans") :
    requestLine (i.exec (.Get databaseID) (w, [])).2.2 ≠
      requestLine (i'.exec (.List options) (w', [])).2.2 ∧
    requestLine (i.exec (.Get databaseID) (w, [])).2.2 ≠
      requestLine (i'.exec (.ListPlans options) (w', [])).2.2 := by
  simp only [exec_eq_run, run_requestLine, plan, sprintf_database, sprintf_plans, ne_eq,
    Option.some.injEq, Prod.mk.injEq, not_and]
  constructor
  · intro _ heq
    have hl := congrArg String.length heq
    simp [databasePath] at hl
    have : ("/v2/databases/" : String).length = 14 := by decide
    have : ("/v2/databases" : String).length = 13 := by decide
    omega
  · intro _ heq
    apply h
    have hd := congrArg String.data heq
    have hp : ("/v2/databases/plans" : String).data
        = ("/v2/databases/" : String).data ++ ("plans" : String).data := by decide
    rw [String.data_append, hp] at hd
    exact String.ext ((List.append_right_inj _).mp hd)

theorem C22_get_differs_from_the_lists_witness :
    "db-1" ≠ "plans" ∧
    requestLine ((databaseHandler refusingClient).exec (.Get "db-1") ((), [])).2.2 ≠
      requestLine ((databaseHandler (cannedClient .nil)).exec (.List .nil) ((), [])).2.2 ∧
    requestLine ((databaseHandler refusingClient).exec (.Get "db-1") ((), [])).2.2 ≠
      requestLine ((databaseHandler (cannedClient .nil)).exec (.ListPlans .nil)
        ((), [])).2.2 :=
  ⟨by decide, C22_get_differs_from_the_lists (databaseHandler refusingClient)
    (databaseHandler (cannedClient .nil)) () () "db-1" .nil (by decide)⟩

/-! ## Nil options and zero options -/

/-- The outcome of a handler whose schema has query options depends on the options
only through their query values. -/
theorem run_same_values {ω : Type} (c : Client ω) (p : Plan) (o o' : Iface) (vs : Values)
    (w : ω) (hopt : p.options = some o) (hq : query.Values o = .ok vs)
    (hq' : query.Values o' = .ok vs) :
    ((databaseHandler c).run p (w, [])).1 =
      ((databaseHandler c).run { p with options := some o' } (w, [])).1 ∧
    ((databaseHandler c).run p (w, [])).2.1 =
      ((databaseHandler c).run { p with options := some o' } (w, [])).2.1 := by
  simp only [DatabaseServiceHandler.run, Client.newRequest, Client.doWithContext,
    DatabaseServiceHandler.values, databaseHandler, hopt, hq, hq']
  rcases h1 : c.NewRequest p.method p.uri p.body w with ⟨_ | req, w1⟩
  · simp [h1]
  · rcases p.shape with _ | T
    · rcases h2 : c.DoWithContext
        { req with URL := { req.URL with RawQuery := Values.Encode vs } } none w1 with
        ⟨⟨x, _ | e⟩, w2⟩ <;> simp [h1, h2]
    · rcases h2 : c.DoWithContext
        { req with URL := { req.URL with RawQuery := Values.Encode vs } }
        (some ⟨.ptr T, new T⟩) w1 with
        ⟨⟨x, _ | e⟩, w2⟩ <;> simp [h1, h2]

/-- C23: List called with nil options and List called with options whose fields are
all zero-valued: for both the query encoding succeeds with no values, whose encoding
is the empty raw query; with every client and in every state, both hand NewRequest the
method GET and the path /v2/databases, both dispatch (when request construction
succeeds) the request built with the empty raw query, and both return the same
results and leave the client in the same state. Likewise for ListPlans, with the path
/v2/databases/plans. -/
theorem C23_nil_options_as_zero_options {ω : Type} (c : Client ω) (w : ω) :
    (query.Values ⟨.ptr DBListOptions, .nil⟩ = .ok [] ∧
      query.Values ⟨.ptr DBListOptions, new DBListOptions⟩ = .ok [] ∧
      query.Values ⟨.ptr DBPlanListOptions, .nil⟩ = .ok [] ∧
      query.Values ⟨.ptr DBPlanListOptions, new DBPlanListOptions⟩ = .ok [] ∧
      Values.Encode [] = "") ∧
    (requestLine ((databaseHandler c).exec (.List .nil) (w, [])).2.2
        = some ("GET", "/v2/databases") ∧
      requestLine ((databaseHandler c).exec (.List (new DBListOptions)) (w, [])).2.2
        = some ("GET", "/v2/databases") ∧
      dispatched ((databaseHandler c).exec (.List .nil) (w, [])).2.2 =
        (match (c.NewRequest "GET" "/v2/databases" none w).1 with
        | .error _ => []
        | .ok req => [{ req with URL := { req.URL with RawQuery := "" } }]) ∧
      dispatched ((databaseHandler c).exec (.List (new DBListOptions)) (w, [])).2.2 =
        dispatched ((databaseHandler c).exec (.List .nil) (w, [])).2.2 ∧
      ((databaseHandler c).exec (.List (new DBListOptions)) (w, [])).1 =
        ((databaseHandler c).exec (.List .nil) (w, [])).1 ∧
      ((databaseHandler c).exec (.List (new DBListOptions)) (w, [])).2.1 =
        ((databaseHandler c).exec (.List .nil) (w, [])).2.1) ∧
    (requestLine ((databaseHandler c).exec (.ListPlans .nil) (w, [])).2.2
        = some ("GET", "/v2/databases/plans") ∧
      requestLine ((databaseHandler c).exec (.ListPlans (new DBPlanListOptions)) (w, [])).2.2
        = some ("GET", "/v2/databases/plans") ∧
      dispatched ((databaseHandler c).exec (.ListPlans .nil) (w, [])).2.2 =
        (match (c.NewRequest "GET" "/v2/databases/plans" none w).1 with
        | .error _ => []
        | .ok req => [{ req with URL := { req.URL with RawQuery := "" } }]) ∧
      dispatched ((databaseHandler c).exec (.ListPlans (new DBPlanListOptions)) (w, [])).2.2 =
        dispatched ((databaseHandler c).exec (.ListPlans .nil) (w, [])).2.2 ∧
      ((databaseHandler c).exec (.ListPlans (new DBPlanListOptions)) (w, [])).1 =
        ((databaseHandler c).exec (.ListPlans .nil) (w, [])).1 ∧
      ((databaseHandler c).exec (.ListPlans (new DBPlanListOptions)) (w, [])).2.1 =
        ((databaseHandler c).exec (.ListPlans .nil) (w, [])).2.1) := by
  have q1 : query.Values ⟨.ptr DBListOptions, .nil⟩ = .ok [] := rfl
  have q2 : query.Values ⟨.ptr DBListOptions, new DBListOptions⟩ = .ok [] := rfl
  have q3 : query.Values ⟨.ptr DBPlanListOptions, .nil⟩ = .ok [] := rfl
  have q4 : query.Values ⟨.ptr DBPlanListOptions, new DBPlanListOptions⟩ = .ok [] := rfl
  have enc : Values.Encode [] = "" := by decide
  refine ⟨⟨q1, q2, q3, q4, enc⟩, ⟨?_, ?_, ?_, ?_, ?_, ?_⟩, ⟨?_, ?_, ?_, ?_, ?_, ?_⟩⟩
  · rw [exec_eq_run, run_requestLine]; rfl
  · rw [exec_eq_run, run_requestLine]; rfl
  · rw [exec_eq_run, run_dispatched c _ _ _ w rfl q1, enc]; rfl
  · rw [exec_eq_run, exec_eq_run, run_dispatched c _ _ _ w rfl q2,
      run_dispatched c _ _ _ w rfl q1]; rfl
  · rw [exec_eq_run, exec_eq_run]
    exact ((run_same_values c (plan (.List .nil)) _ ⟨.ptr DBListOptions, new DBListOptions⟩
      [] w rfl q1 q2).1).symm
  · rw [exec_eq_run, exec_eq_run]
    exact ((run_same_values c (plan (.List .nil)) _ ⟨.ptr DBListOptions, new DBListOptions⟩
      [] w rfl q1 q2).2).symm
  · rw [exec_eq_run, run_requestLine, plan, sprintf_plans]; rfl
  · rw [exec_eq_run, run_requestLine, plan, sprintf_plans]; rfl
  · rw [exec_eq_run, run_dispatched c _ _ _ w rfl q3, enc]
    simp only [plan, sprintf_plans]
    rfl
  · rw [exec_eq_run, exec_eq_run, run_dispatched c _ _ _ w rfl q4,
      run_dispatched c _ _ _ w rfl q3]; rfl
  · rw [exec_eq_run, exec_eq_run]
    exact ((run_same_values c (plan (.ListPlans .nil)) _
      ⟨.ptr DBPlanListOptions, new DBPlanListOptions⟩ [] w rfl q3 q4).1).symm
  · rw [exec_eq_run, exec_eq_run]
    exact ((run_same_values c (plan (.ListPlans .nil)) _
      ⟨.ptr DBPlanListOptions, new DBPlanListOptions⟩ [] w rfl q3 q4).2).symm

end Govultr
